import Mathlib

/-!
AsynchronousGrabQt: transcode queue and capture session.

A shallow embedding of `ImageTranscoder.cpp` and `AcquisitionManager.cpp`.

Every call into the capture driver, the allocator, the renderer or the thread
library is recorded as an `Event`; an operation returns the new state together
with the list of events it issued, in program order.  Pointers are natural
numbers (`0` is `nullptr`), a frame pointer is represented by the frame it
points to.

Each critical section guarded by `m_inputMutex` is one atomic transition.  The
worker thread is a program counter (`Thread`) that `TranscodeLoopMember`
advances from one lock boundary to the next.
-/

namespace VmbC.Examples

/-! ## Driver types -/

abbrev VmbHandle := Nat

/-- A `VmbFrameCallback` function pointer, identified by its address. -/
abbrev VmbFrameCallback := Nat

abbrev VmbError := Int

/-- Constant `VmbErrorSuccess` of the VmbC API. -/
def VmbErrorSuccess : VmbError := 0

/-- Constant `VmbErrorResources` of the VmbC API. -/
def VmbErrorResources : VmbError := -14

/-- Constant `VmbFrameStatusComplete` of the VmbC API. -/
def VmbFrameStatusComplete : Int := 0

/-- Constant `VmbFrameFlagsDimension` of the VmbC API. -/
def VmbFrameFlagsDimension : Nat := 1

/-- The fields of `VmbFrame_t` the program reads or writes. -/
structure VmbFrame where
  buffer : Nat
  bufferSize : Nat
  context0 : Nat
  receiveStatus : Int
  receiveFlags : Nat
  imageData : Nat
  pixelFormat : Nat
  width : Nat
  height : Nat
deriving DecidableEq, Repr

/-- Calls that leave the program, in the order they are made. -/
inductive Event where
  | VmbCameraOpen (cameraIdString : String)
  | VmbCameraInfoQueryByHandle (cameraHandle : VmbHandle)
  | VmbCameraClose (cameraHandle : VmbHandle)
  | VmbFeatureCommandRun (handle : VmbHandle) (command : String)
  | VmbFeatureCommandIsDone (handle : VmbHandle) (command : String)
  | VmbFeatureIntGet (handle : VmbHandle) (feature : String)
  | printf (packetSize : Int)
  | VmbPayloadSizeGet (streamHandle : VmbHandle)
  | aligned_alloc (alignment : Nat) (size : Nat)
  | free (buffer : Nat)
  | VmbFrameAnnounce (camHandle : VmbHandle) (frame : VmbFrame)
  | VmbFrameRevokeAll (camHandle : VmbHandle)
  | VmbCaptureStart (camHandle : VmbHandle)
  | VmbCaptureEnd (camHandle : VmbHandle)
  | VmbCaptureQueueFlush (camHandle : VmbHandle)
  | VmbCaptureFrameQueue (handle : VmbHandle) (frame : VmbFrame) (callback : VmbFrameCallback)
  | notify_one
  | notify_all
  | threadStart
  | threadJoin
  | TranscodeImage (frame : VmbFrame)
  | ConvertedFrameReceived (frame : VmbFrame)
deriving DecidableEq, Repr

/-! ## VmbException -/

/-- A `VmbException`.  `m_exitCode` is `none` when the one-argument constructor
is used and the exit code is the default argument of the declaration. -/
structure VmbException where
  m_errorMessage : String
  m_exitCode : Option VmbError
deriving DecidableEq, Repr

/-- Factory `VmbException::ForOperation`. -/
def VmbException.ForOperation (exitCode : VmbError) (operation : String) : VmbException :=
  { m_errorMessage := operation ++ " call unsuccessful; exit code " ++ toString exitCode,
    m_exitCode := some exitCode }

/-- How a call can end other than by returning: a thrown `VmbException`, or the
end of the process (`std::terminate`, or a null pointer dereference). -/
inductive Failure where
  | exception (e : VmbException)
  | crash
deriving DecidableEq, Repr

/-! ## ImageTranscoder -/

/-- Class `ImageTranscoder::TransformationTask`: stream handle, re-enqueue
callback, frame and cancellation flag. -/
structure TransformationTask where
  m_streamHandle : VmbHandle
  m_callback : VmbFrameCallback
  m_frame : VmbFrame
  m_canceled : Bool
deriving DecidableEq, Repr

/-- Modelled from the spec: the initial value of `m_canceled`, which the
constructor `TransformationTask::TransformationTask` leaves to the member
initialiser of the class declaration; a task is not canceled until it is marked.
The other three members are set from the arguments. -/
def TransformationTask.new (streamHandle : VmbHandle) (callback : VmbFrameCallback)
    (frame : VmbFrame) : TransformationTask :=
  { m_streamHandle := streamHandle, m_callback := callback, m_frame := frame,
    m_canceled := false }

/-- Destructor `TransformationTask::~TransformationTask`: the driver calls it makes. -/
def TransformationTask.dtor (t : TransformationTask) : List Event :=
  if !t.m_canceled then
    [Event.VmbCaptureFrameQueue t.m_streamHandle t.m_frame t.m_callback]
  else
    []

/-- Destruction of a `std::unique_ptr<TransformationTask>`. -/
def TransformationTask.reset : Option TransformationTask → List Event
  | none => []
  | some t => t.dtor

/-- Where the worker thread stands in `TranscodeLoopMember`, seen at the
boundaries of its critical sections. -/
inductive Thread where
  /-- no thread is held by `m_thread` (never started, or joined) -/
  | notJoinable
  /-- at the head of the loop: holding the lock, or blocked in `wait` -/
  | waiting
  /-- the slot was swapped into `task` and the lock released; `TranscodeImage` not yet called -/
  | taken (task : Option TransformationTask)
  /-- conversion returned or its exception was swallowed; about to `lock.lock()` -/
  | transcoded (task : Option TransformationTask)
  /-- the loop function returned; the thread is still joinable -/
  | finished
  /-- the worker dereferenced an empty `task` -/
  | crashed
deriving DecidableEq, Repr

/-- The members of `ImageTranscoder` the queue logic uses. -/
structure ImageTranscoder where
  m_terminated : Bool
  m_task : Option TransformationTask
  m_thread : Thread
deriving DecidableEq, Repr

/-- Modelled from the spec: the state of a freshly constructed `ImageTranscoder`,
set by the member initialisers of the class declaration: stopped, empty slot,
no thread. -/
def ImageTranscoder.new : ImageTranscoder :=
  { m_terminated := true, m_task := none, m_thread := Thread.notJoinable }

/-- State, issued calls and failure (if any) of one call of a member function. -/
structure Result where
  state : ImageTranscoder
  trace : List Event
  failure : Option Failure
deriving DecidableEq, Repr

/-- The validation at the head of `PostImage`: the frame completed and carries
dimension data. -/
def PostImage.accepted (frame : VmbFrame) : Bool :=
  decide (frame.receiveStatus = VmbFrameStatusComplete)
    && decide (frame.receiveFlags &&& VmbFrameFlagsDimension = VmbFrameFlagsDimension)

/-- The local `message` of `PostImage`: the task constructed for the frame, if one is. -/
def PostImage.message (streamHandle : VmbHandle) (callback : VmbFrameCallback) :
    Option VmbFrame → Option TransformationTask
  | none => none
  | some frame =>
    if PostImage.accepted frame then
      some (TransformationTask.new streamHandle callback frame)
    else
      none

/-- Member function `ImageTranscoder::PostImage`. -/
def ImageTranscoder.PostImage (self : ImageTranscoder) (streamHandle : VmbHandle)
    (callback : VmbFrameCallback) (frame : Option VmbFrame) : Result :=
  match frame with
  | none => { state := self, trace := [], failure := none }
  | some f =>
    match PostImage.message streamHandle callback (some f) with
    | some message =>
      if self.m_terminated then
        -- message->m_canceled = true; message is destroyed at the end of the block
        { state := self,
          trace := TransformationTask.dtor { message with m_canceled := true },
          failure := none }
      else
        -- m_task = std::move(message) destroys the task held before; notify = true
        { state := { self with m_task := some message },
          trace := TransformationTask.reset self.m_task ++ [Event.notify_one],
          failure := none }
    | none =>
      { state := self,
        trace := [Event.VmbCaptureFrameQueue streamHandle f callback],
        failure := none }

/-- Member function `ImageTranscoder::Start`. -/
def ImageTranscoder.Start (self : ImageTranscoder) : Result :=
  if !self.m_terminated then
    { state := self, trace := [],
      failure := some (Failure.exception
        { m_errorMessage := "ImageTranscoder is still running", m_exitCode := none }) }
  else
    match self.m_thread with
    | Thread.notJoinable =>
      { state := { self with m_terminated := false, m_thread := Thread.waiting },
        trace := [Event.threadStart], failure := none }
    | _ =>
      -- move assignment to a joinable std::thread calls std::terminate
      { state := { self with m_terminated := false }, trace := [],
        failure := some Failure.crash }

/-- How one call of `TranscodeImage` ends, as far as the worker loop can tell. -/
inductive TranscodeResult where
  | returned
  | vmbException
  | bad_alloc
deriving DecidableEq, Repr

/-- The calls of `ImageTranscoder::TranscodeImage` visible to the queue: the
conversion itself and, when nothing was thrown, the delivery to the renderer. -/
def ImageTranscoder.TranscodeImage (conv : TranscodeResult) (task : TransformationTask) :
    List Event :=
  Event.TranscodeImage task.m_frame ::
    (match conv with
     | TranscodeResult.returned => [Event.ConvertedFrameReceived task.m_frame]
     | _ => [])

/-- One transition of `ImageTranscoder::TranscodeLoopMember`, from one boundary
of a critical section to the next.  `conv` is how `TranscodeImage` ends if this
transition calls it. -/
def ImageTranscoder.TranscodeLoopMember (conv : TranscodeResult) (self : ImageTranscoder) :
    ImageTranscoder × List Event :=
  match self.m_thread with
  | Thread.waiting =>
    if self.m_terminated then
      ({ self with m_thread := Thread.finished }, [])
    else
      match self.m_task with
      | none => (self, [])
      | some t => ({ self with m_task := none, m_thread := Thread.taken (some t) }, [])
  | Thread.taken task =>
    match task with
    | some t =>
      ({ self with m_thread := Thread.transcoded task }, ImageTranscoder.TranscodeImage conv t)
    | none => ({ self with m_thread := Thread.transcoded task }, [])
  | Thread.transcoded task =>
    if self.m_terminated then
      match task with
      | some t =>
        ({ self with m_thread := Thread.finished },
          TransformationTask.dtor { t with m_canceled := true })
      | none => ({ self with m_thread := Thread.crashed }, [])
    else
      ({ self with m_thread := Thread.waiting }, TransformationTask.reset task)
  | Thread.notJoinable => (self, [])
  | Thread.finished => (self, [])
  | Thread.crashed => (self, [])

/-- The worker runs `n` transitions; `conv i` is how a conversion called in
transition `i` ends. -/
def ImageTranscoder.runWorker (conv : Nat → TranscodeResult) :
    Nat → ImageTranscoder → ImageTranscoder × List Event
  | 0, self => (self, [])
  | n + 1, self =>
    let r := ImageTranscoder.runWorker conv n self
    let r1 := ImageTranscoder.TranscodeLoopMember (conv n) r.1
    (r1.1, r.2 ++ r1.2)

/-- Call `m_thread.join()` once `m_terminated` is set: the worker leaves its loop
within three transitions, then the thread is joined. -/
def ImageTranscoder.join (conv : TranscodeResult) (self : ImageTranscoder) : Result :=
  match self.m_thread with
  | Thread.notJoinable =>
    -- std::system_error inside a noexcept function
    { state := self, trace := [], failure := some Failure.crash }
  | _ =>
    let r := ImageTranscoder.runWorker (fun _ => conv) 3 self
    match r.1.m_thread with
    | Thread.finished =>
      { state := { r.1 with m_thread := Thread.notJoinable },
        trace := r.2 ++ [Event.threadJoin], failure := none }
    | _ => { state := r.1, trace := r.2, failure := some Failure.crash }

/-- Member function `ImageTranscoder::Stop`.  `conv` is how a conversion the worker has in
flight ends.  Line 124, `m_task->m_canceled;`, reads the flag and discards it. -/
def ImageTranscoder.Stop (conv : TranscodeResult) (self : ImageTranscoder) : Result :=
  if self.m_terminated then
    { state := self, trace := [], failure := none }
  else
    let dropped := TransformationTask.reset self.m_task
    let r := ImageTranscoder.join conv { self with m_terminated := true, m_task := none }
    { state := r.state, trace := dropped ++ Event.notify_all :: r.trace, failure := r.failure }

/-- Run `second` after `first` unless `first` failed; the traces are concatenated. -/
def Result.andThen (first : Result) (second : ImageTranscoder → Result) : Result :=
  match first.failure with
  | some _ => first
  | none =>
    let r := second first.state
    { state := r.state, trace := first.trace ++ r.trace, failure := r.failure }

/-- Number of `VmbCaptureFrameQueue` calls for `frame` in a trace. -/
def reenqueues (frame : VmbFrame) (trace : List Event) : Nat :=
  trace.countP fun e =>
    match e with
    | Event.VmbCaptureFrameQueue _ f _ => decide (f = frame)
    | _ => false

/-- Number of `TranscodeImage` calls for `frame` in a trace. -/
def conversions (frame : VmbFrame) (trace : List Event) : Nat :=
  trace.countP fun e =>
    match e with
    | Event.TranscodeImage f => decide (f = frame)
    | _ => false

/-! ## Capture session (AcquisitionManager.cpp) -/

/-- The fields of `VmbCameraInfo_t` the program reads; `streamHandle0` is
`streamHandles[0]`. -/
structure VmbCameraInfo where
  cameraIdString : String
  localDeviceHandle : VmbHandle
  streamCount : Nat
  streamHandle0 : VmbHandle
deriving DecidableEq, Repr

/-- What the capture driver and the allocator answer.  A field named after a
driver function gives the returned status and, where the function writes
through a pointer, the value written.  The third argument of
`VmbFeatureCommandIsDone` counts the polls since the command was run, the
second of `VmbFrameAnnounce` and `VmbCaptureFrameQueue` is the position of the
frame in `m_frames`, the third of `aligned_alloc` the number of buffers
allocated before; `aligned_alloc` answers `0` for a null pointer. -/
structure Driver where
  VmbCameraOpen : String → VmbError × VmbHandle
  VmbCameraInfoQueryByHandle : VmbHandle → VmbError × VmbCameraInfo
  VmbFeatureCommandRun : VmbHandle → String → VmbError
  VmbFeatureCommandIsDone : VmbHandle → String → Nat → VmbError × Bool
  VmbFeatureIntGet : VmbHandle → String → VmbError × Int
  VmbPayloadSizeGet : VmbHandle → VmbError × Nat
  aligned_alloc : Nat → Nat → Nat → Nat
  VmbFrameAnnounce : VmbHandle → Nat → VmbError
  VmbCaptureStart : VmbHandle → VmbError
  VmbCaptureFrameQueue : VmbHandle → Nat → VmbError

/-- Calls issued by a constructor or function, and what it returned or threw. -/
structure Run (α : Type) where
  trace : List Event
  result : Except VmbException α

/-- Feature name of the packet size adjustment command. -/
def AdjustPackageSizeCommand : String := "GVSPAdjustPacketSize"

/-- Address of the static member function `AcquisitionManager::FrameCallback`;
any value other than the null pointer will do. -/
def FrameCallbackAddress : VmbFrameCallback := 1

/-- Struct `AcquisitionManager::Frame`. -/
structure Frame where
  m_frame : VmbFrame
deriving DecidableEq, Repr

/-- Class `AcquisitionManager::AcquisitionLifetime`. -/
structure AcquisitionLifetime where
  m_camHandle : VmbHandle
  m_frames : List Frame
deriving DecidableEq, Repr

/-- Class `AcquisitionManager::StreamLifetime`. -/
structure StreamLifetime where
  m_payloadSize : Nat
  m_acquisitionLife : Option AcquisitionLifetime
deriving DecidableEq, Repr

/-- Class `AcquisitionManager::CameraAccessLifetime`. -/
structure CameraAccessLifetime where
  m_cameraHandle : VmbHandle
  m_streamLife : Option StreamLifetime
deriving DecidableEq, Repr

/-- Method `AcquisitionContext::FillFrame`: store the manager in `context[0]`. -/
def AcquisitionContext.FillFrame (m_acquisitionManager : Nat) (frame : Frame) : Frame :=
  { m_frame := { frame.m_frame with context0 := m_acquisitionManager } }

/-- Constructor `Frame::Frame`; `index` is the number of buffers allocated before. -/
def Frame.new (d : Driver) (index payloadSize bufferAlignment : Nat) : Run Frame :=
  if payloadSize > 4294967295 then
    { trace := [],
      result := Except.error
        { m_errorMessage := "payload size outside of allowed range", m_exitCode := none } }
  else
    let buffer := d.aligned_alloc bufferAlignment payloadSize index
    if buffer = 0 then
      { trace := [Event.aligned_alloc bufferAlignment payloadSize],
        result := Except.error
          { m_errorMessage := "Unable to allocate memory for frame",
            m_exitCode := some VmbErrorResources } }
    else
      { trace := [Event.aligned_alloc bufferAlignment payloadSize],
        result := Except.ok
          { m_frame :=
              { buffer := buffer, bufferSize := payloadSize % 4294967296, context0 := 0,
                receiveStatus := 0, receiveFlags := 0, imageData := 0, pixelFormat := 0,
                width := 0, height := 0 } } }

/-- Destructors `Frame::~Frame` of the elements of `m_frames`. -/
def Frame.freeAll (frames : List Frame) : List Event :=
  frames.map fun frame => Event.free frame.m_frame.buffer

/-- The allocation loop of `AcquisitionLifetime::AcquisitionLifetime`, `count`
iterations to go: the calls made, `m_frames` when the loop is left, and the
exception that left it, if any. -/
def AcquisitionLifetime.allocate (d : Driver) (payloadSize nBufferAlignment : Nat) :
    Nat → List Frame → List Event × List Frame × Option VmbException
  | 0, m_frames => ([], m_frames, none)
  | count + 1, m_frames =>
    let frame := Frame.new d m_frames.length payloadSize nBufferAlignment
    match frame.result with
    | Except.error e => (frame.trace, m_frames, some e)
    | Except.ok f =>
      let rest := AcquisitionLifetime.allocate d payloadSize nBufferAlignment count
        (m_frames ++ [f])
      (frame.trace ++ rest.1, rest.2)

/-- The announce loop of `AcquisitionLifetime::AcquisitionLifetime` over the
frames from position `index` on: the calls made, the frames as the loop leaves
them, and `error` when the loop is left. -/
def AcquisitionLifetime.announce (d : Driver) (camHandle : VmbHandle)
    (acquisitionManager : Nat) :
    Nat → List Frame → VmbError → List Event × List Frame × VmbError
  | _, [], error => ([], [], error)
  | index, frame :: rest, _ =>
    let filled := AcquisitionContext.FillFrame acquisitionManager frame
    let error := d.VmbFrameAnnounce camHandle index
    if error ≠ VmbErrorSuccess then
      ([Event.VmbFrameAnnounce camHandle filled.m_frame], filled :: rest, error)
    else
      let r := AcquisitionLifetime.announce d camHandle acquisitionManager (index + 1) rest
        error
      (Event.VmbFrameAnnounce camHandle filled.m_frame :: r.1, filled :: r.2.1, r.2.2)

/-- The enqueue loop of `AcquisitionLifetime::AcquisitionLifetime` over the
frames from position `index` on: the calls made, `error` and `numberEnqueued`
when the loop is left. -/
def AcquisitionLifetime.enqueue (d : Driver) (camHandle : VmbHandle) :
    Nat → List Frame → VmbError → Nat → List Event × VmbError × Nat
  | _, [], error, numberEnqueued => ([], error, numberEnqueued)
  | index, frame :: rest, _, numberEnqueued =>
    let error := d.VmbCaptureFrameQueue camHandle index
    let r := AcquisitionLifetime.enqueue d camHandle (index + 1) rest error
      (if error = VmbErrorSuccess then numberEnqueued + 1 else numberEnqueued)
    (Event.VmbCaptureFrameQueue camHandle frame.m_frame FrameCallbackAddress :: r.1, r.2)

/-- The polling loop of `RunCommand` from poll `k` on; `none` when the driver
neither fails nor reports done within `fuel` polls. -/
def RunCommand.poll (d : Driver) (camHandle : VmbHandle) (command : String) :
    Nat → Nat → Option (Run Unit)
  | 0, _ => none
  | fuel + 1, k =>
    let answer := d.VmbFeatureCommandIsDone camHandle command k
    if answer.1 ≠ VmbErrorSuccess then
      some { trace := [Event.VmbFeatureCommandIsDone camHandle command],
             result := Except.error
               (VmbException.ForOperation answer.1 "VmbFeatureCommandIsDone") }
    else if answer.2 then
      some { trace := [Event.VmbFeatureCommandIsDone camHandle command],
             result := Except.ok () }
    else
      (RunCommand.poll d camHandle command fuel (k + 1)).map fun r =>
        { r with trace := Event.VmbFeatureCommandIsDone camHandle command :: r.trace }

/-- Function `RunCommand`; `none` when the polling does not end within `fuel` polls. -/
def RunCommand (d : Driver) (camHandle : VmbHandle) (command : String) (fuel : Nat) :
    Option (Run Unit) :=
  let error := d.VmbFeatureCommandRun camHandle command
  if error ≠ VmbErrorSuccess then
    some { trace := [Event.VmbFeatureCommandRun camHandle command],
           result := Except.error (VmbException.ForOperation error "VmbFeatureCommandRun") }
  else
    (RunCommand.poll d camHandle command fuel 0).map fun r =>
      { r with trace := Event.VmbFeatureCommandRun camHandle command :: r.trace }

/-- Constructor `AcquisitionLifetime::AcquisitionLifetime`.  `BufferCount` is
the constant of the class declaration.  When the constructor throws, the
member `m_frames` is destroyed, which frees the buffers allocated so far. -/
def AcquisitionLifetime.new (d : Driver) (BufferCount : Nat) (camHandle : VmbHandle)
    (payloadSize nBufferAlignment acquisitionManager : Nat) (fuel : Nat) :
    Option (Run AcquisitionLifetime) :=
  let alloc := AcquisitionLifetime.allocate d payloadSize nBufferAlignment BufferCount []
  match alloc.2.2 with
  | some e =>
    some { trace := alloc.1 ++ Frame.freeAll alloc.2.1, result := Except.error e }
  | none =>
    let ann := AcquisitionLifetime.announce d camHandle acquisitionManager 0 alloc.2.1
      VmbErrorSuccess
    if ann.2.2 ≠ VmbErrorSuccess then
      some { trace := alloc.1 ++ ann.1 ++ [Event.VmbFrameRevokeAll camHandle]
                ++ Frame.freeAll ann.2.1,
             result := Except.error (VmbException.ForOperation ann.2.2 "VmbFrameAnnounce") }
    else
      let error := d.VmbCaptureStart camHandle
      if error ≠ VmbErrorSuccess then
        some { trace := alloc.1 ++ ann.1 ++ [Event.VmbCaptureStart camHandle]
                  ++ Frame.freeAll ann.2.1,
               result := Except.error (VmbException.ForOperation error "VmbCaptureStart") }
      else
        let enq := AcquisitionLifetime.enqueue d camHandle 0 ann.2.1 error 0
        if enq.2.2 = 0 then
          some { trace := alloc.1 ++ ann.1 ++ [Event.VmbCaptureStart camHandle] ++ enq.1
                    ++ [Event.VmbCaptureEnd camHandle] ++ Frame.freeAll ann.2.1,
                 result := Except.error
                   { m_errorMessage :=
                       "Non of the frames could be enqueued using VmbCaptureFrameQueue",
                     m_exitCode := some enq.2.1 } }
        else
          match RunCommand d camHandle "AcquisitionStart" fuel with
          | none => none
          | some run =>
            match run.result with
            | Except.error e =>
              some { trace := alloc.1 ++ ann.1 ++ [Event.VmbCaptureStart camHandle] ++ enq.1
                        ++ run.trace ++ [Event.VmbCaptureEnd camHandle]
                        ++ Frame.freeAll ann.2.1,
                     result := Except.error e }
            | Except.ok _ =>
              some { trace := alloc.1 ++ ann.1 ++ [Event.VmbCaptureStart camHandle] ++ enq.1
                        ++ run.trace,
                     result := Except.ok { m_camHandle := camHandle, m_frames := ann.2.1 } }

/-- The local `bufferAlignment` of `StreamLifetime::StreamLifetime`: the
`StreamBufferAlignment` feature read into a `VmbInt64_t` preset to 1, reset to
1 when the read fails or the value is below 1, then cast to a 64 bit `size_t`. -/
def StreamLifetime.bufferAlignment (d : Driver) (streamHandle : VmbHandle) : Nat :=
  let answer := d.VmbFeatureIntGet streamHandle "StreamBufferAlignment"
  let afterRead : Int := if VmbErrorSuccess ≠ answer.1 then 1 else answer.2
  let nStreamBufferAlignment : Int := if afterRead < 1 then 1 else afterRead
  (nStreamBufferAlignment % 18446744073709551616).toNat

/-- Constructor `StreamLifetime::StreamLifetime`. -/
def StreamLifetime.new (d : Driver) (BufferCount : Nat) (streamHandle cameraHandle : VmbHandle)
    (acquisitionManager : Nat) (fuel : Nat) : Option (Run StreamLifetime) :=
  let answer := d.VmbPayloadSizeGet streamHandle
  if answer.1 ≠ VmbErrorSuccess then
    some { trace := [Event.VmbPayloadSizeGet streamHandle],
           result := Except.error (VmbException.ForOperation answer.1 "VmbPayloadSizeGet") }
  else if answer.2 = 0 then
    some { trace := [Event.VmbPayloadSizeGet streamHandle],
           result := Except.error
             { m_errorMessage := "Non-zero payload size required", m_exitCode := none } }
  else
    let bufferAlignment := StreamLifetime.bufferAlignment d streamHandle
    let m_payloadSize := answer.2
    match AcquisitionLifetime.new d BufferCount cameraHandle m_payloadSize bufferAlignment
        acquisitionManager fuel with
    | none => none
    | some life =>
      some { trace := Event.VmbPayloadSizeGet streamHandle
                :: Event.VmbFeatureIntGet streamHandle "StreamBufferAlignment" :: life.trace,
             result := life.result.map fun a =>
               { m_payloadSize := m_payloadSize, m_acquisitionLife := some a } }

/-- The completion polling of the packet size adjustment from poll `k` on:
the polls made; `none` when the driver neither fails nor reports done within
`fuel` polls. -/
def CameraAccessLifetime.adjustPoll (d : Driver) (streamHandle : VmbHandle) :
    Nat → Nat → Option (List Event)
  | 0, _ => none
  | fuel + 1, k =>
    let answer := d.VmbFeatureCommandIsDone streamHandle AdjustPackageSizeCommand k
    if VmbErrorSuccess ≠ answer.1 then
      some [Event.VmbFeatureCommandIsDone streamHandle AdjustPackageSizeCommand]
    else if answer.2 = false then
      (CameraAccessLifetime.adjustPoll d streamHandle fuel (k + 1)).map fun t =>
        Event.VmbFeatureCommandIsDone streamHandle AdjustPackageSizeCommand :: t
    else
      some [Event.VmbFeatureCommandIsDone streamHandle AdjustPackageSizeCommand]

/-- The packet size adjustment block of `CameraAccessLifetime::CameraAccessLifetime`. -/
def CameraAccessLifetime.adjustPacketSize (d : Driver) (streamHandle : VmbHandle)
    (fuel : Nat) : Option (List Event) :=
  if VmbErrorSuccess = d.VmbFeatureCommandRun streamHandle AdjustPackageSizeCommand then
    (CameraAccessLifetime.adjustPoll d streamHandle fuel 0).map fun polls =>
      let answer := d.VmbFeatureIntGet streamHandle "GVSPPacketSize"
      let packetSize : Int := if answer.1 = VmbErrorSuccess then answer.2 else 0
      Event.VmbFeatureCommandRun streamHandle AdjustPackageSizeCommand :: polls
        ++ [Event.VmbFeatureIntGet streamHandle "GVSPPacketSize", Event.printf packetSize]
  else
    some [Event.VmbFeatureCommandRun streamHandle AdjustPackageSizeCommand]

/-- Constructor `CameraAccessLifetime::CameraAccessLifetime`; `none` when a
polling loop does not end within `fuel` polls. -/
def CameraAccessLifetime.new (d : Driver) (BufferCount : Nat) (camInfo : VmbCameraInfo)
    (acquisitionManager : Nat) (fuel : Nat) : Option (Run CameraAccessLifetime) :=
  let opened := d.VmbCameraOpen camInfo.cameraIdString
  if opened.1 ≠ VmbErrorSuccess then
    some { trace := [Event.VmbCameraOpen camInfo.cameraIdString],
           result := Except.error (VmbException.ForOperation opened.1 "VmbCameraOpen") }
  else
    let m_cameraHandle := opened.2
    let info := d.VmbCameraInfoQueryByHandle m_cameraHandle
    let refreshedCameraInfo := info.2
    let queried := [Event.VmbCameraOpen camInfo.cameraIdString,
      Event.VmbCameraInfoQueryByHandle m_cameraHandle]
    if info.1 ≠ VmbErrorSuccess then
      some { trace := queried ++ [Event.VmbCameraClose m_cameraHandle],
             result := Except.error (VmbException.ForOperation info.1 "VmbCameraOpen") }
    else if refreshedCameraInfo.localDeviceHandle = 0 then
      some { trace := queried ++ [Event.VmbCameraClose m_cameraHandle],
             result := Except.error
               { m_errorMessage :=
                   "The id could not be used to query the info of the correct camera",
                 m_exitCode := none } }
    else if refreshedCameraInfo.streamCount = 0 then
      some { trace := queried ++ [Event.VmbCameraClose m_cameraHandle],
             result := Except.error
               { m_errorMessage := "The camera does not provide a stream",
                 m_exitCode := none } }
    else
      match CameraAccessLifetime.adjustPacketSize d refreshedCameraInfo.streamHandle0 fuel with
      | none => none
      | some adjust =>
        match StreamLifetime.new d BufferCount refreshedCameraInfo.streamHandle0
            m_cameraHandle acquisitionManager fuel with
        | none => none
        | some stream =>
          match stream.result with
          | Except.error e =>
            some { trace := queried ++ adjust ++ stream.trace
                      ++ [Event.VmbCameraClose m_cameraHandle],
                   result := Except.error e }
          | Except.ok life =>
            some { trace := queried ++ adjust ++ stream.trace,
                   result := Except.ok
                     { m_cameraHandle := m_cameraHandle, m_streamLife := some life } }

/-- Calls that allocate, announce or enqueue a buffer or start hardware capture. -/
def Event.usesBuffers : Event → Bool
  | Event.aligned_alloc _ _ => true
  | Event.VmbFrameAnnounce _ _ => true
  | Event.VmbCaptureFrameQueue _ _ _ => true
  | Event.VmbCaptureStart _ => true
  | _ => false

/-- Calls of `VmbCameraClose`, whatever the handle. -/
def Event.isCameraClose : Event → Bool
  | Event.VmbCameraClose _ => true
  | _ => false

/-- Calls of `VmbCameraOpen`, whatever the id. -/
def Event.isCameraOpen : Event → Bool
  | Event.VmbCameraOpen _ => true
  | _ => false

/-! ## Closing the capture session -/

/-- Destructor `AcquisitionLifetime::~AcquisitionLifetime`, followed by the
destruction of the member `m_frames`; `none` when the polling of the
`AcquisitionStop` command does not end within `fuel` polls.  The exception of
`RunCommand` is caught and dropped. -/
def AcquisitionLifetime.dtor (d : Driver) (self : AcquisitionLifetime) (fuel : Nat) :
    Option (List Event) :=
  (RunCommand d self.m_camHandle "AcquisitionStop" fuel).map fun run =>
    run.trace
      ++ [Event.VmbCaptureEnd self.m_camHandle, Event.VmbCaptureQueueFlush self.m_camHandle,
          Event.VmbFrameRevokeAll self.m_camHandle]
      ++ Frame.freeAll self.m_frames

/-- Destructor `StreamLifetime::~StreamLifetime`: the body is empty, the member
`m_acquisitionLife` is destroyed. -/
def StreamLifetime.dtor (d : Driver) (self : StreamLifetime) (fuel : Nat) :
    Option (List Event) :=
  match self.m_acquisitionLife with
  | none => some []
  | some life => life.dtor d fuel

/-- Destructor `CameraAccessLifetime::~CameraAccessLifetime`: close the stream
first, then the camera. -/
def CameraAccessLifetime.dtor (d : Driver) (self : CameraAccessLifetime) (fuel : Nat) :
    Option (List Event) :=
  (match self.m_streamLife with
   | none => some []
   | some stream => stream.dtor d fuel).map fun closed =>
    closed ++ [Event.VmbCameraClose self.m_cameraHandle]

/-- The frames the driver holds as announced after a trace of calls, each of
which succeeded: `VmbFrameAnnounce` adds its frame, `VmbFrameRevokeAll` removes
all of them. -/
def stillAnnounced : List Event → List VmbFrame → List VmbFrame
  | [], announced => announced
  | Event.VmbFrameAnnounce _ frame :: rest, announced =>
    stillAnnounced rest (announced ++ [frame])
  | Event.VmbFrameRevokeAll _ :: rest, _ => stillAnnounced rest []
  | _ :: rest, announced => stillAnnounced rest announced

/-- Calls of `VmbFrameAnnounce`. -/
def Event.isFrameAnnounce : Event → Bool
  | Event.VmbFrameAnnounce _ _ => true
  | _ => false

/-- Calls of `VmbFrameRevokeAll`. -/
def Event.isFrameRevokeAll : Event → Bool
  | Event.VmbFrameRevokeAll _ => true
  | _ => false

/-- Calls that start the session: `VmbCaptureStart`, `VmbCaptureFrameQueue` and
the run of a command. -/
def Event.startsCapture : Event → Bool
  | Event.VmbCaptureStart _ => true
  | Event.VmbCaptureFrameQueue _ _ _ => true
  | Event.VmbFeatureCommandRun _ _ => true
  | _ => false

/-- Calls that take the session down: revoking the buffers, freeing a buffer,
closing the device. -/
def Event.closesSession : Event → Bool
  | Event.VmbFrameRevokeAll _ => true
  | Event.free _ => true
  | Event.VmbCameraClose _ => true
  | _ => false

/-! ## AcquisitionManager -/

/-- The members of `AcquisitionManager` the session logic uses. -/
structure AcquisitionManager where
  m_openCamera : Option CameraAccessLifetime
  m_imageTranscoder : ImageTranscoder
deriving DecidableEq, Repr

/-- State, issued calls and failure (if any) of a member function of
`AcquisitionManager`. -/
structure ManagerResult where
  state : AcquisitionManager
  trace : List Event
  failure : Option Failure
deriving DecidableEq, Repr

/-- Member function `AcquisitionManager::FrameReceived`. -/
def AcquisitionManager.FrameReceived (self : AcquisitionManager) (streamHandle : VmbHandle)
    (frame : Option VmbFrame) : ManagerResult :=
  let posted := self.m_imageTranscoder.PostImage streamHandle FrameCallbackAddress frame
  { state := { self with m_imageTranscoder := posted.state },
    trace := posted.trace, failure := posted.failure }

/-- Constructor `AcquisitionContext(VmbFrame_t const&)`: the manager pointer
read back from `context[0]`. -/
def AcquisitionContext.ofFrame (frame : VmbFrame) : Nat :=
  frame.context0

/-- Static member function `AcquisitionManager::FrameCallback`.  `memory` gives
the manager object at each address. -/
def AcquisitionManager.FrameCallback (memory : Nat → AcquisitionManager)
    (_cameraHandle streamHandle : VmbHandle) (frame : Option VmbFrame) :
    (Nat → AcquisitionManager) × List Event :=
  match frame with
  | none => (memory, [])
  | some f =>
    let m_acquisitionManager := AcquisitionContext.ofFrame f
    if m_acquisitionManager ≠ 0 then
      let received := (memory m_acquisitionManager).FrameReceived streamHandle (some f)
      (Function.update memory m_acquisitionManager received.state, received.trace)
    else
      (memory, [])

/-- Destructor `ImageTranscoder::~ImageTranscoder`. -/
def ImageTranscoder.dtor (conv : TranscodeResult) (self : ImageTranscoder) : Result :=
  if !self.m_terminated then
    self.Stop conv
  else
    { state := self, trace := [], failure := none }

/-- Member function `AcquisitionManager::StopAcquisition`; `none` when the
polling of the `AcquisitionStop` command does not end within `fuel` polls.
`conv` is how a conversion the worker has in flight ends. -/
def AcquisitionManager.StopAcquisition (d : Driver) (conv : TranscodeResult) (fuel : Nat)
    (self : AcquisitionManager) : Option ManagerResult :=
  let stopped := self.m_imageTranscoder.Stop conv
  match stopped.failure with
  | some f =>
    some { state := { self with m_imageTranscoder := stopped.state },
           trace := stopped.trace, failure := some f }
  | none =>
    match self.m_openCamera with
    | none =>
      some { state := { m_openCamera := none, m_imageTranscoder := stopped.state },
             trace := stopped.trace, failure := none }
    | some camera =>
      (camera.dtor d fuel).map fun closed =>
        { state := { m_openCamera := none, m_imageTranscoder := stopped.state },
          trace := stopped.trace ++ closed, failure := none }

/-- Destructor `AcquisitionManager::~AcquisitionManager`: `StopAcquisition`, a
second reset of `m_openCamera`, which is empty by then, and the destructor of
the member `m_imageTranscoder`. -/
def AcquisitionManager.dtor (d : Driver) (conv : TranscodeResult) (fuel : Nat)
    (self : AcquisitionManager) : Option ManagerResult :=
  (self.StopAcquisition d conv fuel).map fun stopped =>
    match stopped.failure with
    | some _ => stopped
    | none =>
      let member := stopped.state.m_imageTranscoder.dtor conv
      { state := { stopped.state with m_imageTranscoder := member.state },
        trace := stopped.trace ++ member.trace, failure := member.failure }

/-- The worker thread exists and holds no empty task: the thread states a
running queue can be in. -/
def Thread.live : Thread → Bool
  | Thread.waiting => true
  | Thread.taken (some _) => true
  | Thread.transcoded (some _) => true
  | _ => false

/-- The number M of the buffers at positions below `N` whose
`VmbCaptureFrameQueue` call at session start succeeds. -/
def successfulEnqueues (d : Driver) (camHandle : VmbHandle) (N : Nat) : Nat :=
  (List.range N).countP fun i => decide (d.VmbCaptureFrameQueue camHandle i = VmbErrorSuccess)

/-! ## Image (Image.cpp) and the conversion of a frame (ImageTranscoder.cpp) -/

/-- Constant `VmbPixelFormatBgra8` of the VmbC API. -/
def VmbPixelFormatBgra8 : Nat := 35651607

/-- Constant `VmbPixelFormatRgba8` of the VmbC API. -/
def VmbPixelFormatRgba8 : Nat := 35651606

/-- The two values of `QImage::Format` the program uses. -/
inductive QImageFormat where
  | Format_RGB32
  | Format_RGBX8888
deriving DecidableEq, Repr

/-- A `QSize`. -/
structure QSize where
  width : Int
  height : Int
deriving DecidableEq, Repr

/-- The members of class `Image`; `Data`, `Width`, `Height` and `Stride` are
the fields of the member `m_image` and of its `ImageInfo`. -/
structure Image where
  m_dataOwned : Bool
  m_pixelFormat : Nat
  m_capacity : Nat
  Data : Nat
  Width : Nat
  Height : Nat
  Stride : Nat
deriving DecidableEq, Repr

/-- The conversion `static_cast<int>` of a `size_t`, and the conversion to
`int` of any unsigned value: the value modulo 2^32, read as a 32 bit two's
complement number. -/
def static_cast_int (value : Nat) : Int :=
  if value % 4294967296 < 2147483648 then (value % 4294967296 : Nat)
  else ((value % 4294967296 : Nat) : Int) - 4294967296

/-- Modelled from the spec: the getter `Image::GetWidth` of the class
declaration, the width of the image. -/
def Image.GetWidth (self : Image) : Nat := self.Width

/-- Modelled from the spec: the getter `Image::GetHeight` of the class
declaration, the height of the image. -/
def Image.GetHeight (self : Image) : Nat := self.Height

/-- Modelled from the spec: the getter `Image::GetBytesPerLine` of the class
declaration, the stride of the image. -/
def Image.GetBytesPerLine (self : Image) : Nat := self.Stride

/-- Modelled from the spec: the getter `Image::GetData` of the class
declaration, the pixel buffer of the image. -/
def Image.GetData (self : Image) : Nat := self.Data

/-- The product of two `int`: the mathematical product modulo 2^32, read as a
32 bit two's complement number. -/
def int_mul (a b : Int) : Int :=
  static_cast_int ((a * b) % 4294967296).toNat

/-- The conversion of an `int` to a 64 bit `size_t`: the value modulo 2^64. -/
def size_t_of_int (value : Int) : Nat :=
  (value % 18446744073709551616).toNat

/-- The initializer of `requiredCapacity` in `Image::Convert`, the expression
`GetBytesPerLine() * GetHeight()`, for the values the two getters read.  The
getters are taken to return `int`, the type of the `QImage` constructor
arguments they supply in `TranscodeImage`: the factors are converted to `int`,
the product is taken in `int`, where a result out of range wraps, and then
converted to `size_t`. -/
def Image.sizeOfLayout (bytesPerLine height : Nat) : Nat :=
  size_t_of_int (int_mul (static_cast_int bytesPerLine) (static_cast_int height))

/-- What the image transform library and the allocator answer.
`VmbSetImageInfoFromPixelFormat` gives the status and the width, height and
stride it writes into the image info when it succeeds; `malloc` and `realloc`
answer `0` for a null pointer. -/
structure ImageLibrary where
  VmbSetImageInfoFromPixelFormat : Nat → Nat → Nat → VmbError × Nat × Nat × Nat
  malloc : Nat → Nat
  realloc : Nat → Nat → Nat
  VmbImageTransform : Image → Image → VmbError

/-- Calls that leave the conversion of an image, in the order they are made. -/
inductive ImageEvent where
  | VmbSetImageInfoFromPixelFormat (pixelFormat width height : Nat)
  | malloc (size : Nat)
  | realloc (data size : Nat)
  | VmbImageTransform (source destination : Image)
  | ConvertedFrameReceived (data width height bytesPerLine : Nat) (format : QImageFormat)
      (size : QSize)
deriving DecidableEq, Repr

/-- How `Convert` and `TranscodeImage` can end other than by returning. -/
inductive ImageFailure where
  | exception (e : VmbException)
  | bad_alloc
deriving DecidableEq, Repr

/-- The image after a call of `Convert`, the calls made and the failure, if any. -/
structure ConvertResult where
  image : Image
  trace : List ImageEvent
  failure : Option ImageFailure
deriving DecidableEq, Repr

/-- Modelled from the spec: the initial values of `m_dataOwned`, `m_capacity`
and the image info, which the constructor `Image::Image(VmbPixelFormat_t)`
leaves to the class declaration: an owning conversion target without a buffer.
The constructor itself sets the pixel format and a null `Data`. -/
def Image.new (pixelFormat : Nat) : Image :=
  { m_dataOwned := true, m_pixelFormat := pixelFormat, m_capacity := 0, Data := 0,
    Width := 0, Height := 0, Stride := 0 }

/-- Constructor `Image::Image(VmbFrame_t const&)`: a view on the buffer of the
frame; `m_capacity` keeps the initial value of the class declaration. -/
def Image.ofFrame (lib : ImageLibrary) (frame : VmbFrame) :
    List ImageEvent × Except VmbException Image :=
  let info := lib.VmbSetImageInfoFromPixelFormat frame.pixelFormat frame.width frame.height
  if info.1 ≠ VmbErrorSuccess then
    ([ImageEvent.VmbSetImageInfoFromPixelFormat frame.pixelFormat frame.width frame.height],
      Except.error (VmbException.ForOperation info.1 "VmbSetImageInfoFromPixelFormat"))
  else
    ([ImageEvent.VmbSetImageInfoFromPixelFormat frame.pixelFormat frame.width frame.height],
      Except.ok
        { m_dataOwned := false, m_pixelFormat := frame.pixelFormat, m_capacity := 0,
          Data := frame.imageData, Width := info.2.1, Height := info.2.2.1,
          Stride := info.2.2.2 })

/-- The last step of `Image::Convert`: the call of `VmbImageTransform`. -/
def Image.transform (lib : ImageLibrary) (self conversionSource : Image)
    (calls : List ImageEvent) : ConvertResult :=
  let error := lib.VmbImageTransform conversionSource self
  { image := self,
    trace := calls ++ [ImageEvent.VmbImageTransform conversionSource self],
    failure :=
      if error ≠ VmbErrorSuccess then
        some (ImageFailure.exception (VmbException.ForOperation error "VmbImageTransform"))
      else none }

/-- The part of `Image::Convert` after the test for the same object: layout,
growth of the buffer, transform.  The image info is taken as written only when
`VmbSetImageInfoFromPixelFormat` succeeds. -/
def Image.convertFrom (lib : ImageLibrary) (self conversionSource : Image) : ConvertResult :=
  let info := lib.VmbSetImageInfoFromPixelFormat self.m_pixelFormat
    conversionSource.GetWidth conversionSource.GetHeight
  let setInfo := ImageEvent.VmbSetImageInfoFromPixelFormat self.m_pixelFormat
    conversionSource.GetWidth conversionSource.GetHeight
  if info.1 ≠ VmbErrorSuccess then
    { image := self, trace := [setInfo],
      failure := some (ImageFailure.exception
        (VmbException.ForOperation info.1 "VmbSetImageInfoFromPixelFormat")) }
  else
    let layout : Image :=
      { self with Width := info.2.1, Height := info.2.2.1, Stride := info.2.2.2 }
    let requiredCapacity := Image.sizeOfLayout layout.GetBytesPerLine layout.GetHeight
    if requiredCapacity > layout.m_capacity then
      if layout.Data = 0 then
        let newData := lib.malloc requiredCapacity
        if newData = 0 then
          { image := layout, trace := [setInfo, ImageEvent.malloc requiredCapacity],
            failure := some ImageFailure.bad_alloc }
        else
          Image.transform lib { layout with Data := newData, m_capacity := requiredCapacity }
            conversionSource [setInfo, ImageEvent.malloc requiredCapacity]
      else
        let newData := lib.realloc layout.Data requiredCapacity
        if newData = 0 then
          { image := layout, trace := [setInfo, ImageEvent.realloc layout.Data requiredCapacity],
            failure := some ImageFailure.bad_alloc }
        else
          Image.transform lib { layout with Data := newData, m_capacity := requiredCapacity }
            conversionSource [setInfo, ImageEvent.realloc layout.Data requiredCapacity]
    else
      Image.transform lib layout conversionSource [setInfo]

/-- Member function `Image::Convert`.  `this` is the address of the image,
`sourceAddress` the address of `conversionSource`. -/
def Image.Convert (lib : ImageLibrary) (self : Image) (this : Nat) (conversionSource : Image)
    (sourceAddress : Nat) : ConvertResult :=
  if sourceAddress = this then
    { image := self, trace := [], failure := none }
  else
    Image.convertFrom lib self conversionSource

/-- Calls of `malloc` and `realloc`. -/
def ImageEvent.isAllocation : ImageEvent → Bool
  | ImageEvent.malloc _ => true
  | ImageEvent.realloc _ _ => true
  | _ => false

/-- Calls of `VmbImageTransform`. -/
def ImageEvent.isTransform : ImageEvent → Bool
  | ImageEvent.VmbImageTransform _ _ => true
  | _ => false

/-- The bytes of a `uint32_t` in memory, lowest address first, on a system that
stores the least significant byte first (`littleEndianStorage`) or last. -/
def uint32Bytes (littleEndianStorage : Bool) (value : Nat) : List Nat :=
  let bytes := [value % 256, value / 256 % 256, value / 65536 % 256, value / 16777216 % 256]
  if littleEndianStorage then bytes else bytes.reverse

/-- Function `IsLittleEndian`: the first byte of the `uint32_t` 1 is 1. -/
def IsLittleEndian (littleEndianStorage : Bool) : Bool :=
  (uint32Bytes littleEndianStorage 1).head? == some 1

/-- Class `ImageFormats`. -/
structure ImageFormats where
  QtImageFormat : QImageFormat
  VmbTransformFormat : Nat
deriving DecidableEq, Repr

/-- Private constructor `ImageFormats::ImageFormats(bool littleEndian)`. -/
def ImageFormats.ofBool (littleEndian : Bool) : ImageFormats :=
  { QtImageFormat :=
      if littleEndian then QImageFormat.Format_RGB32 else QImageFormat.Format_RGBX8888,
    VmbTransformFormat := if littleEndian then VmbPixelFormatBgra8 else VmbPixelFormatRgba8 }

/-- The constant `ConversionFormats`, built by the default constructor of
`ImageFormats` on a system of the given byte order. -/
def ConversionFormats (littleEndianStorage : Bool) : ImageFormats :=
  ImageFormats.ofBool (IsLittleEndian littleEndianStorage)

/-- The members of `ImageTranscoder` that `TranscodeImage` uses. -/
structure TranscodeTarget where
  m_transformTarget : Option Image
  m_outputSize : QSize
deriving DecidableEq, Repr

/-- The members after a call of `TranscodeImage`, the calls made and the
failure, if any. -/
structure TranscodeOutcome where
  state : TranscodeTarget
  trace : List ImageEvent
  failure : Option ImageFailure
deriving DecidableEq, Repr

/-- Member function `ImageTranscoder::TranscodeImage`, on a system of the given
byte order.  The source is a local object and the target lives on the heap, so
`Convert` is past its test for the same object. -/
def TranscodeTarget.TranscodeImage (littleEndianStorage : Bool) (lib : ImageLibrary)
    (self : TranscodeTarget) (task : TransformationTask) : TranscodeOutcome :=
  let source := Image.ofFrame lib task.m_frame
  match source.2 with
  | Except.error e =>
    { state := self, trace := source.1, failure := some (ImageFailure.exception e) }
  | Except.ok src =>
    let target :=
      match self.m_transformTarget with
      | some t => t
      | none => Image.new (ConversionFormats littleEndianStorage).VmbTransformFormat
    let converted := Image.convertFrom lib target src
    match converted.failure with
    | some f =>
      { state := { self with m_transformTarget := some converted.image },
        trace := source.1 ++ converted.trace, failure := some f }
    | none =>
      { state := { self with m_transformTarget := some converted.image },
        trace := source.1 ++ converted.trace
          ++ [ImageEvent.ConvertedFrameReceived converted.image.GetData
                converted.image.GetWidth converted.image.GetHeight
                converted.image.GetBytesPerLine
                (ConversionFormats littleEndianStorage).QtImageFormat self.m_outputSize],
        failure := none }

/-- The local `requiredCapacity` of `Image::Convert`: the product, as the code
computes it, of bytes per line and height of the layout that
`VmbSetImageInfoFromPixelFormat` writes for the target's pixel format and the
source's width and height. -/
def Image.requiredCapacity (lib : ImageLibrary) (self conversionSource : Image) : Nat :=
  Image.sizeOfLayout
    (lib.VmbSetImageInfoFromPixelFormat self.m_pixelFormat conversionSource.GetWidth
      conversionSource.GetHeight).2.2.2
    (lib.VmbSetImageInfoFromPixelFormat self.m_pixelFormat conversionSource.GetWidth
      conversionSource.GetHeight).2.2.1

/-! ## Runs of the transcode queue -/

/-- What the worker loop sees of a call of `TranscodeImage`: it returned, or it
threw a `VmbException`, or `std::bad_alloc`. -/
def TranscodeOutcome.toResult (outcome : TranscodeOutcome) : TranscodeResult :=
  match outcome.failure with
  | none => TranscodeResult.returned
  | some (ImageFailure.exception _) => TranscodeResult.vmbException
  | some ImageFailure.bad_alloc => TranscodeResult.bad_alloc

/-- Number of images handed to the renderer for `frame` in a trace. -/
def deliveries (frame : VmbFrame) (trace : List Event) : Nat :=
  trace.countP fun e =>
    match e with
    | Event.ConvertedFrameReceived f => decide (f = frame)
    | _ => false

/-- Images handed to the renderer by `TranscodeImage`. -/
def ImageEvent.isDelivery : ImageEvent → Bool
  | ImageEvent.ConvertedFrameReceived _ _ _ _ _ _ => true
  | _ => false

/-- One operation on the queue, observed with the slot lock released: a call
of `Start`, `Stop` or `PostImage`, or one transition of the worker.  `Stop` is
also there in its two parts, between which the worker and `PostImage` can
run: the critical section that sets `m_terminated` and empties the slot
(`StopLocked`), and the notification and the join that follow (`StopJoin`). -/
inductive QueueAction where
  | Start
  | Stop (conv : TranscodeResult)
  | StopLocked
  | StopJoin (conv : TranscodeResult)
  | PostImage (streamHandle : VmbHandle) (callback : VmbFrameCallback)
      (frame : Option VmbFrame)
  | workerStep (conv : TranscodeResult)
deriving DecidableEq, Repr

/-- The state of the queue after one operation. -/
def ImageTranscoder.apply (self : ImageTranscoder) : QueueAction → ImageTranscoder
  | QueueAction.Start => self.Start.state
  | QueueAction.Stop conv => (self.Stop conv).state
  | QueueAction.StopLocked =>
    if self.m_terminated then self else { self with m_terminated := true, m_task := none }
  | QueueAction.StopJoin conv => (ImageTranscoder.join conv self).state
  | QueueAction.PostImage streamHandle callback frame =>
    (self.PostImage streamHandle callback frame).state
  | QueueAction.workerStep conv => (ImageTranscoder.TranscodeLoopMember conv self).1

/-- The state of the queue after a sequence of operations. -/
def ImageTranscoder.run (self : ImageTranscoder) (actions : List QueueAction) :
    ImageTranscoder :=
  actions.foldl ImageTranscoder.apply self

/-- The worker has not dereferenced an empty task and holds none: the local
`task` is non-null wherever the worker stands after the swap. -/
def Thread.sound : Thread → Bool
  | Thread.taken none => false
  | Thread.transcoded none => false
  | Thread.crashed => false
  | _ => true

/-! ## Device tree model (ModuleTreeModel.cpp) -/

/-- A `ModuleData` object: `address` is where the object lives, which is what
`m_module.get()` returns and never the null pointer; `m_parent` is the address
`GetParent()` returns, `0` for the null pointer. -/
structure ModuleData where
  address : Nat
  m_parent : Nat
deriving DecidableEq, Repr

/-- Member function `ModuleData::GetParent`. -/
def ModuleData.GetParent (self : ModuleData) : Nat :=
  self.m_parent

/-- A value of type `Item*`: the null pointer, `&m_pseudoRoot`, or the address
of the element of `m_data` at a position. -/
inductive ItemPtr where
  | null
  | pseudoRoot
  | data (index : Nat)
deriving DecidableEq, Repr

/-- The value of `std::numeric_limits<size_t>::max()` for a 64 bit `size_t`. -/
def SIZE_MAX : Nat := 18446744073709551615

/-- Struct `ModuleTreeModel::Item`, with the members the source file uses. -/
structure Item where
  m_module : Option ModuleData
  m_parent : ItemPtr
  m_indexInParent : Nat
  m_children : List ItemPtr
deriving DecidableEq, Repr

/-- Constructor `Item::Item()`. -/
def Item.new : Item :=
  { m_module := none, m_parent := ItemPtr.null, m_indexInParent := SIZE_MAX, m_children := [] }

/-- Constructor `Item::Item(std::unique_ptr<ModuleData>&&)`. -/
def Item.ofModule (module : ModuleData) : Item :=
  { m_module := some module, m_parent := ItemPtr.null, m_indexInParent := SIZE_MAX,
    m_children := [] }

/-- The pointer `item.m_module.get()`: null for an empty `unique_ptr`. -/
def Item.moduleAddress (self : Item) : Nat :=
  match self.m_module with
  | some module => module.address
  | none => 0

/-- The members of `ModuleTreeModel` the source file uses. -/
structure ModuleTreeModel where
  m_pseudoRoot : Item
  m_data : List Item
deriving DecidableEq, Repr

/-- The item an `Item*` points to; `none` for the null pointer and for a
pointer past the end of `m_data`. -/
def ModuleTreeModel.deref (self : ModuleTreeModel) : ItemPtr → Option Item
  | ItemPtr.null => none
  | ItemPtr.pseudoRoot => some self.m_pseudoRoot
  | ItemPtr.data index => self.m_data[index]?

/-- Write through an `Item*`. -/
def ModuleTreeModel.store (self : ModuleTreeModel) (pointer : ItemPtr) (item : Item) :
    ModuleTreeModel :=
  match pointer with
  | ItemPtr.null => self
  | ItemPtr.pseudoRoot => { self with m_pseudoRoot := item }
  | ItemPtr.data index => { self with m_data := self.m_data.set index item }

/-- The second loop of the constructor, over the items from position `index`
on: `mapping[item.m_module.get()] = &item`. -/
def ModuleTreeModel.fillMapping : List Item → Nat → (Nat → ItemPtr) → Nat → ItemPtr
  | [], _, mapping => mapping
  | item :: rest, index, mapping =>
    ModuleTreeModel.fillMapping rest (index + 1)
      (Function.update mapping item.moduleAddress (ItemPtr.data index))

/-- The local `mapping` of the constructor after the second loop.  A key that
was never assigned reads as the null pointer, which is what `operator[]`
inserts for it. -/
def ModuleTreeModel.mapping (m_data : List Item) : Nat → ItemPtr :=
  ModuleTreeModel.fillMapping m_data 0
    (Function.update (fun _ => ItemPtr.null) 0 ItemPtr.pseudoRoot)

/-- One iteration of the third loop of the constructor, for the item at
position `index`; `none` when a null pointer is dereferenced. -/
def ModuleTreeModel.link (mapping : Nat → ItemPtr) (self : ModuleTreeModel) (index : Nat) :
    Option ModuleTreeModel :=
  match self.m_data[index]? with
  | none => none
  | some item =>
    match item.m_module with
    | none => none
    | some module =>
      let parentItem := mapping module.GetParent
      match self.deref parentItem with
      | none => none
      | some parent =>
        let linked := self.store (ItemPtr.data index)
          { item with m_parent := parentItem, m_indexInParent := parent.m_children.length }
        match linked.deref parentItem with
        | none => none
        | some parent1 =>
          some (linked.store parentItem
            { parent1 with m_children := parent1.m_children ++ [ItemPtr.data index] })

/-- The first `count` iterations of the third loop of the constructor. -/
def ModuleTreeModel.linkUpTo (mapping : Nat → ItemPtr) (self : ModuleTreeModel) :
    Nat → Option ModuleTreeModel
  | 0 => some self
  | count + 1 =>
    match ModuleTreeModel.linkUpTo mapping self count with
    | none => none
    | some linked => linked.link mapping count

/-- Constructor `ModuleTreeModel::ModuleTreeModel`; `none` when a null pointer
is dereferenced. -/
def ModuleTreeModel.new (moduleData : List ModuleData) : Option ModuleTreeModel :=
  let m_data := moduleData.map Item.ofModule
  ModuleTreeModel.linkUpTo (ModuleTreeModel.mapping m_data)
    { m_pseudoRoot := Item.new, m_data := m_data } m_data.length

/-- A `QModelIndex` of Qt: row, column, internal pointer, and whether the
model pointer is set. -/
structure QModelIndex where
  row : Int
  column : Int
  internalPointer : ItemPtr
  model : Bool
deriving DecidableEq, Repr

/-- The default constructed `QModelIndex()` of Qt: row and column -1, no
internal pointer, no model. -/
def QModelIndex.invalid : QModelIndex :=
  { row := -1, column := -1, internalPointer := ItemPtr.null, model := false }

/-- Member function `QModelIndex::isValid` of Qt: row and column are not
negative and the model is set. -/
def QModelIndex.isValid (self : QModelIndex) : Bool :=
  decide (0 ≤ self.row) && decide (0 ≤ self.column) && self.model

/-- Member function `QAbstractItemModel::createIndex` of Qt: the index with
the row, column and pointer given, and this model. -/
def createIndex (row column : Int) (pointer : ItemPtr) : QModelIndex :=
  { row := row, column := column, internalPointer := pointer, model := true }

/-- Member function `ModuleTreeModel::parent`; `none` when a pointer that is
not null points to no item. -/
def ModuleTreeModel.parent (self : ModuleTreeModel) (index : QModelIndex) :
    Option QModelIndex :=
  if index.isValid then
    match index.internalPointer with
    | ItemPtr.null => some QModelIndex.invalid
    | pointer =>
      match self.deref pointer with
      | none => none
      | some item =>
        let parentItem := item.m_parent
        match parentItem with
        | ItemPtr.null => some QModelIndex.invalid
        | _ =>
          match self.deref parentItem with
          | none => none
          | some parent => some (createIndex (static_cast_int parent.m_indexInParent) 0 parentItem)
  else
    some QModelIndex.invalid

/-! ## Starting an acquisition -/

/-- Member function `AcquisitionManager::StartAcquisition`: `StopAcquisition`,
then the constructor of the session, whose result `m_openCamera.reset` takes
over, then `Start` of the transcode queue.  `this` is the address of the
manager; `none` when a polling loop does not end within `fuel` polls.  When
the constructor throws, neither the reset nor `Start` is reached. -/
def AcquisitionManager.StartAcquisition (d : Driver) (BufferCount : Nat)
    (conv : TranscodeResult) (fuel : Nat) (this : Nat) (self : AcquisitionManager)
    (cameraInfo : VmbCameraInfo) : Option ManagerResult :=
  match self.StopAcquisition d conv fuel with
  | none => none
  | some stopped =>
    match stopped.failure with
    | some _ => some stopped
    | none =>
      match CameraAccessLifetime.new d BufferCount cameraInfo this fuel with
      | none => none
      | some opened =>
        match opened.result with
        | Except.error e =>
          some { state := stopped.state, trace := stopped.trace ++ opened.trace,
                 failure := some (Failure.exception e) }
        | Except.ok camera =>
          -- m_openCamera.reset(p) destroys the session held before, if any
          match (match stopped.state.m_openCamera with
                 | none => some []
                 | some previous => previous.dtor d fuel) with
          | none => none
          | some replaced =>
            let started := stopped.state.m_imageTranscoder.Start
            some { state := { m_openCamera := some camera, m_imageTranscoder := started.state },
                   trace := stopped.trace ++ opened.trace ++ replaced ++ started.trace,
                   failure := started.failure }

/-- Constructor `AcquisitionManager::AcquisitionManager`: no session is held,
the transcode queue is as constructed. -/
def AcquisitionManager.new : AcquisitionManager :=
  { m_openCamera := none, m_imageTranscoder := ImageTranscoder.new }

/-- What happens to a manager: calls of its member functions by the window,
frames the driver delivers, and transitions of the worker thread. -/
inductive ManagerCall where
  | StartAcquisition (cameraInfo : VmbCameraInfo) (conv : TranscodeResult)
  | StopAcquisition (conv : TranscodeResult)
  | FrameReceived (streamHandle : VmbHandle) (frame : Option VmbFrame)
  | workerStep (conv : TranscodeResult)
deriving DecidableEq, Repr

/-- One call on the manager. -/
def AcquisitionManager.call (d : Driver) (BufferCount fuel this : Nat)
    (self : AcquisitionManager) : ManagerCall → Option ManagerResult
  | ManagerCall.StartAcquisition cameraInfo conv =>
    self.StartAcquisition d BufferCount conv fuel this cameraInfo
  | ManagerCall.StopAcquisition conv => self.StopAcquisition d conv fuel
  | ManagerCall.FrameReceived streamHandle frame => some (self.FrameReceived streamHandle frame)
  | ManagerCall.workerStep conv =>
    let stepped := ImageTranscoder.TranscodeLoopMember conv self.m_imageTranscoder
    some { state := { self with m_imageTranscoder := stepped.1 }, trace := stepped.2,
           failure := none }

/-- A sequence of calls on the manager: the state at the end and all calls
issued.  An exception is handed to the caller and the next call follows; a
crash ends the process and with it the sequence. -/
def AcquisitionManager.run (d : Driver) (BufferCount fuel this : Nat) :
    List ManagerCall → AcquisitionManager → Option (AcquisitionManager × List Event)
  | [], self => some (self, [])
  | c :: rest, self =>
    match self.call d BufferCount fuel this c with
    | none => none
    | some r =>
      match r.failure with
      | some Failure.crash => some (r.state, r.trace)
      | _ =>
        (AcquisitionManager.run d BufferCount fuel this rest r.state).map fun x =>
          (x.1, r.trace ++ x.2)

/-- Calls that neither open nor close a device nor start the worker thread. -/
def Event.neutral : Event → Bool
  | Event.VmbCameraOpen _ => false
  | Event.VmbCameraClose _ => false
  | Event.threadStart => false
  | _ => true

/-- The number of open devices after one call, given the number before: a
`VmbCameraOpen` the driver answers with success opens one, a `VmbCameraClose`
closes one. -/
def openAfter (d : Driver) (n : Int) : Event → Int
  | Event.VmbCameraOpen cameraIdString =>
    if (d.VmbCameraOpen cameraIdString).1 = VmbErrorSuccess then n + 1 else n
  | Event.VmbCameraClose _ => n - 1
  | _ => n

/-- The number of open devices after a trace of calls that began with `n` open. -/
def openDevices (d : Driver) (trace : List Event) (n : Int) : Int :=
  trace.foldl (openAfter d) n

/-- Along `trace`, begun with `n` open devices, the number of open devices is
0 or 1 after every call, and `m` at the end. -/
def OneOpenAlong (d : Driver) (trace : List Event) (n m : Int) : Prop :=
  (∀ k, openDevices d (trace.take k) n = 0 ∨ openDevices d (trace.take k) n = 1) ∧
    openDevices d trace n = m

/-- The number of sessions a manager holds. -/
def AcquisitionManager.sessions (self : AcquisitionManager) : Int :=
  if self.m_openCamera.isSome then 1 else 0

/-- The driver `d` with other answers to the packet size adjustment: `run` to
the run of the command, `done` to the polls of its completion, `size` to the
read of the packet size. -/
def Driver.withAdjust (d : Driver) (run : VmbHandle → VmbError)
    (done : VmbHandle → Nat → VmbError × Bool) (size : VmbHandle → VmbError × Int) : Driver :=
  { d with
    VmbFeatureCommandRun := fun h c =>
      if c = AdjustPackageSizeCommand then run h else d.VmbFeatureCommandRun h c,
    VmbFeatureCommandIsDone := fun h c k =>
      if c = AdjustPackageSizeCommand then done h k else d.VmbFeatureCommandIsDone h c k,
    VmbFeatureIntGet := fun h f =>
      if f = "GVSPPacketSize" then size h else d.VmbFeatureIntGet h f }

/-- Runs of the packet size adjustment command, whatever the handle. -/
def Event.isAdjustRun : Event → Bool
  | Event.VmbFeatureCommandRun _ command => decide (command = AdjustPackageSizeCommand)
  | _ => false

/-! ## Example inputs -/

/-- A complete frame with dimension data. -/
def exFrameA : VmbFrame :=
  { buffer := 4096, bufferSize := 64, context0 := 1, receiveStatus := 0, receiveFlags := 1,
    imageData := 4096, pixelFormat := 17301505, width := 8, height := 8 }

/-- A second complete frame with dimension data, in another buffer. -/
def exFrameB : VmbFrame :=
  { buffer := 8192, bufferSize := 64, context0 := 1, receiveStatus := 0, receiveFlags := 3,
    imageData := 8192, pixelFormat := 17301505, width := 8, height := 8 }

/-- An incomplete frame. -/
def exFrameBad : VmbFrame :=
  { buffer := 12288, bufferSize := 64, context0 := 1, receiveStatus := -1, receiveFlags := 1,
    imageData := 12288, pixelFormat := 17301505, width := 8, height := 8 }

/-- A running queue with an empty slot and the worker waiting. -/
def exIdle : ImageTranscoder :=
  { m_terminated := false, m_task := none, m_thread := Thread.waiting }

/-- A running queue whose slot holds the task for `exFrameA`. -/
def exPending : ImageTranscoder :=
  { m_terminated := false, m_task := some (TransformationTask.new 7 9 exFrameA),
    m_thread := Thread.waiting }

/-- A driver for a camera with one stream: every call succeeds, the packet size
adjustment reports done at its third poll, other commands at their first, the
payload size is `payload` and the `StreamBufferAlignment` read answers `align`. -/
def exDriver (payload : Nat) (align : VmbError × Int) : Driver :=
  { VmbCameraOpen := fun _ => (0, 11),
    VmbCameraInfoQueryByHandle := fun _ =>
      (0, { cameraIdString := "DEV_1", localDeviceHandle := 5, streamCount := 1,
            streamHandle0 := 21 }),
    VmbFeatureCommandRun := fun _ _ => 0,
    VmbFeatureCommandIsDone := fun _ command k =>
      (0, decide (command ≠ AdjustPackageSizeCommand ∨ 2 ≤ k)),
    VmbFeatureIntGet := fun _ feature =>
      if feature = "StreamBufferAlignment" then align else (0, 1500),
    VmbPayloadSizeGet := fun _ => (0, payload),
    aligned_alloc := fun _ _ index => 4096 * (index + 1),
    VmbFrameAnnounce := fun _ _ => 0,
    VmbCaptureStart := fun _ => 0,
    VmbCaptureFrameQueue := fun _ _ => 0 }

/-- The camera the example driver serves. -/
def exCamera : VmbCameraInfo :=
  { cameraIdString := "DEV_1", localDeviceHandle := 0, streamCount := 0, streamHandle0 := 0 }

/-- The example driver with every `VmbCaptureFrameQueue` call failing. -/
def exDriverNoEnqueue : Driver :=
  { exDriver 64 (0, 8) with VmbCaptureFrameQueue := fun _ _ => -7 }

/-- The frames of a pool of three buffers of 64 bytes as the example driver
allocates them, with the manager at address 1 as context. -/
def exSessionFrames : List Frame :=
  [{ m_frame := { buffer := 4096, bufferSize := 64, context0 := 1,
                  receiveStatus := 0, receiveFlags := 0, imageData := 0,
                  pixelFormat := 0, width := 0, height := 0 } },
   { m_frame := { buffer := 8192, bufferSize := 64, context0 := 1,
                  receiveStatus := 0, receiveFlags := 0, imageData := 0,
                  pixelFormat := 0, width := 0, height := 0 } },
   { m_frame := { buffer := 12288, bufferSize := 64, context0 := 1,
                  receiveStatus := 0, receiveFlags := 0, imageData := 0,
                  pixelFormat := 0, width := 0, height := 0 } }]

/-- An open session over three announced buffers. -/
def exSession : CameraAccessLifetime :=
  { m_cameraHandle := 11,
    m_streamLife := some
      { m_payloadSize := 64,
        m_acquisitionLife := some
          { m_camHandle := 11,
            m_frames :=
              [{ m_frame := { buffer := 4096, bufferSize := 64, context0 := 1,
                              receiveStatus := 0, receiveFlags := 0, imageData := 0,
                              pixelFormat := 0, width := 0, height := 0 } },
               { m_frame := { buffer := 8192, bufferSize := 64, context0 := 1,
                              receiveStatus := 0, receiveFlags := 0, imageData := 0,
                              pixelFormat := 0, width := 0, height := 0 } },
               { m_frame := { buffer := 12288, bufferSize := 64, context0 := 1,
                              receiveStatus := 0, receiveFlags := 0, imageData := 0,
                              pixelFormat := 0, width := 0, height := 0 } }] } } }

/-- A manager with the example session open and the task for `exFrameA` pending. -/
def exManager : AcquisitionManager :=
  { m_openCamera := some exSession, m_imageTranscoder := exPending }

/-- The example driver with the announce of the second buffer failing. -/
def exDriverAnnounceFails : Driver :=
  { exDriver 64 (0, 8) with VmbFrameAnnounce := fun _ index => if index = 1 then -5 else 0 }

/-- An image library for 32 bit targets: the stride is four times the width,
every call succeeds, `malloc` and `realloc` answer the address 65536. -/
def exLibrary : ImageLibrary :=
  { VmbSetImageInfoFromPixelFormat := fun _ width height => (0, width, height, 4 * width),
    malloc := fun _ => 65536,
    realloc := fun _ _ => 65536,
    VmbImageTransform := fun _ _ => 0 }

/-- The example library with an allocator that is out of memory. -/
def exLibraryNoMemory : ImageLibrary :=
  { exLibrary with malloc := fun _ => 0, realloc := fun _ _ => 0 }

/-- A view on an 8 by 8 frame. -/
def exSource : Image :=
  { m_dataOwned := false, m_pixelFormat := 17301505, m_capacity := 0, Data := 4096,
    Width := 8, Height := 8, Stride := 8 }

/-- The example driver with the camera info query failing with status -3. -/
def exDriverInfoFails : Driver :=
  { exDriver 64 (0, 8) with VmbCameraInfoQueryByHandle := fun _ => (-3, exCamera) }

/-- Calls on a manager: two starts on the example camera with a frame and a
worker transition in between, then a stop. -/
def exCalls : List ManagerCall :=
  [ManagerCall.StartAcquisition exCamera TranscodeResult.returned,
   ManagerCall.FrameReceived 21 (some exFrameA),
   ManagerCall.workerStep TranscodeResult.returned,
   ManagerCall.StartAcquisition exCamera TranscodeResult.returned,
   ManagerCall.StopAcquisition TranscodeResult.returned]

/-- The example driver with a packet size adjustment whose third poll fails
and whose packet size read fails. -/
def exDriverAdjustFails : Driver :=
  (exDriver 64 (0, 8)).withAdjust (fun _ => 0) (fun _ k => (if k = 2 then -9 else 0, false))
    (fun _ => (-4, 0))

/-- A device tree: a transport layer with an interface that has two cameras,
and a second transport layer without children; children are listed before
their parents. -/
def exModules : List ModuleData :=
  [{ address := 500, m_parent := 300 }, { address := 100, m_parent := 0 },
   { address := 300, m_parent := 100 }, { address := 200, m_parent := 0 },
   { address := 400, m_parent := 300 }]

/-- The members of a transcoder that has converted nothing yet, for an output
of 640 by 480. -/
def exTarget : TranscodeTarget :=
  { m_transformTarget := none, m_outputSize := { width := 640, height := 480 } }

/-- The image that the example library makes of `exFrameA`: a view on its
buffer, 8 by 8 with a stride of 32. -/
def exFrameImage : Image :=
  { m_dataOwned := false, m_pixelFormat := 17301505, m_capacity := 0, Data := 4096,
    Width := 8, Height := 8, Stride := 32 }

/-! ## Lemmas on the queue -/

theorem accepted_iff (f : VmbFrame) :
    PostImage.accepted f = true ↔
      (f.receiveStatus = VmbFrameStatusComplete ∧
        f.receiveFlags &&& VmbFrameFlagsDimension = VmbFrameFlagsDimension) := by
  simp [PostImage.accepted]

theorem message_of_accepted (h : VmbHandle) (cb : VmbFrameCallback) (f : VmbFrame)
    (hf : PostImage.accepted f = true) :
    PostImage.message h cb (some f) = some (TransformationTask.new h cb f) := by
  simp [PostImage.message, hf]

theorem message_of_rejected (h : VmbHandle) (cb : VmbFrameCallback) (f : VmbFrame)
    (hf : PostImage.accepted f = false) :
    PostImage.message h cb (some f) = none := by
  simp [PostImage.message, hf]

theorem dtor_canceled (t : TransformationTask) :
    TransformationTask.dtor { t with m_canceled := true } = [] := by
  simp [TransformationTask.dtor]

theorem dtor_live (t : TransformationTask) (ht : t.m_canceled = false) :
    TransformationTask.dtor t =
      [Event.VmbCaptureFrameQueue t.m_streamHandle t.m_frame t.m_callback] := by
  simp [TransformationTask.dtor, ht]

/-- A task stored in the slot is never canceled: `PostImage` stores a freshly
constructed task, and nothing writes the flag of a stored task. -/
theorem PostImage_slot_live (s : ImageTranscoder) (h : VmbHandle) (cb : VmbFrameCallback)
    (f : Option VmbFrame) (hs : ∀ t, s.m_task = some t → t.m_canceled = false) :
    ∀ t, (s.PostImage h cb f).state.m_task = some t → t.m_canceled = false := by
  intro t ht
  cases f with
  | none => exact hs t ht
  | some frame =>
    cases hacc : PostImage.accepted frame
    · simp only [ImageTranscoder.PostImage, message_of_rejected h cb frame hacc] at ht
      exact hs t ht
    · cases hterm : s.m_terminated
      · simp only [ImageTranscoder.PostImage, message_of_accepted h cb frame hacc, hterm,
          Bool.false_eq_true, if_false, Option.some.injEq] at ht
        rw [← ht]
        rfl
      · simp only [ImageTranscoder.PostImage, message_of_accepted h cb frame hacc, hterm,
          if_true] at ht
        exact hs t ht

/-- Once `m_terminated` is set the worker needs at most three transitions to
leave its loop: further transitions change nothing. -/
theorem runWorker_three_suffice (conv : Nat → TranscodeResult) (s : ImageTranscoder)
    (hterm : s.m_terminated = true) (n : Nat) (hn : 3 ≤ n) :
    ImageTranscoder.runWorker conv n s = ImageTranscoder.runWorker conv 3 s ∧
      ((ImageTranscoder.runWorker conv 3 s).1.m_thread = Thread.finished ∨
        (ImageTranscoder.runWorker conv 3 s).1.m_thread = Thread.crashed ∨
        (ImageTranscoder.runWorker conv 3 s).1.m_thread = Thread.notJoinable) := by
  have hend : (ImageTranscoder.runWorker conv 3 s).1.m_thread = Thread.finished ∨
      (ImageTranscoder.runWorker conv 3 s).1.m_thread = Thread.crashed ∨
      (ImageTranscoder.runWorker conv 3 s).1.m_thread = Thread.notJoinable := by
    obtain ⟨term, task, thread⟩ := s
    simp only at hterm
    subst hterm
    cases thread with
    | taken t => cases t <;> simp [ImageTranscoder.runWorker, ImageTranscoder.TranscodeLoopMember]
    | transcoded t =>
      cases t <;> simp [ImageTranscoder.runWorker, ImageTranscoder.TranscodeLoopMember]
    | _ => simp [ImageTranscoder.runWorker, ImageTranscoder.TranscodeLoopMember]
  refine ⟨?_, hend⟩
  induction n, hn using Nat.le_induction with
  | base => rfl
  | succ n _ ih =>
    rw [ImageTranscoder.runWorker, ih]
    have hstep : ∀ c, ImageTranscoder.TranscodeLoopMember c
        (ImageTranscoder.runWorker conv 3 s).1 = ((ImageTranscoder.runWorker conv 3 s).1, []) := by
      intro c
      unfold ImageTranscoder.TranscodeLoopMember
      rcases hend with h | h | h <;> rw [h]
    simp [hstep]

/-! ## Claims on the transcode queue -/

/-- C1: on a running queue whose slot holds a live task for frame A, posting a
well-formed frame B leaves the slot holding the task for B alone; the only
driver call is one `VmbCaptureFrameQueue` with A's handle, frame and callback,
and no conversion of A is started. -/
theorem PostImage_replaces_pending (s : ImageTranscoder) (a : TransformationTask)
    (h : VmbHandle) (cb : VmbFrameCallback) (b : VmbFrame)
    (hrun : s.m_terminated = false) (hslot : s.m_task = some a)
    (ha : a.m_canceled = false)
    (hb : b.receiveStatus = VmbFrameStatusComplete ∧
      b.receiveFlags &&& VmbFrameFlagsDimension = VmbFrameFlagsDimension) :
    (s.PostImage h cb (some b)).state.m_task = some (TransformationTask.new h cb b) ∧
    (s.PostImage h cb (some b)).state.m_terminated = false ∧
    (s.PostImage h cb (some b)).state.m_thread = s.m_thread ∧
    (s.PostImage h cb (some b)).trace =
      [Event.VmbCaptureFrameQueue a.m_streamHandle a.m_frame a.m_callback, Event.notify_one] ∧
    (s.PostImage h cb (some b)).failure = none ∧
    reenqueues a.m_frame (s.PostImage h cb (some b)).trace = 1 ∧
    conversions a.m_frame (s.PostImage h cb (some b)).trace = 0 := by
  have hacc : PostImage.accepted b = true := (accepted_iff b).2 hb
  simp [ImageTranscoder.PostImage, message_of_accepted h cb b hacc, hrun, hslot,
    TransformationTask.reset, dtor_live a ha, reenqueues, conversions]

theorem PostImage_replaces_pending_witness :
    (exPending.PostImage 7 9 (some exFrameB)).state.m_task
        = some (TransformationTask.new 7 9 exFrameB) ∧
      reenqueues exFrameA (exPending.PostImage 7 9 (some exFrameB)).trace = 1 := by
  have key := PostImage_replaces_pending exPending (TransformationTask.new 7 9 exFrameA)
    7 9 exFrameB rfl rfl rfl (by decide)
  exact ⟨key.1, key.2.2.2.2.2.1⟩

/-- C2: destroying a task that is not canceled makes exactly one driver call,
`VmbCaptureFrameQueue` with the task's own stream handle, frame and callback;
destroying a canceled task makes no call. -/
theorem dtor_recycles_unless_canceled (t : TransformationTask) :
    TransformationTask.dtor t =
      (if t.m_canceled = true then []
       else [Event.VmbCaptureFrameQueue t.m_streamHandle t.m_frame t.m_callback]) ∧
    reenqueues t.m_frame (TransformationTask.dtor t) = (if t.m_canceled = true then 0 else 1) ∧
    (TransformationTask.dtor t).length = (if t.m_canceled = true then 0 else 1) := by
  cases hc : t.m_canceled <;> simp [TransformationTask.dtor, hc, reenqueues]

/-- For every running queue whose slot holds a live task, the first call `Stop`
makes is the `VmbCaptureFrameQueue` of that task, before the worker is woken. -/
theorem Stop_drops_live_task (c : TranscodeResult) (s : ImageTranscoder)
    (a : TransformationTask) (hrun : s.m_terminated = false) (hslot : s.m_task = some a)
    (ha : a.m_canceled = false) :
    ∃ rest, (s.Stop c).trace =
      Event.VmbCaptureFrameQueue a.m_streamHandle a.m_frame a.m_callback
        :: Event.notify_all :: rest := by
  refine ⟨(ImageTranscoder.join c { s with m_terminated := true, m_task := none }).trace, ?_⟩
  simp [ImageTranscoder.Stop, hrun, hslot, TransformationTask.reset, dtor_live a ha]

/-- C3: the state reached from a fresh queue by `Start` and the post of the
complete frame A is running with the task for A in the slot; `Stop` there
empties the slot and terminates the queue, but the dropped task was not marked
canceled, and its destructor calls `VmbCaptureFrameQueue` for A once. -/
theorem Stop_reenqueues_pending :
    (ImageTranscoder.new.Start.state.PostImage 7 9 (some exFrameA)).state = exPending ∧
    (exPending.Stop TranscodeResult.returned).state = ImageTranscoder.new ∧
    (exPending.Stop TranscodeResult.returned).trace =
      [Event.VmbCaptureFrameQueue 7 exFrameA 9, Event.notify_all, Event.threadJoin] ∧
    reenqueues exFrameA (exPending.Stop TranscodeResult.returned).trace = 1 := by
  decide

theorem TranscodeLoopMember_blocked (c : TranscodeResult) (s : ImageTranscoder)
    (hrun : s.m_terminated = false) (hslot : s.m_task = none)
    (hth : s.m_thread = Thread.waiting) :
    ImageTranscoder.TranscodeLoopMember c s = (s, []) := by
  simp [ImageTranscoder.TranscodeLoopMember, hrun, hslot, hth]

theorem runWorker_after_post (conv : Nat → TranscodeResult) (s : ImageTranscoder)
    (t : TransformationTask) (ht : t.m_canceled = false)
    (hrun : s.m_terminated = false) (hslot : s.m_task = none)
    (hth : s.m_thread = Thread.waiting) (n : Nat) (hn : 3 ≤ n) :
    ImageTranscoder.runWorker conv n { s with m_task := some t } =
      (s, ImageTranscoder.TranscodeImage (conv 1) t ++
        [Event.VmbCaptureFrameQueue t.m_streamHandle t.m_frame t.m_callback]) := by
  induction n, hn using Nat.le_induction with
  | base =>
    obtain ⟨term, task, thread⟩ := s
    simp only at hrun hslot hth
    subst hrun hslot hth
    simp [ImageTranscoder.runWorker, ImageTranscoder.TranscodeLoopMember,
      TransformationTask.reset, dtor_live t ht]
  | succ n _ ih =>
    rw [ImageTranscoder.runWorker, ih]
    simp [TranscodeLoopMember_blocked (conv n) s hrun hslot hth]

/-- C4 as stated fails: after a well-formed frame is posted to the idle queue
and the worker has run, it is not the case that the frame was converted once
and never handed back to the driver. -/
theorem idle_post_zero_reenqueues_fails :
    ¬ (conversions exFrameA
          ((exIdle.PostImage 7 9 (some exFrameA)).trace ++
            (ImageTranscoder.runWorker (fun _ => TranscodeResult.returned) 3
              (exIdle.PostImage 7 9 (some exFrameA)).state).2) = 1 ∧
        reenqueues exFrameA
          ((exIdle.PostImage 7 9 (some exFrameA)).trace ++
            (ImageTranscoder.runWorker (fun _ => TranscodeResult.returned) 3
              (exIdle.PostImage 7 9 (some exFrameA)).state).2) = 0) := by
  decide

/-- C4, amended: a well-formed frame posted to a running queue with an empty
slot and a waiting worker, with no further post and no Stop, is converted by
exactly one `TranscodeImage` call and then handed back to the driver by exactly
one `VmbCaptureFrameQueue` call with the posted handle, frame and callback;
the worker is waiting again on an empty slot. -/
theorem idle_post_converts_once_then_recycles (conv : Nat → TranscodeResult)
    (s : ImageTranscoder) (h : VmbHandle) (cb : VmbFrameCallback) (f : VmbFrame) (n : Nat)
    (hrun : s.m_terminated = false) (hslot : s.m_task = none)
    (hth : s.m_thread = Thread.waiting)
    (hf : f.receiveStatus = VmbFrameStatusComplete ∧
      f.receiveFlags &&& VmbFrameFlagsDimension = VmbFrameFlagsDimension)
    (hn : 3 ≤ n) :
    (s.PostImage h cb (some f)).trace = [Event.notify_one] ∧
    (ImageTranscoder.runWorker conv n (s.PostImage h cb (some f)).state).1 = s ∧
    (ImageTranscoder.runWorker conv n (s.PostImage h cb (some f)).state).2 =
      ImageTranscoder.TranscodeImage (conv 1) (TransformationTask.new h cb f) ++
        [Event.VmbCaptureFrameQueue h f cb] ∧
    conversions f
      ((s.PostImage h cb (some f)).trace ++
        (ImageTranscoder.runWorker conv n (s.PostImage h cb (some f)).state).2) = 1 ∧
    reenqueues f
      ((s.PostImage h cb (some f)).trace ++
        (ImageTranscoder.runWorker conv n (s.PostImage h cb (some f)).state).2) = 1 := by
  have hacc : PostImage.accepted f = true := (accepted_iff f).2 hf
  have hpost : s.PostImage h cb (some f) =
      { state := { s with m_task := some (TransformationTask.new h cb f) },
        trace := [Event.notify_one], failure := none } := by
    simp [ImageTranscoder.PostImage, message_of_accepted h cb f hacc, hrun, hslot,
      TransformationTask.reset]
  have hw := runWorker_after_post conv s (TransformationTask.new h cb f) rfl hrun hslot hth n hn
  rw [hpost]
  simp only [hw]
  refine ⟨trivial, trivial, ?_, ?_, ?_⟩
  · simp [TransformationTask.new]
  · cases conv 1 <;>
      simp [ImageTranscoder.TranscodeImage, TransformationTask.new, conversions]
  · cases conv 1 <;>
      simp [ImageTranscoder.TranscodeImage, TransformationTask.new, reenqueues]

theorem idle_post_converts_once_then_recycles_witness :
    conversions exFrameA
        ((exIdle.PostImage 7 9 (some exFrameA)).trace ++
          (ImageTranscoder.runWorker (fun _ => TranscodeResult.returned) 5
            (exIdle.PostImage 7 9 (some exFrameA)).state).2) = 1 ∧
      reenqueues exFrameA
        ((exIdle.PostImage 7 9 (some exFrameA)).trace ++
          (ImageTranscoder.runWorker (fun _ => TranscodeResult.returned) 5
            (exIdle.PostImage 7 9 (some exFrameA)).state).2) = 1 := by
  have key := idle_post_converts_once_then_recycles (fun _ => TranscodeResult.returned)
    exIdle 7 9 exFrameA 5 rfl rfl rfl (by decide) (by decide)
  exact ⟨key.2.2.2.1, key.2.2.2.2⟩

/-- C5 as stated fails: the frame below completed and carries the Dimension
bit, yet `PostImage` on the freshly constructed (terminated) queue creates no
pending task: the slot stays empty, the worker is not notified and no call is
made. -/
theorem PostImage_gate_fails_terminated :
    ¬ ((ImageTranscoder.new.PostImage 7 9 (some exFrameA)).state.m_task.isSome = true ↔
        (exFrameA.receiveStatus = VmbFrameStatusComplete ∧
          exFrameA.receiveFlags &&& VmbFrameFlagsDimension = VmbFrameFlagsDimension)) ∧
    (exFrameA.receiveStatus = VmbFrameStatusComplete ∧
      exFrameA.receiveFlags &&& VmbFrameFlagsDimension = VmbFrameFlagsDimension) ∧
    ImageTranscoder.new.PostImage 7 9 (some exFrameA) =
      { state := ImageTranscoder.new, trace := [], failure := none } := by
  decide

/-- C5, amended: for a non-null frame `PostImage` stores a pending task and
notifies the worker exactly when the queue is running, the receive status is
Complete and the Dimension bit is set; the slot then holds the task of this
frame, handle and callback, and the calls are the destruction of the task
replaced, if any, and the notification.  A frame with Complete status and
Dimension bit posted to a terminated queue changes nothing and causes no call.
Every other non-null frame leaves the whole state unchanged and is handed back
by exactly one `VmbCaptureFrameQueue` call with the same handle, frame and
callback.  For a null frame nothing is called and the state is unchanged. -/
theorem PostImage_gate (s : ImageTranscoder) (h : VmbHandle) (cb : VmbFrameCallback)
    (f : VmbFrame) :
    (Event.notify_one ∈ (s.PostImage h cb (some f)).trace ↔
      (s.m_terminated = false ∧ f.receiveStatus = VmbFrameStatusComplete ∧
        f.receiveFlags &&& VmbFrameFlagsDimension = VmbFrameFlagsDimension)) ∧
    ((s.PostImage h cb (some f)).state ≠ s →
      (s.m_terminated = false ∧ f.receiveStatus = VmbFrameStatusComplete ∧
        f.receiveFlags &&& VmbFrameFlagsDimension = VmbFrameFlagsDimension)) ∧
    (s.m_terminated = false → f.receiveStatus = VmbFrameStatusComplete →
      f.receiveFlags &&& VmbFrameFlagsDimension = VmbFrameFlagsDimension →
      s.PostImage h cb (some f) =
        { state := { s with m_task := some (TransformationTask.new h cb f) },
          trace := TransformationTask.reset s.m_task ++ [Event.notify_one],
          failure := none }) ∧
    (s.m_terminated = true → f.receiveStatus = VmbFrameStatusComplete →
      f.receiveFlags &&& VmbFrameFlagsDimension = VmbFrameFlagsDimension →
      s.PostImage h cb (some f) = { state := s, trace := [], failure := none }) ∧
    (¬ (f.receiveStatus = VmbFrameStatusComplete ∧
        f.receiveFlags &&& VmbFrameFlagsDimension = VmbFrameFlagsDimension) →
      s.PostImage h cb (some f) =
        { state := s, trace := [Event.VmbCaptureFrameQueue h f cb], failure := none } ∧
      reenqueues f (s.PostImage h cb (some f)).trace = 1) ∧
    s.PostImage h cb none = { state := s, trace := [], failure := none } := by
  have hrunning : s.m_terminated = false → f.receiveStatus = VmbFrameStatusComplete →
      f.receiveFlags &&& VmbFrameFlagsDimension = VmbFrameFlagsDimension →
      s.PostImage h cb (some f) =
        { state := { s with m_task := some (TransformationTask.new h cb f) },
          trace := TransformationTask.reset s.m_task ++ [Event.notify_one],
          failure := none } := by
    intro hrun h1 h2
    have hacc : PostImage.accepted f = true := (accepted_iff f).2 ⟨h1, h2⟩
    simp [ImageTranscoder.PostImage, message_of_accepted h cb f hacc, hrun]
  have hstopped : s.m_terminated = true → f.receiveStatus = VmbFrameStatusComplete →
      f.receiveFlags &&& VmbFrameFlagsDimension = VmbFrameFlagsDimension →
      s.PostImage h cb (some f) = { state := s, trace := [], failure := none } := by
    intro hterm h1 h2
    have hacc : PostImage.accepted f = true := (accepted_iff f).2 ⟨h1, h2⟩
    simp [ImageTranscoder.PostImage, message_of_accepted h cb f hacc, hterm, dtor_canceled]
  have hother : ¬ (f.receiveStatus = VmbFrameStatusComplete ∧
        f.receiveFlags &&& VmbFrameFlagsDimension = VmbFrameFlagsDimension) →
      s.PostImage h cb (some f) =
        { state := s, trace := [Event.VmbCaptureFrameQueue h f cb], failure := none } := by
    intro hf
    have hacc : PostImage.accepted f = false := by
      cases hb : PostImage.accepted f
      · rfl
      · exact absurd ((accepted_iff f).1 hb) hf
    simp [ImageTranscoder.PostImage, message_of_rejected h cb f hacc]
  refine ⟨?_, ?_, hrunning, hstopped, ?_, rfl⟩
  · constructor
    · intro hmem
      by_cases hf : f.receiveStatus = VmbFrameStatusComplete ∧
          f.receiveFlags &&& VmbFrameFlagsDimension = VmbFrameFlagsDimension
      · cases hterm : s.m_terminated
        · exact ⟨rfl, hf⟩
        · rw [hstopped hterm hf.1 hf.2] at hmem
          simp at hmem
      · rw [hother hf] at hmem
        simp at hmem
    · intro hall
      rw [hrunning hall.1 hall.2.1 hall.2.2]
      simp
  · intro hchanged
    by_cases hf : f.receiveStatus = VmbFrameStatusComplete ∧
        f.receiveFlags &&& VmbFrameFlagsDimension = VmbFrameFlagsDimension
    · cases hterm : s.m_terminated
      · exact ⟨rfl, hf⟩
      · rw [hstopped hterm hf.1 hf.2] at hchanged
        exact absurd rfl hchanged
    · rw [hother hf] at hchanged
      exact absurd rfl hchanged
  · intro hf
    rw [hother hf]
    exact ⟨rfl, by simp [reenqueues]⟩

theorem PostImage_gate_witness :
    exPending.PostImage 7 9 (some exFrameBad) =
        { state := exPending, trace := [Event.VmbCaptureFrameQueue 7 exFrameBad 9],
          failure := none } ∧
      exIdle.PostImage 7 9 (some exFrameA) =
        { state := { exIdle with m_task := some (TransformationTask.new 7 9 exFrameA) },
          trace := [Event.notify_one], failure := none } ∧
      Event.notify_one ∉ (ImageTranscoder.new.PostImage 7 9 (some exFrameA)).trace := by
  have bad := (PostImage_gate exPending 7 9 exFrameBad).2.2.2.2.1 (by decide)
  have good := (PostImage_gate exIdle 7 9 exFrameA).2.2.1 rfl (by decide) (by decide)
  have stopped := (PostImage_gate ImageTranscoder.new 7 9 exFrameA).1
  refine ⟨bad.1, good, fun hmem => ?_⟩
  have h := (stopped.1 hmem).1
  cases h

/-- C6: a well-formed frame posted to a terminated queue yields a task that is
marked canceled and destroyed: the state (slot included) is unchanged, an empty
slot stays empty, the worker is not notified and no `VmbCaptureFrameQueue` call
is made. -/
theorem PostImage_terminated_cancels (s : ImageTranscoder) (h : VmbHandle)
    (cb : VmbFrameCallback) (f : VmbFrame)
    (hterm : s.m_terminated = true)
    (hf : f.receiveStatus = VmbFrameStatusComplete ∧
      f.receiveFlags &&& VmbFrameFlagsDimension = VmbFrameFlagsDimension) :
    s.PostImage h cb (some f) = { state := s, trace := [], failure := none } ∧
    (s.PostImage h cb (some f)).trace =
      TransformationTask.dtor { TransformationTask.new h cb f with m_canceled := true } ∧
    (s.m_task = none → (s.PostImage h cb (some f)).state.m_task = none) ∧
    Event.notify_one ∉ (s.PostImage h cb (some f)).trace ∧
    reenqueues f (s.PostImage h cb (some f)).trace = 0 := by
  have hacc : PostImage.accepted f = true := (accepted_iff f).2 hf
  have hpost : s.PostImage h cb (some f) = { state := s, trace := [], failure := none } := by
    simp [ImageTranscoder.PostImage, message_of_accepted h cb f hacc, hterm, dtor_canceled]
  rw [hpost]
  refine ⟨rfl, ?_, fun hs => hs, ?_, ?_⟩
  · simp [dtor_canceled]
  · simp
  · simp [reenqueues]

theorem PostImage_terminated_cancels_witness :
    ImageTranscoder.new.PostImage 7 9 (some exFrameA) =
      { state := ImageTranscoder.new, trace := [], failure := none } :=
  (PostImage_terminated_cancels ImageTranscoder.new 7 9 exFrameA rfl (by decide)).1

/-- C7: `Start` throws "ImageTranscoder is still running" exactly when the queue
is not terminated, and then leaves flag, slot and thread unchanged and starts no
thread; on a terminated queue (whose thread was joined or never started) it
clears the flag and starts exactly one worker. -/
theorem Start_fails_iff_running (s : ImageTranscoder) :
    (s.Start.failure = some (Failure.exception
        { m_errorMessage := "ImageTranscoder is still running", m_exitCode := none }) ↔
      s.m_terminated = false) ∧
    (s.m_terminated = false → s.Start.state = s ∧ s.Start.trace = []) ∧
    (s.m_terminated = true → s.m_thread = Thread.notJoinable →
      s.Start.failure = none ∧
      s.Start.state = { s with m_terminated := false, m_thread := Thread.waiting } ∧
      s.Start.trace = [Event.threadStart]) := by
  obtain ⟨term, task, thread⟩ := s
  refine ⟨?_, ?_, ?_⟩
  · cases term <;> cases thread <;> simp [ImageTranscoder.Start]
  · intro hrun
    simp only at hrun
    subst hrun
    simp [ImageTranscoder.Start]
  · intro hterm hth
    simp only at hterm hth
    subst hterm hth
    simp [ImageTranscoder.Start]

theorem Start_fails_iff_running_witness :
    exIdle.Start.state = exIdle ∧ exIdle.Start.trace = [] ∧
      ImageTranscoder.new.Start.state = exIdle ∧
      ImageTranscoder.new.Start.trace = [Event.threadStart] := by
  have running := (Start_fails_iff_running exIdle).2.1 rfl
  have stopped := (Start_fails_iff_running ImageTranscoder.new).2.2 rfl rfl
  exact ⟨running.1, running.2, stopped.2.1, stopped.2.2⟩

theorem TranscodeLoopMember_terminated (c : TranscodeResult) (s : ImageTranscoder) :
    (ImageTranscoder.TranscodeLoopMember c s).1.m_terminated = s.m_terminated := by
  unfold ImageTranscoder.TranscodeLoopMember
  split
  · split
    · rfl
    · split <;> rfl
  · split <;> rfl
  · split
    · split <;> rfl
    · rfl
  all_goals rfl

theorem runWorker_terminated (conv : Nat → TranscodeResult) (n : Nat) (s : ImageTranscoder) :
    (ImageTranscoder.runWorker conv n s).1.m_terminated = s.m_terminated := by
  induction n with
  | zero => rfl
  | succ n ih => rw [ImageTranscoder.runWorker]; simp only [TranscodeLoopMember_terminated, ih]

theorem join_terminated (c : TranscodeResult) (s : ImageTranscoder) :
    (ImageTranscoder.join c s).state.m_terminated = s.m_terminated := by
  unfold ImageTranscoder.join
  split
  · rfl
  · simp only
    split
    · exact runWorker_terminated _ 3 s
    · exact runWorker_terminated _ 3 s

theorem Stop_state_terminated (c : TranscodeResult) (s : ImageTranscoder) :
    (s.Stop c).state.m_terminated = true := by
  unfold ImageTranscoder.Stop
  split
  · assumption
  · simp only [join_terminated]

/-- A `Stop` that returns from a running queue has joined the worker. -/
theorem Stop_joins (c : TranscodeResult) (s : ImageTranscoder)
    (hrun : s.m_terminated = false) (hok : (s.Stop c).failure = none) :
    (s.Stop c).state.m_thread = Thread.notJoinable := by
  unfold ImageTranscoder.Stop at hok ⊢
  simp only [hrun, Bool.false_eq_true, if_false] at hok ⊢
  unfold ImageTranscoder.join at hok ⊢
  split at hok
  · cases hok
  · simp only at hok ⊢
    split at hok
    · rename_i hfin
      simp only [hfin]
    · cases hok

theorem Stop_of_terminated (c : TranscodeResult) (s : ImageTranscoder)
    (hterm : s.m_terminated = true) :
    s.Stop c = { state := s, trace := [], failure := none } := by
  simp [ImageTranscoder.Stop, hterm]

/-- C8: on a terminated queue `Stop` changes no state and makes no call (no
driver call, no join); hence from every state `Stop` followed by `Stop` gives
the same state, trace and outcome as a single `Stop`. -/
theorem Stop_idempotent (c c2 : TranscodeResult) (s : ImageTranscoder) :
    (s.m_terminated = true → s.Stop c = { state := s, trace := [], failure := none }) ∧
    (s.Stop c).andThen (ImageTranscoder.Stop c2) = s.Stop c := by
  refine ⟨Stop_of_terminated c s, ?_⟩
  have hterm := Stop_state_terminated c s
  generalize s.Stop c = r at hterm
  obtain ⟨st, tr, fl⟩ := r
  cases fl with
  | some e => rfl
  | none =>
    simp only at hterm
    simp [Result.andThen, Stop_of_terminated c2 st hterm]

theorem Stop_idempotent_witness :
    ImageTranscoder.new.Stop TranscodeResult.returned =
        { state := ImageTranscoder.new, trace := [], failure := none } ∧
      (exPending.Stop TranscodeResult.returned).andThen
          (ImageTranscoder.Stop TranscodeResult.returned) =
        exPending.Stop TranscodeResult.returned :=
  ⟨(Stop_idempotent TranscodeResult.returned TranscodeResult.returned
      ImageTranscoder.new).1 rfl,
    (Stop_idempotent TranscodeResult.returned TranscodeResult.returned exPending).2⟩

/-! ## Claims on session open -/

theorem adjustPoll_ends (d : Driver) (sh : VmbHandle) (fuel : Nat) :
    ∀ j k, j ≤ k → k < j + fuel →
      (VmbErrorSuccess ≠ (d.VmbFeatureCommandIsDone sh AdjustPackageSizeCommand k).1 ∨
        (d.VmbFeatureCommandIsDone sh AdjustPackageSizeCommand k).2 = true) →
      ∃ t, CameraAccessLifetime.adjustPoll d sh fuel j = some t ∧
        ∀ e ∈ t, e = Event.VmbFeatureCommandIsDone sh AdjustPackageSizeCommand := by
  induction fuel with
  | zero => intro j k h1 h2; omega
  | succ fuel ih =>
    intro j k hjk hlt hend
    rw [CameraAccessLifetime.adjustPoll]
    by_cases hfail :
        VmbErrorSuccess ≠ (d.VmbFeatureCommandIsDone sh AdjustPackageSizeCommand j).1
    · simp [hfail]
    · by_cases hdone : (d.VmbFeatureCommandIsDone sh AdjustPackageSizeCommand j).2 = false
      · have hne : j ≠ k := by
          rintro rfl
          rcases hend with h | h
          · exact hfail h
          · rw [hdone] at h; cases h
        obtain ⟨t, ht, hall⟩ := ih (j + 1) k (by omega) (by omega) hend
        refine ⟨Event.VmbFeatureCommandIsDone sh AdjustPackageSizeCommand :: t, ?_, ?_⟩
        · simp [hfail, hdone, ht]
        · intro e he
          rcases List.mem_cons.1 he with h | h
          · exact h
          · exact hall e h
      · simp [hfail, hdone]

theorem adjustPacketSize_ends (d : Driver) (sh : VmbHandle) (fuel : Nat)
    (hadj : VmbErrorSuccess ≠ d.VmbFeatureCommandRun sh AdjustPackageSizeCommand ∨
      ∃ k, k < fuel ∧
        (VmbErrorSuccess ≠ (d.VmbFeatureCommandIsDone sh AdjustPackageSizeCommand k).1 ∨
          (d.VmbFeatureCommandIsDone sh AdjustPackageSizeCommand k).2 = true)) :
    ∃ adjust, CameraAccessLifetime.adjustPacketSize d sh fuel = some adjust ∧
      ∀ e ∈ adjust, e.usesBuffers = false ∧ e.isCameraClose = false ∧
        e.isCameraOpen = false := by
  unfold CameraAccessLifetime.adjustPacketSize
  by_cases hrun : VmbErrorSuccess = d.VmbFeatureCommandRun sh AdjustPackageSizeCommand
  · rcases hadj with h | ⟨k, hk, hend⟩
    · exact absurd hrun h
    · obtain ⟨t, ht, hall⟩ := adjustPoll_ends d sh fuel 0 k (Nat.zero_le k) (by omega) hend
      refine ⟨Event.VmbFeatureCommandRun sh AdjustPackageSizeCommand :: t
        ++ [Event.VmbFeatureIntGet sh "GVSPPacketSize",
            Event.printf (if (d.VmbFeatureIntGet sh "GVSPPacketSize").1 = VmbErrorSuccess
              then (d.VmbFeatureIntGet sh "GVSPPacketSize").2 else 0)], ?_, ?_⟩
      · simp only [hrun, if_true, ht, Option.map_some']
      · intro e he
        simp only [List.cons_append, List.mem_cons, List.mem_append, List.not_mem_nil,
          or_false] at he
        rcases he with h | h | h | h
        · subst h; exact ⟨rfl, rfl, rfl⟩
        · rw [hall e h]; exact ⟨rfl, rfl, rfl⟩
        · subst h; exact ⟨rfl, rfl, rfl⟩
        · subst h; exact ⟨rfl, rfl, rfl⟩
  · refine ⟨[Event.VmbFeatureCommandRun sh AdjustPackageSizeCommand], ?_, ?_⟩
    · simp only [hrun, if_false]
    · intro e he
      rw [List.mem_singleton.1 he]
      exact ⟨rfl, rfl, rfl⟩

/-- C9: when the device opens, the refreshed camera info names a device and a
stream, the packet size adjustment ends, and `VmbPayloadSizeGet` succeeds with
the value 0, the constructor of `CameraAccessLifetime` throws "Non-zero payload
size required"; no buffer was allocated, announced or enqueued, capture was not
started, and `VmbCameraClose` is called exactly once, as the last call, on the
handle that the single `VmbCameraOpen` returned. -/
theorem open_zero_payload_fails (d : Driver) (BufferCount : Nat) (camInfo : VmbCameraInfo)
    (acquisitionManager fuel : Nat)
    (hopen : (d.VmbCameraOpen camInfo.cameraIdString).1 = VmbErrorSuccess)
    (hinfo : (d.VmbCameraInfoQueryByHandle
      (d.VmbCameraOpen camInfo.cameraIdString).2).1 = VmbErrorSuccess)
    (hdev : (d.VmbCameraInfoQueryByHandle
      (d.VmbCameraOpen camInfo.cameraIdString).2).2.localDeviceHandle ≠ 0)
    (hstream : (d.VmbCameraInfoQueryByHandle
      (d.VmbCameraOpen camInfo.cameraIdString).2).2.streamCount ≠ 0)
    (hadj : VmbErrorSuccess ≠ d.VmbFeatureCommandRun
        (d.VmbCameraInfoQueryByHandle
          (d.VmbCameraOpen camInfo.cameraIdString).2).2.streamHandle0
        AdjustPackageSizeCommand ∨
      ∃ k, k < fuel ∧
        (VmbErrorSuccess ≠ (d.VmbFeatureCommandIsDone
            (d.VmbCameraInfoQueryByHandle
              (d.VmbCameraOpen camInfo.cameraIdString).2).2.streamHandle0
            AdjustPackageSizeCommand k).1 ∨
          (d.VmbFeatureCommandIsDone
            (d.VmbCameraInfoQueryByHandle
              (d.VmbCameraOpen camInfo.cameraIdString).2).2.streamHandle0
            AdjustPackageSizeCommand k).2 = true))
    (hpay : d.VmbPayloadSizeGet
      (d.VmbCameraInfoQueryByHandle
        (d.VmbCameraOpen camInfo.cameraIdString).2).2.streamHandle0 = (VmbErrorSuccess, 0)) :
    ∃ trace,
      CameraAccessLifetime.new d BufferCount camInfo acquisitionManager fuel =
        some { trace := trace,
               result := Except.error
                 { m_errorMessage := "Non-zero payload size required", m_exitCode := none } } ∧
      (∀ e ∈ trace, e.usesBuffers = false) ∧
      trace.countP Event.isCameraOpen = 1 ∧
      trace.countP Event.isCameraClose = 1 ∧
      trace.getLast? = some (Event.VmbCameraClose (d.VmbCameraOpen camInfo.cameraIdString).2) := by
  obtain ⟨adjust, hadjust, hall⟩ := adjustPacketSize_ends d _ fuel hadj
  have hstreamNew : StreamLifetime.new d BufferCount
      (d.VmbCameraInfoQueryByHandle
        (d.VmbCameraOpen camInfo.cameraIdString).2).2.streamHandle0
      (d.VmbCameraOpen camInfo.cameraIdString).2 acquisitionManager fuel =
      some { trace := [Event.VmbPayloadSizeGet (d.VmbCameraInfoQueryByHandle
                (d.VmbCameraOpen camInfo.cameraIdString).2).2.streamHandle0],
             result := Except.error
               { m_errorMessage := "Non-zero payload size required", m_exitCode := none } } := by
    simp [StreamLifetime.new, hpay]
  refine ⟨[Event.VmbCameraOpen camInfo.cameraIdString,
      Event.VmbCameraInfoQueryByHandle (d.VmbCameraOpen camInfo.cameraIdString).2]
      ++ adjust
      ++ [Event.VmbPayloadSizeGet (d.VmbCameraInfoQueryByHandle
            (d.VmbCameraOpen camInfo.cameraIdString).2).2.streamHandle0]
      ++ [Event.VmbCameraClose (d.VmbCameraOpen camInfo.cameraIdString).2], ?_, ?_, ?_, ?_, ?_⟩
  · simp only [CameraAccessLifetime.new, hopen, hinfo, ne_eq, not_true_eq_false, if_false,
      hdev, hstream, hadjust, hstreamNew]
  · intro e he
    simp only [List.mem_cons, List.mem_append, List.mem_singleton, List.not_mem_nil,
      or_false] at he
    casesm* _ ∨ _
    all_goals rename_i h
    all_goals first
      | exact (hall e h).1
      | (subst h; rfl)
  · have h0 : adjust.countP Event.isCameraOpen = 0 :=
      List.countP_eq_zero.2 fun e he => by simp [(hall e he).2.2]
    simp [List.countP_append, List.countP_cons, h0, Event.isCameraOpen]
  · have h0 : adjust.countP Event.isCameraClose = 0 :=
      List.countP_eq_zero.2 fun e he => by simp [(hall e he).2.1]
    simp [List.countP_append, List.countP_cons, h0, Event.isCameraClose]
  · exact List.getLast?_concat _

theorem open_zero_payload_fails_witness :
    ∃ trace,
      CameraAccessLifetime.new (exDriver 0 (0, 64)) 3 exCamera 1 10 =
        some { trace := trace,
               result := Except.error
                 { m_errorMessage := "Non-zero payload size required", m_exitCode := none } } ∧
      (∀ e ∈ trace, e.usesBuffers = false) ∧
      trace.countP Event.isCameraOpen = 1 ∧
      trace.countP Event.isCameraClose = 1 ∧
      trace.getLast? = some (Event.VmbCameraClose 11) :=
  open_zero_payload_fails (exDriver 0 (0, 64)) 3 exCamera 1 10 rfl rfl (by decide) (by decide)
    (Or.inr ⟨2, by decide, Or.inr rfl⟩) rfl

theorem allocate_trace_mem (d : Driver) (p a : Nat) :
    ∀ count frames e, e ∈ (AcquisitionLifetime.allocate d p a count frames).1 →
      e = Event.aligned_alloc a p := by
  intro count
  induction count with
  | zero => intro frames e he; simp [AcquisitionLifetime.allocate] at he
  | succ n ih =>
    intro frames e he
    rw [AcquisitionLifetime.allocate] at he
    unfold Frame.new at he
    by_cases hp : p > 4294967295
    · simp [hp] at he
    · by_cases hb : d.aligned_alloc a p frames.length = 0
      · simp [hp, hb] at he
        exact he
      · simp only [hp, hb, if_false, List.singleton_append, List.mem_cons] at he
        rcases he with h | h
        · exact h
        · exact ih _ e h

theorem announce_trace_mem (d : Driver) (h : VmbHandle) (m : Nat) :
    ∀ frames index err e, e ∈ (AcquisitionLifetime.announce d h m index frames err).1 →
      ∃ f, e = Event.VmbFrameAnnounce h f := by
  intro frames
  induction frames with
  | nil => intro index err e he; simp [AcquisitionLifetime.announce] at he
  | cons frame rest ih =>
    intro index err e he
    rw [AcquisitionLifetime.announce] at he
    by_cases hfail : d.VmbFrameAnnounce h index ≠ VmbErrorSuccess
    · simp only [if_pos hfail, List.mem_singleton] at he
      exact ⟨_, he⟩
    · simp only [if_neg hfail, List.mem_cons] at he
      rcases he with h1 | h1
      · exact ⟨_, h1⟩
      · exact ih _ _ e h1

theorem enqueue_trace_mem (d : Driver) (h : VmbHandle) :
    ∀ frames index err count e, e ∈ (AcquisitionLifetime.enqueue d h index frames err count).1 →
      ∃ f, e = Event.VmbCaptureFrameQueue h f FrameCallbackAddress := by
  intro frames
  induction frames with
  | nil => intro index err count e he; simp [AcquisitionLifetime.enqueue] at he
  | cons frame rest ih =>
    intro index err count e he
    rw [AcquisitionLifetime.enqueue] at he
    simp only [List.mem_cons] at he
    rcases he with h1 | h1
    · exact ⟨_, h1⟩
    · exact ih _ _ _ e h1

theorem poll_trace_mem (d : Driver) (h : VmbHandle) (c : String) :
    ∀ fuel k r, RunCommand.poll d h c fuel k = some r →
      ∀ e ∈ r.trace, e = Event.VmbFeatureCommandIsDone h c := by
  intro fuel
  induction fuel with
  | zero => intro k r hr; simp [RunCommand.poll] at hr
  | succ n ih =>
    intro k r hr e he
    rw [RunCommand.poll] at hr
    by_cases hfail : (d.VmbFeatureCommandIsDone h c k).1 ≠ VmbErrorSuccess
    · simp only [if_pos hfail, Option.some.injEq] at hr
      subst hr
      exact List.mem_singleton.1 he
    · by_cases hdone : (d.VmbFeatureCommandIsDone h c k).2 = true
      · simp only [if_neg hfail, if_pos hdone, Option.some.injEq] at hr
        subst hr
        exact List.mem_singleton.1 he
      · simp only [if_neg hfail, if_neg hdone, Option.map_eq_some'] at hr
        obtain ⟨r1, hr1, hr2⟩ := hr
        subst hr2
        rcases List.mem_cons.1 he with h1 | h1
        · exact h1
        · exact ih _ r1 hr1 e h1

theorem RunCommand_trace_mem (d : Driver) (h : VmbHandle) (c : String) (fuel : Nat)
    (r : Run Unit) (hr : RunCommand d h c fuel = some r) :
    ∀ e ∈ r.trace, e = Event.VmbFeatureCommandRun h c ∨ e = Event.VmbFeatureCommandIsDone h c := by
  intro e he
  unfold RunCommand at hr
  by_cases hfail : d.VmbFeatureCommandRun h c ≠ VmbErrorSuccess
  · simp only [if_pos hfail, Option.some.injEq] at hr
    subst hr
    exact Or.inl (List.mem_singleton.1 he)
  · simp only [if_neg hfail, Option.map_eq_some'] at hr
    obtain ⟨r1, hr1, hr2⟩ := hr
    subst hr2
    rcases List.mem_cons.1 he with h1 | h1
    · exact Or.inl h1
    · exact Or.inr (poll_trace_mem d h c fuel 0 r1 hr1 e h1)

theorem freeAll_mem (frames : List Frame) (e : Event) (he : e ∈ Frame.freeAll frames) :
    ∃ b, e = Event.free b := by
  simp only [Frame.freeAll, List.mem_map] at he
  obtain ⟨f, _, hf⟩ := he
  exact ⟨_, hf.symm⟩

theorem AcquisitionLifetime_new_allocs (d : Driver) (BufferCount : Nat) (h : VmbHandle)
    (p a m fuel : Nat) (r : Run AcquisitionLifetime)
    (hr : AcquisitionLifetime.new d BufferCount h p a m fuel = some r) (x size : Nat)
    (hmem : Event.aligned_alloc x size ∈ r.trace) : x = a ∧ size = p := by
  unfold AcquisitionLifetime.new at hr
  simp only at hr
  split at hr
  · simp only [Option.some.injEq] at hr
    subst hr
    simp only [List.mem_append] at hmem
    casesm* _ ∨ _
    all_goals rename_i hm
    · have h1 := allocate_trace_mem _ _ _ _ _ _ hm
      injection h1 with h2 h3
      exact ⟨h2, h3⟩
    · obtain ⟨f, h1⟩ := freeAll_mem _ _ hm
      cases h1
  · split at hr
    · simp only [Option.some.injEq] at hr
      subst hr
      simp only [List.mem_append, List.mem_singleton] at hmem
      casesm* _ ∨ _
      all_goals rename_i hm
      all_goals first
        | (have h1 := allocate_trace_mem _ _ _ _ _ _ hm
           injection h1 with h2 h3
           exact ⟨h2, h3⟩)
        | (obtain ⟨f, h1⟩ := announce_trace_mem _ _ _ _ _ _ _ hm
           cases h1)
        | (obtain ⟨f, h1⟩ := freeAll_mem _ _ hm
           cases h1)
        | cases hm
    · split at hr
      · simp only [Option.some.injEq] at hr
        subst hr
        simp only [List.mem_append, List.mem_singleton] at hmem
        casesm* _ ∨ _
        all_goals rename_i hm
        all_goals first
          | (have h1 := allocate_trace_mem _ _ _ _ _ _ hm
             injection h1 with h2 h3
             exact ⟨h2, h3⟩)
          | (obtain ⟨f, h1⟩ := announce_trace_mem _ _ _ _ _ _ _ hm
             cases h1)
          | (obtain ⟨f, h1⟩ := freeAll_mem _ _ hm
             cases h1)
          | cases hm
      · split at hr
        · simp only [Option.some.injEq] at hr
          subst hr
          simp only [List.mem_append, List.mem_singleton] at hmem
          casesm* _ ∨ _
          all_goals rename_i hm
          all_goals first
            | (have h1 := allocate_trace_mem _ _ _ _ _ _ hm
               injection h1 with h2 h3
               exact ⟨h2, h3⟩)
            | (obtain ⟨f, h1⟩ := announce_trace_mem _ _ _ _ _ _ _ hm
               cases h1)
            | (obtain ⟨f, h1⟩ := enqueue_trace_mem _ _ _ _ _ _ _ hm
               cases h1)
            | (obtain ⟨f, h1⟩ := freeAll_mem _ _ hm
               cases h1)
            | cases hm
        · split at hr
          · cases hr
          · rename_i run hrun
            split at hr
            all_goals
              simp only [Option.some.injEq] at hr
              subst hr
              simp only [List.mem_append, List.mem_singleton] at hmem
              casesm* _ ∨ _
            all_goals rename_i hm
            all_goals first
              | (have h1 := allocate_trace_mem _ _ _ _ _ _ hm
                 injection h1 with h2 h3
                 exact ⟨h2, h3⟩)
              | (obtain ⟨f, h1⟩ := announce_trace_mem _ _ _ _ _ _ _ hm
                 cases h1)
              | (obtain ⟨f, h1⟩ := enqueue_trace_mem _ _ _ _ _ _ _ hm
                 cases h1)
              | (obtain ⟨f, h1⟩ := freeAll_mem _ _ hm
                 cases h1)
              | (rcases RunCommand_trace_mem _ _ _ _ _ hrun _ hm with h1 | h1 <;> cases h1)
              | cases hm

/-! The session constructors read `VmbFeatureIntGet` only where the source does. -/

theorem allocate_congr (d : Driver) (g : VmbHandle → String → VmbError × Int) (p a : Nat) :
    ∀ count frames,
      AcquisitionLifetime.allocate { d with VmbFeatureIntGet := g } p a count frames =
        AcquisitionLifetime.allocate d p a count frames := by
  intro count
  induction count with
  | zero => intro frames; rfl
  | succ n ih =>
    intro frames
    rw [AcquisitionLifetime.allocate, AcquisitionLifetime.allocate]
    have hf : Frame.new { d with VmbFeatureIntGet := g } frames.length p a =
        Frame.new d frames.length p a := rfl
    rw [hf]
    split
    · rfl
    · rw [ih]

theorem announce_congr (d : Driver) (g : VmbHandle → String → VmbError × Int)
    (h : VmbHandle) (m : Nat) :
    ∀ frames index err,
      AcquisitionLifetime.announce { d with VmbFeatureIntGet := g } h m index frames err =
        AcquisitionLifetime.announce d h m index frames err := by
  intro frames
  induction frames with
  | nil => intro index err; rfl
  | cons frame rest ih =>
    intro index err
    rw [AcquisitionLifetime.announce, AcquisitionLifetime.announce]
    simp only [ih]

theorem enqueue_congr (d : Driver) (g : VmbHandle → String → VmbError × Int) (h : VmbHandle) :
    ∀ frames index err count,
      AcquisitionLifetime.enqueue { d with VmbFeatureIntGet := g } h index frames err count =
        AcquisitionLifetime.enqueue d h index frames err count := by
  intro frames
  induction frames with
  | nil => intro index err count; rfl
  | cons frame rest ih =>
    intro index err count
    rw [AcquisitionLifetime.enqueue, AcquisitionLifetime.enqueue]
    simp only [ih]

theorem poll_congr (d : Driver) (g : VmbHandle → String → VmbError × Int) (h : VmbHandle)
    (c : String) :
    ∀ fuel k, RunCommand.poll { d with VmbFeatureIntGet := g } h c fuel k =
      RunCommand.poll d h c fuel k := by
  intro fuel
  induction fuel with
  | zero => intro k; rfl
  | succ n ih =>
    intro k
    rw [RunCommand.poll, RunCommand.poll]
    simp only [ih]

theorem RunCommand_congr (d : Driver) (g : VmbHandle → String → VmbError × Int)
    (h : VmbHandle) (c : String) (fuel : Nat) :
    RunCommand { d with VmbFeatureIntGet := g } h c fuel = RunCommand d h c fuel := by
  unfold RunCommand
  simp only [poll_congr]

theorem AcquisitionLifetime_new_congr (d : Driver) (g : VmbHandle → String → VmbError × Int)
    (BufferCount : Nat) (h : VmbHandle) (p a m fuel : Nat) :
    AcquisitionLifetime.new { d with VmbFeatureIntGet := g } BufferCount h p a m fuel =
      AcquisitionLifetime.new d BufferCount h p a m fuel := by
  unfold AcquisitionLifetime.new
  simp only [allocate_congr, announce_congr, enqueue_congr, RunCommand_congr]

theorem adjustPoll_congr (d : Driver) (g : VmbHandle → String → VmbError × Int)
    (h : VmbHandle) :
    ∀ fuel k, CameraAccessLifetime.adjustPoll { d with VmbFeatureIntGet := g } h fuel k =
      CameraAccessLifetime.adjustPoll d h fuel k := by
  intro fuel
  induction fuel with
  | zero => intro k; rfl
  | succ n ih =>
    intro k
    rw [CameraAccessLifetime.adjustPoll, CameraAccessLifetime.adjustPoll]
    simp only [ih]

theorem StreamLifetime_new_congr (d : Driver) (g : VmbHandle → String → VmbError × Int)
    (BufferCount : Nat) (sh ch : VmbHandle) (m fuel : Nat)
    (halign : StreamLifetime.bufferAlignment { d with VmbFeatureIntGet := g } sh =
      StreamLifetime.bufferAlignment d sh) :
    StreamLifetime.new { d with VmbFeatureIntGet := g } BufferCount sh ch m fuel =
      StreamLifetime.new d BufferCount sh ch m fuel := by
  unfold StreamLifetime.new
  simp only [AcquisitionLifetime_new_congr, halign]

theorem bufferAlignment_of_failed (d : Driver) (sh : VmbHandle)
    (hfail : (d.VmbFeatureIntGet sh "StreamBufferAlignment").1 ≠ VmbErrorSuccess) :
    StreamLifetime.bufferAlignment d sh = 1 := by
  have h2 : VmbErrorSuccess ≠ (d.VmbFeatureIntGet sh "StreamBufferAlignment").1 :=
    fun h => hfail h.symm
  simp [StreamLifetime.bufferAlignment, h2]

theorem bufferAlignment_of_one (d : Driver) (sh : VmbHandle) :
    StreamLifetime.bufferAlignment
      { d with VmbFeatureIntGet := fun h f =>
          if f = "StreamBufferAlignment" then (VmbErrorSuccess, 1)
          else d.VmbFeatureIntGet h f } sh = 1 := by
  simp [StreamLifetime.bufferAlignment]

theorem adjustPacketSize_congr (d : Driver) (sh : VmbHandle) (fuel : Nat) :
    CameraAccessLifetime.adjustPacketSize
      { d with VmbFeatureIntGet := fun h f =>
          if f = "StreamBufferAlignment" then (VmbErrorSuccess, 1)
          else d.VmbFeatureIntGet h f } sh fuel =
      CameraAccessLifetime.adjustPacketSize d sh fuel := by
  unfold CameraAccessLifetime.adjustPacketSize
  have hne : ("GVSPPacketSize" = "StreamBufferAlignment") = False := by decide
  simp only [adjustPoll_congr, hne, if_false]

/-- C10: the alignment passed to every buffer allocation of session open is the
local `bufferAlignment`, which is at least 1: it is the value the driver wrote
(a `VmbInt64_t`) when the `StreamBufferAlignment` read succeeds with a value of
at least 1, and 1 when the read fails or the value is below 1; a failed read
leaves session open with the same calls and the same outcome as a read that
succeeds with the value 1. -/
theorem bufferAlignment_at_least_one (d : Driver) (BufferCount : Nat)
    (camInfo : VmbCameraInfo) (streamHandle cameraHandle : VmbHandle)
    (acquisitionManager fuel : Nat)
    (hrange : (d.VmbFeatureIntGet streamHandle "StreamBufferAlignment").2
      < 9223372036854775808) :
    1 ≤ StreamLifetime.bufferAlignment d streamHandle ∧
    ((d.VmbFeatureIntGet streamHandle "StreamBufferAlignment").1 = VmbErrorSuccess ∧
        1 ≤ (d.VmbFeatureIntGet streamHandle "StreamBufferAlignment").2 →
      (StreamLifetime.bufferAlignment d streamHandle : Int) =
        (d.VmbFeatureIntGet streamHandle "StreamBufferAlignment").2) ∧
    ((d.VmbFeatureIntGet streamHandle "StreamBufferAlignment").1 ≠ VmbErrorSuccess ∨
        (d.VmbFeatureIntGet streamHandle "StreamBufferAlignment").2 < 1 →
      StreamLifetime.bufferAlignment d streamHandle = 1) ∧
    (∀ r, StreamLifetime.new d BufferCount streamHandle cameraHandle acquisitionManager fuel
        = some r →
      ∀ x size, Event.aligned_alloc x size ∈ r.trace →
        x = StreamLifetime.bufferAlignment d streamHandle) ∧
    ((∀ h, (d.VmbFeatureIntGet h "StreamBufferAlignment").1 ≠ VmbErrorSuccess) →
      CameraAccessLifetime.new d BufferCount camInfo acquisitionManager fuel =
        CameraAccessLifetime.new
          { d with VmbFeatureIntGet := fun h f =>
              if f = "StreamBufferAlignment" then (VmbErrorSuccess, 1)
              else d.VmbFeatureIntGet h f }
          BufferCount camInfo acquisitionManager fuel) := by
  refine ⟨?_, ?_, ?_, ?_, ?_⟩
  · unfold StreamLifetime.bufferAlignment
    simp only
    split_ifs <;> omega
  · rintro ⟨hok, hge⟩
    unfold StreamLifetime.bufferAlignment
    simp only
    have h2 : ¬ VmbErrorSuccess ≠ (d.VmbFeatureIntGet streamHandle "StreamBufferAlignment").1 :=
      fun h => h hok.symm
    rw [if_neg h2, if_neg (by omega)]
    omega
  · rintro (hfail | hlt)
    · exact bufferAlignment_of_failed d streamHandle hfail
    · unfold StreamLifetime.bufferAlignment
      simp only
      split_ifs <;> omega
  · intro r hr x size hmem
    unfold StreamLifetime.new at hr
    simp only at hr
    split at hr
    · simp only [Option.some.injEq] at hr
      subst hr
      simp at hmem
    · split at hr
      · simp only [Option.some.injEq] at hr
        subst hr
        simp at hmem
      · split at hr
        · cases hr
        · rename_i life hlife
          simp only [Option.some.injEq] at hr
          subst hr
          simp only [List.mem_cons] at hmem
          rcases hmem with h1 | h1 | h1
          · cases h1
          · cases h1
          · exact (AcquisitionLifetime_new_allocs d BufferCount cameraHandle _ _ _ fuel life
              hlife x size h1).1
  · intro hfail
    unfold CameraAccessLifetime.new
    simp only [adjustPacketSize_congr]
    have hs : ∀ sh ch,
        StreamLifetime.new
          { d with VmbFeatureIntGet := fun h f =>
              if f = "StreamBufferAlignment" then (VmbErrorSuccess, 1)
              else d.VmbFeatureIntGet h f } BufferCount sh ch acquisitionManager fuel =
        StreamLifetime.new d BufferCount sh ch acquisitionManager fuel := by
      intro sh ch
      apply StreamLifetime_new_congr
      rw [bufferAlignment_of_one, bufferAlignment_of_failed d sh (hfail sh)]
    simp only [hs]

theorem bufferAlignment_at_least_one_witness :
    StreamLifetime.bufferAlignment (exDriver 64 (0, 128)) 21 = 128 ∧
      StreamLifetime.bufferAlignment (exDriver 64 (0, -8)) 21 = 1 ∧
      StreamLifetime.bufferAlignment (exDriver 64 (-3, 512)) 21 = 1 ∧
      (CameraAccessLifetime.new (exDriver 64 (-3, 512)) 3 exCamera 1 10).map
          (fun r => r.result.toBool) = some true ∧
      (CameraAccessLifetime.new (exDriver 64 (-3, 512)) 3 exCamera 1 10).map
          (fun r => r.trace.filter Event.usesBuffers) =
        some [Event.aligned_alloc 1 64, Event.aligned_alloc 1 64, Event.aligned_alloc 1 64,
          Event.VmbFrameAnnounce 11
            { buffer := 4096, bufferSize := 64, context0 := 1, receiveStatus := 0,
              receiveFlags := 0, imageData := 0, pixelFormat := 0, width := 0, height := 0 },
          Event.VmbFrameAnnounce 11
            { buffer := 8192, bufferSize := 64, context0 := 1, receiveStatus := 0,
              receiveFlags := 0, imageData := 0, pixelFormat := 0, width := 0, height := 0 },
          Event.VmbFrameAnnounce 11
            { buffer := 12288, bufferSize := 64, context0 := 1, receiveStatus := 0,
              receiveFlags := 0, imageData := 0, pixelFormat := 0, width := 0, height := 0 },
          Event.VmbCaptureStart 11,
          Event.VmbCaptureFrameQueue 11
            { buffer := 4096, bufferSize := 64, context0 := 1, receiveStatus := 0,
              receiveFlags := 0, imageData := 0, pixelFormat := 0, width := 0, height := 0 } 1,
          Event.VmbCaptureFrameQueue 11
            { buffer := 8192, bufferSize := 64, context0 := 1, receiveStatus := 0,
              receiveFlags := 0, imageData := 0, pixelFormat := 0, width := 0, height := 0 } 1,
          Event.VmbCaptureFrameQueue 11
            { buffer := 12288, bufferSize := 64, context0 := 1, receiveStatus := 0,
              receiveFlags := 0, imageData := 0, pixelFormat := 0, width := 0, height := 0 } 1] := by
  have ok := bufferAlignment_at_least_one (exDriver 64 (0, 128)) 3 exCamera 21 11 1 10
    (by decide)
  have low := bufferAlignment_at_least_one (exDriver 64 (0, -8)) 3 exCamera 21 11 1 10
    (by decide)
  have failed := bufferAlignment_at_least_one (exDriver 64 (-3, 512)) 3 exCamera 21 11 1 10
    (by decide)
  refine ⟨?_, low.2.2.1 (Or.inr (by decide)), failed.2.2.1 (Or.inl (by decide)), ?_, ?_⟩
  · have h : ((StreamLifetime.bufferAlignment (exDriver 64 (0, 128)) 21 : Nat) : Int) = 128 :=
      ok.2.1 ⟨rfl, by decide⟩
    exact_mod_cast h
  · decide
  · decide

/-! ## Claims on the buffer pool -/

theorem allocate_ok (d : Driver) (p a : Nat) (hp : p ≤ 4294967295) :
    ∀ count frames,
      (∀ i, frames.length ≤ i → i < frames.length + count → d.aligned_alloc a p i ≠ 0) →
      ∃ fs, AcquisitionLifetime.allocate d p a count frames =
          (List.replicate count (Event.aligned_alloc a p), frames ++ fs, none) ∧
        fs.length = count := by
  intro count
  induction count with
  | zero => intro frames _; exact ⟨[], by simp [AcquisitionLifetime.allocate], rfl⟩
  | succ n ih =>
    intro frames hall
    have hb : d.aligned_alloc a p frames.length ≠ 0 :=
      hall frames.length (Nat.le_refl _) (by omega)
    have hnew : ∃ f0, Frame.new d frames.length p a =
        { trace := [Event.aligned_alloc a p], result := Except.ok f0 } := by
      unfold Frame.new
      rw [if_neg (by omega), if_neg hb]
      exact ⟨_, rfl⟩
    obtain ⟨f0, hf0⟩ := hnew
    obtain ⟨fs, hfs, hlen⟩ := ih (frames ++ [f0])
      (by
        intro i h1 h2
        rw [List.length_append, List.length_singleton] at h1 h2
        exact hall i (by omega) (by omega))
    refine ⟨f0 :: fs, ?_, by simp [hlen]⟩
    rw [AcquisitionLifetime.allocate, hf0]
    simp only [hfs, List.singleton_append, List.replicate_succ, List.append_assoc]

theorem announce_fails_at (d : Driver) (h : VmbHandle) (m : Nat) :
    ∀ frames index err k, index ≤ k → k < index + frames.length →
      (∀ j, index ≤ j → j < k → d.VmbFrameAnnounce h j = VmbErrorSuccess) →
      d.VmbFrameAnnounce h k ≠ VmbErrorSuccess →
      ∃ t fs, AcquisitionLifetime.announce d h m index frames err =
          (t, fs, d.VmbFrameAnnounce h k) ∧
        t.length = k - index + 1 ∧ fs.length = frames.length := by
  intro frames
  induction frames with
  | nil => intro index err k h1 h2; simp at h2; omega
  | cons frame rest ih =>
    intro index err k hle hlt hok hfail
    rw [AcquisitionLifetime.announce]
    by_cases hk : index = k
    · subst hk
      rw [if_pos hfail]
      exact ⟨_, _, rfl, by simp, rfl⟩
    · have hs : d.VmbFrameAnnounce h index = VmbErrorSuccess := hok index (Nat.le_refl _) (by omega)
      rw [if_neg (by rw [hs]; exact fun hne => hne rfl)]
      obtain ⟨t, fs, hrec, hlen, hfs⟩ := ih (index + 1) (d.VmbFrameAnnounce h index) k
        (by omega) (by simp at hlt; omega) (fun j h1 h2 => hok j (by omega) h2) hfail
      refine ⟨Event.VmbFrameAnnounce h (AcquisitionContext.FillFrame m frame).m_frame :: t,
        AcquisitionContext.FillFrame m frame :: fs, ?_, ?_, ?_⟩
      · simp only [hrec]
      · simp only [List.length_cons, hlen]; omega
      · simp only [List.length_cons, hfs]

/-- C11: in a pool of `BufferCount` allocated buffers, if the announce of the
buffer at position `k` is the first to fail, the constructor of
`AcquisitionLifetime` throws the `VmbFrameAnnounce` error with the driver's
status; its calls are the allocations, `k + 1` announces (none after the
failing one), one `VmbFrameRevokeAll` and the frees: `VmbCaptureStart`,
`VmbCaptureFrameQueue` and the run of a command are never called. -/
theorem announce_failure_rolls_back (d : Driver) (BufferCount : Nat) (h : VmbHandle)
    (p a m fuel k : Nat) (hp : p ≤ 4294967295)
    (halloc : ∀ i, i < BufferCount → d.aligned_alloc a p i ≠ 0)
    (hk : k < BufferCount)
    (hok : ∀ j, j < k → d.VmbFrameAnnounce h j = VmbErrorSuccess)
    (hfail : d.VmbFrameAnnounce h k ≠ VmbErrorSuccess) :
    ∃ announces frames,
      AcquisitionLifetime.new d BufferCount h p a m fuel =
        some { trace := List.replicate BufferCount (Event.aligned_alloc a p) ++ announces
                  ++ [Event.VmbFrameRevokeAll h] ++ Frame.freeAll frames,
               result := Except.error
                 (VmbException.ForOperation (d.VmbFrameAnnounce h k) "VmbFrameAnnounce") } ∧
      announces.length = k + 1 ∧
      (∀ e ∈ announces, ∃ f, e = Event.VmbFrameAnnounce h f) ∧
      frames.length = BufferCount ∧
      (List.replicate BufferCount (Event.aligned_alloc a p) ++ announces
          ++ [Event.VmbFrameRevokeAll h] ++ Frame.freeAll frames).countP
        Event.isFrameRevokeAll = 1 ∧
      (∀ e ∈ List.replicate BufferCount (Event.aligned_alloc a p) ++ announces
          ++ [Event.VmbFrameRevokeAll h] ++ Frame.freeAll frames,
        e.startsCapture = false) := by
  obtain ⟨fs, hfs, hlen⟩ := allocate_ok d p a hp BufferCount []
    (fun i _ h2 => halloc i (by simpa using h2))
  obtain ⟨t, fr, hann, htlen, hfrlen⟩ := announce_fails_at d h m fs 0 VmbErrorSuccess k
    (Nat.zero_le _) (by omega) (fun j _ h2 => hok j h2) hfail
  have hmem : ∀ e ∈ t, ∃ f, e = Event.VmbFrameAnnounce h f := by
    intro e he
    have h1 := announce_trace_mem d h m fs 0 VmbErrorSuccess e
    rw [hann] at h1
    exact h1 he
  refine ⟨t, fr, ?_, by omega, hmem, by omega, ?_, ?_⟩
  · unfold AcquisitionLifetime.new
    simp only [hfs, List.nil_append, hann]
    rw [if_pos hfail]
  · have h1 : t.countP Event.isFrameRevokeAll = 0 :=
      List.countP_eq_zero.2 fun e he => by
        obtain ⟨f, hf⟩ := hmem e he
        simp [hf, Event.isFrameRevokeAll]
    have h2 : (Frame.freeAll fr).countP Event.isFrameRevokeAll = 0 :=
      List.countP_eq_zero.2 fun e he => by
        obtain ⟨b, hb⟩ := freeAll_mem fr e he
        simp [hb, Event.isFrameRevokeAll]
    have h3 : (List.replicate BufferCount (Event.aligned_alloc a p)).countP
        Event.isFrameRevokeAll = 0 :=
      List.countP_eq_zero.2 fun e he => by
        rw [List.eq_of_mem_replicate he]
        simp [Event.isFrameRevokeAll]
    simp [List.countP_append, h1, h2, h3, Event.isFrameRevokeAll]
  · intro e he
    simp only [List.mem_append, List.mem_singleton] at he
    casesm* _ ∨ _
    all_goals rename_i hm
    · rw [List.eq_of_mem_replicate hm]; rfl
    · obtain ⟨f, hf⟩ := hmem e hm
      rw [hf]; rfl
    · rw [hm]; rfl
    · obtain ⟨b, hb⟩ := freeAll_mem fr e hm
      rw [hb]; rfl

theorem announce_failure_rolls_back_witness :
    ∃ announces frames,
      AcquisitionLifetime.new exDriverAnnounceFails 3 11 64 8 1 10 =
        some { trace := List.replicate 3 (Event.aligned_alloc 8 64) ++ announces
                  ++ [Event.VmbFrameRevokeAll 11] ++ Frame.freeAll frames,
               result := Except.error
                 (VmbException.ForOperation (-5) "VmbFrameAnnounce") } ∧
      announces.length = 2 ∧
      (∀ e ∈ announces, ∃ f, e = Event.VmbFrameAnnounce 11 f) ∧
      frames.length = 3 ∧
      (List.replicate 3 (Event.aligned_alloc 8 64) ++ announces
          ++ [Event.VmbFrameRevokeAll 11] ++ Frame.freeAll frames).countP
        Event.isFrameRevokeAll = 1 ∧
      (∀ e ∈ List.replicate 3 (Event.aligned_alloc 8 64) ++ announces
          ++ [Event.VmbFrameRevokeAll 11] ++ Frame.freeAll frames,
        e.startsCapture = false) :=
  announce_failure_rolls_back exDriverAnnounceFails 3 11 64 8 1 10 1 (by decide) (by decide)
    (by decide) (by decide) (by decide)

theorem announce_ok (d : Driver) (h : VmbHandle) (m : Nat) :
    ∀ frames index,
      (∀ j, index ≤ j → j < index + frames.length →
        d.VmbFrameAnnounce h j = VmbErrorSuccess) →
      ∃ t, AcquisitionLifetime.announce d h m index frames VmbErrorSuccess =
          (t, frames.map (AcquisitionContext.FillFrame m), VmbErrorSuccess) ∧
        t.length = frames.length := by
  intro frames
  induction frames with
  | nil => intro index _; exact ⟨[], rfl, rfl⟩
  | cons frame rest ih =>
    intro index hok
    have hs : d.VmbFrameAnnounce h index = VmbErrorSuccess :=
      hok index (Nat.le_refl _) (by simp)
    obtain ⟨t, ht, hlen⟩ := ih (index + 1) (fun j h1 h2 =>
      hok j (by omega) (by simp only [List.length_cons]; omega))
    refine ⟨Event.VmbFrameAnnounce h (AcquisitionContext.FillFrame m frame).m_frame :: t,
      ?_, by simp [hlen]⟩
    rw [AcquisitionLifetime.announce, if_neg (by rw [hs]; exact fun hne => hne rfl), hs]
    simp only [ht, List.map_cons]

theorem enqueue_counts (d : Driver) (h : VmbHandle) :
    ∀ frames index err n,
      ∃ t code, AcquisitionLifetime.enqueue d h index frames err n =
          (t, code, n + (List.range' index frames.length).countP fun i =>
            decide (d.VmbCaptureFrameQueue h i = VmbErrorSuccess)) ∧
        t.length = frames.length := by
  intro frames
  induction frames with
  | nil => intro index err n; exact ⟨[], err, by simp [AcquisitionLifetime.enqueue], rfl⟩
  | cons frame rest ih =>
    intro index err n
    obtain ⟨t, code, ht, hlen⟩ := ih (index + 1) (d.VmbCaptureFrameQueue h index)
      (if d.VmbCaptureFrameQueue h index = VmbErrorSuccess then n + 1 else n)
    refine ⟨Event.VmbCaptureFrameQueue h frame.m_frame FrameCallbackAddress :: t, code, ?_,
      by simp [hlen]⟩
    rw [AcquisitionLifetime.enqueue]
    simp only [ht, List.length_cons, List.range'_succ, List.countP_cons]
    by_cases hs : d.VmbCaptureFrameQueue h index = VmbErrorSuccess
    · simp only [hs, if_true, decide_True]
      congr 2
      omega
    · simp only [hs, if_false, decide_False]
      congr 2

theorem RunCommand_starts (d : Driver) (h : VmbHandle) (c : String) (fuel : Nat)
    (r : Run Unit) (hr : RunCommand d h c fuel = some r) :
    ∃ rest, r.trace = Event.VmbFeatureCommandRun h c :: rest := by
  unfold RunCommand at hr
  by_cases hfail : d.VmbFeatureCommandRun h c ≠ VmbErrorSuccess
  · simp only [if_pos hfail, Option.some.injEq] at hr
    subst hr
    exact ⟨[], rfl⟩
  · simp only [if_neg hfail, Option.map_eq_some'] at hr
    obtain ⟨r1, _, hr2⟩ := hr
    subst hr2
    exact ⟨r1.trace, rfl⟩

/-- The allocation loop, when every allocation succeeds: the frames added hold
the buffers the allocator returned, in the order of allocation. -/
theorem allocate_pool (d : Driver) (p a : Nat) (hp : p ≤ 4294967295) :
    ∀ count frames,
      (∀ i, frames.length ≤ i → i < frames.length + count → d.aligned_alloc a p i ≠ 0) →
      ∃ fs, AcquisitionLifetime.allocate d p a count frames =
          (List.replicate count (Event.aligned_alloc a p), frames ++ fs, none) ∧
        fs.length = count ∧
        fs.map (fun f => f.m_frame.buffer) =
          (List.range' frames.length count).map (d.aligned_alloc a p) := by
  intro count
  induction count with
  | zero => intro frames _; exact ⟨[], by simp [AcquisitionLifetime.allocate], rfl, rfl⟩
  | succ n ih =>
    intro frames hall
    have hb : d.aligned_alloc a p frames.length ≠ 0 :=
      hall frames.length (Nat.le_refl _) (by omega)
    have hnew : ∃ f0 : Frame, Frame.new d frames.length p a =
        { trace := [Event.aligned_alloc a p], result := Except.ok f0 } ∧
        f0.m_frame.buffer = d.aligned_alloc a p frames.length := by
      unfold Frame.new
      rw [if_neg (by omega), if_neg hb]
      exact ⟨_, rfl, rfl⟩
    obtain ⟨f0, hf0, hf0buf⟩ := hnew
    obtain ⟨fs, hfs, hlen, hbuf⟩ := ih (frames ++ [f0])
      (by
        intro i h1 h2
        rw [List.length_append, List.length_singleton] at h1 h2
        exact hall i (by omega) (by omega))
    refine ⟨f0 :: fs, ?_, by simp [hlen], ?_⟩
    · rw [AcquisitionLifetime.allocate, hf0]
      simp only [hfs, List.singleton_append, List.replicate_succ, List.append_assoc]
    · rw [List.length_append, List.length_singleton] at hbuf
      simp only [List.map_cons, List.range'_succ, hbuf, hf0buf]

/-- The announce loop, when every announce succeeds: one `VmbFrameAnnounce` per
frame, in order, each with the frame as filled. -/
theorem announce_each (d : Driver) (h : VmbHandle) (m : Nat) :
    ∀ frames index,
      (∀ j, index ≤ j → j < index + frames.length →
        d.VmbFrameAnnounce h j = VmbErrorSuccess) →
      AcquisitionLifetime.announce d h m index frames VmbErrorSuccess =
        ((frames.map (AcquisitionContext.FillFrame m)).map
            (fun f => Event.VmbFrameAnnounce h f.m_frame),
          frames.map (AcquisitionContext.FillFrame m), VmbErrorSuccess) := by
  intro frames
  induction frames with
  | nil => intro index _; rfl
  | cons frame rest ih =>
    intro index hok
    have hs : d.VmbFrameAnnounce h index = VmbErrorSuccess :=
      hok index (Nat.le_refl _) (by simp)
    have hrest := ih (index + 1) (fun j h1 h2 =>
      hok j (by omega) (by simp only [List.length_cons]; omega))
    rw [AcquisitionLifetime.announce, if_neg (by rw [hs]; exact fun hne => hne rfl), hs]
    simp only [hrest, List.map_cons]

/-- The enqueue loop: one `VmbCaptureFrameQueue` per frame, in order, each with
the frame itself and the callback of the manager, whatever the calls return. -/
theorem enqueue_each (d : Driver) (h : VmbHandle) :
    ∀ frames index err n,
      (AcquisitionLifetime.enqueue d h index frames err n).1 =
        frames.map (fun f => Event.VmbCaptureFrameQueue h f.m_frame FrameCallbackAddress) := by
  intro frames
  induction frames with
  | nil => intro index err n; rfl
  | cons frame rest ih =>
    intro index err n
    rw [AcquisitionLifetime.enqueue]
    simp only [ih, List.map_cons]

/-- C12: when all `BufferCount` buffers were allocated and announced and
`VmbCaptureStart` succeeded, the constructor of `AcquisitionLifetime` calls
`VmbCaptureFrameQueue` once for each frame of the pool, in order, with that
frame and the callback of the manager, whatever the earlier calls returned;
the pool is the `BufferCount` frames that hold the buffers the allocator
returned and the manager as context, and they are the frames announced.  If
no enqueue succeeds it calls `VmbCaptureEnd` and throws, without running a
command; if at least one succeeds it goes on to `RunCommand` for
`AcquisitionStart` (whose first call is the run of the command) with no
`VmbCaptureEnd` before it. -/
theorem enqueue_partial_success (d : Driver) (BufferCount : Nat) (h : VmbHandle)
    (p a m fuel : Nat) (hp : p ≤ 4294967295)
    (halloc : ∀ i, i < BufferCount → d.aligned_alloc a p i ≠ 0)
    (hann : ∀ i, i < BufferCount → d.VmbFrameAnnounce h i = VmbErrorSuccess)
    (hstart : d.VmbCaptureStart h = VmbErrorSuccess) :
    ∃ frames : List Frame,
      frames.length = BufferCount ∧
      frames.map (fun f => f.m_frame.buffer) =
        (List.range BufferCount).map (d.aligned_alloc a p) ∧
      (∀ f ∈ frames, f.m_frame.context0 = m) ∧
      (successfulEnqueues d h BufferCount = 0 →
        ∃ code, AcquisitionLifetime.new d BufferCount h p a m fuel =
          some { trace := List.replicate BufferCount (Event.aligned_alloc a p)
                    ++ frames.map (fun f => Event.VmbFrameAnnounce h f.m_frame)
                    ++ [Event.VmbCaptureStart h]
                    ++ frames.map
                        (fun f => Event.VmbCaptureFrameQueue h f.m_frame FrameCallbackAddress)
                    ++ [Event.VmbCaptureEnd h] ++ Frame.freeAll frames,
                 result := Except.error
                   { m_errorMessage :=
                       "Non of the frames could be enqueued using VmbCaptureFrameQueue",
                     m_exitCode := some code } }) ∧
      (1 ≤ successfulEnqueues d h BufferCount →
        AcquisitionLifetime.new d BufferCount h p a m fuel =
          (RunCommand d h "AcquisitionStart" fuel).map fun run =>
            match run.result with
            | Except.error e =>
              { trace := List.replicate BufferCount (Event.aligned_alloc a p)
                    ++ frames.map (fun f => Event.VmbFrameAnnounce h f.m_frame)
                    ++ [Event.VmbCaptureStart h]
                    ++ frames.map
                        (fun f => Event.VmbCaptureFrameQueue h f.m_frame FrameCallbackAddress)
                    ++ run.trace
                    ++ [Event.VmbCaptureEnd h] ++ Frame.freeAll frames,
                result := Except.error e }
            | Except.ok _ =>
              { trace := List.replicate BufferCount (Event.aligned_alloc a p)
                    ++ frames.map (fun f => Event.VmbFrameAnnounce h f.m_frame)
                    ++ [Event.VmbCaptureStart h]
                    ++ frames.map
                        (fun f => Event.VmbCaptureFrameQueue h f.m_frame FrameCallbackAddress)
                    ++ run.trace,
                result := Except.ok { m_camHandle := h, m_frames := frames } }) ∧
      (∀ run, RunCommand d h "AcquisitionStart" fuel = some run →
        ∃ rest, run.trace = Event.VmbFeatureCommandRun h "AcquisitionStart" :: rest) := by
  obtain ⟨fs, hfs, hlen, hbuf⟩ := allocate_pool d p a hp BufferCount []
    (fun i _ h2 => halloc i (by simpa using h2))
  have ht := announce_each d h m fs 0 (fun j _ h2 => hann j (by omega))
  obtain ⟨q, code, hq, hqlen⟩ := enqueue_counts d h (fs.map (AcquisitionContext.FillFrame m)) 0
    (d.VmbCaptureStart h) 0
  have hqeach := enqueue_each d h (fs.map (AcquisitionContext.FillFrame m)) 0
    (d.VmbCaptureStart h) 0
  rw [hq] at hqeach
  simp only at hqeach
  subst hqeach
  have hcount : (0 + (List.range' 0 (fs.map (AcquisitionContext.FillFrame m)).length).countP
      fun i => decide (d.VmbCaptureFrameQueue h i = VmbErrorSuccess)) =
      successfulEnqueues d h BufferCount := by
    simp [successfulEnqueues, List.range_eq_range', hlen]
  rw [hcount] at hq
  have hns : ¬ (d.VmbCaptureStart h ≠ VmbErrorSuccess) := fun hne => hne hstart
  refine ⟨fs.map (AcquisitionContext.FillFrame m), by simp [hlen], ?_, ?_, ?_, ?_,
    RunCommand_starts d h "AcquisitionStart" fuel⟩
  · rw [List.map_map, List.range_eq_range']
    simpa [AcquisitionContext.FillFrame, Function.comp_def] using hbuf
  · intro f hf
    obtain ⟨f0, _, hf0⟩ := List.mem_map.1 hf
    rw [← hf0]
    rfl
  · intro hzero
    refine ⟨code, ?_⟩
    unfold AcquisitionLifetime.new
    simp only [hfs, List.nil_append, ht, ne_eq, not_true_eq_false, if_false, hns, hq, hzero,
      if_true]
  · intro hpos
    have hne : ¬ successfulEnqueues d h BufferCount = 0 := by omega
    unfold AcquisitionLifetime.new
    simp only [hfs, List.nil_append, ht, ne_eq, not_true_eq_false, if_false, hns, hq, hne]
    cases hrun : RunCommand d h "AcquisitionStart" fuel with
    | none => rfl
    | some run =>
      simp only [Option.map_some']
      cases hres : run.result <;> rfl

theorem enqueue_partial_success_witness :
    (∃ code, AcquisitionLifetime.new exDriverNoEnqueue 3 11 64 8 1 10 =
        some { trace := List.replicate 3 (Event.aligned_alloc 8 64)
                  ++ exSessionFrames.map (fun f => Event.VmbFrameAnnounce 11 f.m_frame)
                  ++ [Event.VmbCaptureStart 11]
                  ++ exSessionFrames.map
                      (fun f => Event.VmbCaptureFrameQueue 11 f.m_frame FrameCallbackAddress)
                  ++ [Event.VmbCaptureEnd 11] ++ Frame.freeAll exSessionFrames,
               result := Except.error
                 { m_errorMessage :=
                     "Non of the frames could be enqueued using VmbCaptureFrameQueue",
                   m_exitCode := some code } }) ∧
      (AcquisitionLifetime.new (exDriver 64 (0, 8)) 3 11 64 8 1 10).map (fun r => r.trace) =
        some (List.replicate 3 (Event.aligned_alloc 8 64)
          ++ exSessionFrames.map (fun f => Event.VmbFrameAnnounce 11 f.m_frame)
          ++ [Event.VmbCaptureStart 11]
          ++ exSessionFrames.map
              (fun f => Event.VmbCaptureFrameQueue 11 f.m_frame FrameCallbackAddress)
          ++ [Event.VmbFeatureCommandRun 11 "AcquisitionStart",
              Event.VmbFeatureCommandIsDone 11 "AcquisitionStart"]) := by
  obtain ⟨frames, hlen, hbuf, hctx, hzero, _, _⟩ :=
    enqueue_partial_success exDriverNoEnqueue 3 11 64 8 1 10 (by decide) (by decide)
      (by decide) rfl
  constructor
  · obtain ⟨code, hcode⟩ := hzero (by decide)
    refine ⟨code, ?_⟩
    have hconcrete : (AcquisitionLifetime.new exDriverNoEnqueue 3 11 64 8 1 10).map
        (fun r => r.trace) =
        some (List.replicate 3 (Event.aligned_alloc 8 64)
          ++ exSessionFrames.map (fun f => Event.VmbFrameAnnounce 11 f.m_frame)
          ++ [Event.VmbCaptureStart 11]
          ++ exSessionFrames.map
              (fun f => Event.VmbCaptureFrameQueue 11 f.m_frame FrameCallbackAddress)
          ++ [Event.VmbCaptureEnd 11] ++ Frame.freeAll exSessionFrames) := by decide
    rw [hcode] at hconcrete ⊢
    simp only [Option.map_some', Option.some.injEq] at hconcrete
    rw [hconcrete]
  · decide

/-- C13: with a driver that accepts every announce but refuses every
`VmbCaptureFrameQueue` (M = 0), session open throws and the device is closed,
but `VmbFrameRevokeAll` is never called: the three announced buffers are freed
while the driver still holds them as announced. -/
theorem open_without_enqueue_leaves_announced :
    (CameraAccessLifetime.new exDriverNoEnqueue 3 exCamera 1 10).map
        (fun r => r.result.toBool) = some false ∧
    (CameraAccessLifetime.new exDriverNoEnqueue 3 exCamera 1 10).map
        (fun r => r.trace.countP Event.isFrameAnnounce) = some 3 ∧
    (CameraAccessLifetime.new exDriverNoEnqueue 3 exCamera 1 10).map
        (fun r => r.trace.countP Event.isFrameRevokeAll) = some 0 ∧
    (CameraAccessLifetime.new exDriverNoEnqueue 3 exCamera 1 10).map
        (fun r => (stillAnnounced r.trace []).length) = some 3 ∧
    (CameraAccessLifetime.new exDriverNoEnqueue 3 exCamera 1 10).map
        (fun r => r.trace.filter fun e => e.closesSession || e == Event.VmbCaptureEnd 11) =
      some [Event.VmbCaptureEnd 11, Event.free 4096, Event.free 8192, Event.free 12288,
        Event.VmbCameraClose 11] := by
  decide

/-! ## Claims on closing the session -/

theorem poll_ends (d : Driver) (h : VmbHandle) (c : String) (fuel : Nat) :
    ∀ j k, j ≤ k → k < j + fuel →
      ((d.VmbFeatureCommandIsDone h c k).1 ≠ VmbErrorSuccess ∨
        (d.VmbFeatureCommandIsDone h c k).2 = true) →
      ∃ r, RunCommand.poll d h c fuel j = some r := by
  induction fuel with
  | zero => intro j k h1 h2; omega
  | succ fuel ih =>
    intro j k hjk hlt hend
    rw [RunCommand.poll]
    by_cases hfail : (d.VmbFeatureCommandIsDone h c j).1 ≠ VmbErrorSuccess
    · rw [if_pos hfail]; exact ⟨_, rfl⟩
    · by_cases hdone : (d.VmbFeatureCommandIsDone h c j).2 = true
      · rw [if_neg hfail, if_pos hdone]; exact ⟨_, rfl⟩
      · have hne : j ≠ k := by
          rintro rfl
          rcases hend with h1 | h1
          · exact hfail h1
          · exact hdone h1
        obtain ⟨r, hr⟩ := ih (j + 1) k (by omega) (by omega) hend
        rw [if_neg hfail, if_neg hdone, hr]
        exact ⟨_, rfl⟩

theorem RunCommand_ends (d : Driver) (h : VmbHandle) (c : String) (fuel : Nat)
    (hend : d.VmbFeatureCommandRun h c ≠ VmbErrorSuccess ∨
      ∃ k, k < fuel ∧
        ((d.VmbFeatureCommandIsDone h c k).1 ≠ VmbErrorSuccess ∨
          (d.VmbFeatureCommandIsDone h c k).2 = true)) :
    ∃ polls result,
      RunCommand d h c fuel =
        some { trace := Event.VmbFeatureCommandRun h c :: polls, result := result } ∧
      ∀ e ∈ polls, e = Event.VmbFeatureCommandIsDone h c := by
  unfold RunCommand
  by_cases hfail : d.VmbFeatureCommandRun h c ≠ VmbErrorSuccess
  · rw [if_pos hfail]
    exact ⟨[], _, rfl, by simp⟩
  · rcases hend with h1 | ⟨k, hk, hend⟩
    · exact absurd h1 hfail
    · obtain ⟨r, hr⟩ := poll_ends d h c fuel 0 k (Nat.zero_le _) (by omega) hend
      rw [if_neg hfail, hr]
      exact ⟨r.trace, r.result, rfl, poll_trace_mem d h c fuel 0 r hr⟩

/-- C14: for an open session, whether the run of `AcquisitionStop` fails, a
completion poll fails or the command completes, the destructor of
`CameraAccessLifetime` returns and its calls are, in this order: the run of
`AcquisitionStop` with its polls, `VmbCaptureEnd`, `VmbCaptureQueueFlush`,
`VmbFrameRevokeAll`, the free of every buffer, `VmbCameraClose`. -/
theorem close_runs_every_step (d : Driver) (fuel : Nat) (cameraHandle camHandle : VmbHandle)
    (payloadSize : Nat) (frames : List Frame)
    (hend : d.VmbFeatureCommandRun camHandle "AcquisitionStop" ≠ VmbErrorSuccess ∨
      ∃ k, k < fuel ∧
        ((d.VmbFeatureCommandIsDone camHandle "AcquisitionStop" k).1 ≠ VmbErrorSuccess ∨
          (d.VmbFeatureCommandIsDone camHandle "AcquisitionStop" k).2 = true)) :
    ∃ polls,
      (∀ e ∈ polls, e = Event.VmbFeatureCommandIsDone camHandle "AcquisitionStop") ∧
      CameraAccessLifetime.dtor d
          { m_cameraHandle := cameraHandle,
            m_streamLife := some
              { m_payloadSize := payloadSize,
                m_acquisitionLife := some { m_camHandle := camHandle, m_frames := frames } } }
          fuel =
        some (Event.VmbFeatureCommandRun camHandle "AcquisitionStop" :: polls
          ++ [Event.VmbCaptureEnd camHandle, Event.VmbCaptureQueueFlush camHandle,
              Event.VmbFrameRevokeAll camHandle]
          ++ Frame.freeAll frames
          ++ [Event.VmbCameraClose cameraHandle]) := by
  obtain ⟨polls, result, hrun, hmem⟩ := RunCommand_ends d camHandle "AcquisitionStop" fuel hend
  refine ⟨polls, hmem, ?_⟩
  simp only [CameraAccessLifetime.dtor, StreamLifetime.dtor, AcquisitionLifetime.dtor, hrun,
    Option.map_some']

theorem close_runs_every_step_witness :
    ∃ polls,
      (∀ e ∈ polls, e = Event.VmbFeatureCommandIsDone 11 "AcquisitionStop") ∧
      CameraAccessLifetime.dtor
          { exDriver 64 (0, 8) with VmbFeatureCommandRun := fun _ command =>
              if command = "AcquisitionStop" then -4 else 0 }
          exSession 10 =
        some (Event.VmbFeatureCommandRun 11 "AcquisitionStop" :: polls
          ++ [Event.VmbCaptureEnd 11, Event.VmbCaptureQueueFlush 11,
              Event.VmbFrameRevokeAll 11]
          ++ [Event.free 4096, Event.free 8192, Event.free 12288]
          ++ [Event.VmbCameraClose 11]) :=
  close_runs_every_step
    { exDriver 64 (0, 8) with VmbFeatureCommandRun := fun _ command =>
        if command = "AcquisitionStop" then -4 else 0 }
    10 11 11 64 _ (Or.inl (by decide))

/-! ## Claims on the callback router and the session manager -/

/-- C15: `FrameCallback` changes nothing and calls nothing for a null frame and
for a frame whose `context[0]` is null; otherwise the manager stored in
`context[0]`, and no other, receives exactly that frame and stream handle
through `FrameReceived`, which posts it to that manager's transcode queue with
`FrameCallback` as the re-enqueue callback. -/
theorem FrameCallback_routes (memory : Nat → AcquisitionManager)
    (cameraHandle streamHandle : VmbHandle) (f : VmbFrame) :
    AcquisitionManager.FrameCallback memory cameraHandle streamHandle none = (memory, []) ∧
    (f.context0 = 0 →
      AcquisitionManager.FrameCallback memory cameraHandle streamHandle (some f)
        = (memory, [])) ∧
    (f.context0 ≠ 0 →
      AcquisitionManager.FrameCallback memory cameraHandle streamHandle (some f) =
        (Function.update memory f.context0
            ((memory f.context0).FrameReceived streamHandle (some f)).state,
          ((memory f.context0).FrameReceived streamHandle (some f)).trace) ∧
      (∀ other, other ≠ f.context0 →
        (AcquisitionManager.FrameCallback memory cameraHandle streamHandle (some f)).1 other
          = memory other)) ∧
    (∀ manager : AcquisitionManager,
      (manager.FrameReceived streamHandle (some f)).state =
        { manager with m_imageTranscoder :=
            (manager.m_imageTranscoder.PostImage streamHandle FrameCallbackAddress
              (some f)).state } ∧
      (manager.FrameReceived streamHandle (some f)).trace =
        (manager.m_imageTranscoder.PostImage streamHandle FrameCallbackAddress
          (some f)).trace) := by
  refine ⟨rfl, ?_, ?_, fun manager => ⟨rfl, rfl⟩⟩
  · intro hnull
    simp [AcquisitionManager.FrameCallback, AcquisitionContext.ofFrame, hnull]
  · intro hset
    have hcall : AcquisitionManager.FrameCallback memory cameraHandle streamHandle (some f) =
        (Function.update memory f.context0
            ((memory f.context0).FrameReceived streamHandle (some f)).state,
          ((memory f.context0).FrameReceived streamHandle (some f)).trace) := by
      simp [AcquisitionManager.FrameCallback, AcquisitionContext.ofFrame, hset]
    refine ⟨hcall, fun other hother => ?_⟩
    rw [hcall]
    exact Function.update_noteq hother _ _

theorem FrameCallback_routes_witness :
    AcquisitionManager.FrameCallback (fun _ => exManager) 11 21
        (some { exFrameB with context0 := 0 }) = (fun _ => exManager, []) ∧
      (AcquisitionManager.FrameCallback (fun _ => exManager) 11 21 (some exFrameB)).2 =
        [Event.VmbCaptureFrameQueue 7 exFrameA 9, Event.notify_one] := by
  have hnull := (FrameCallback_routes (fun _ => exManager) 11 21
    { exFrameB with context0 := 0 }).2.1 rfl
  have hset := ((FrameCallback_routes (fun _ => exManager) 11 21 exFrameB).2.2.1
    (by decide)).1
  refine ⟨hnull, ?_⟩
  rw [hset]
  decide

theorem dtor_keeps_session (t : TransformationTask) :
    ∀ e ∈ t.dtor, e.closesSession = false := by
  intro e he
  unfold TransformationTask.dtor at he
  split at he
  · rw [List.mem_singleton.1 he]; rfl
  · simp at he

theorem reset_keeps_session (t : Option TransformationTask) :
    ∀ e ∈ TransformationTask.reset t, e.closesSession = false := by
  cases t with
  | none => intro e he; simp [TransformationTask.reset] at he
  | some t => exact dtor_keeps_session t

theorem TranscodeImage_keeps_session (c : TranscodeResult) (t : TransformationTask) :
    ∀ e ∈ ImageTranscoder.TranscodeImage c t, e.closesSession = false := by
  intro e he
  cases c <;> simp [ImageTranscoder.TranscodeImage] at he
  · rcases he with h | h <;> (rw [h]; rfl)
  · rw [he]; rfl
  · rw [he]; rfl

theorem TranscodeLoopMember_keeps_session (c : TranscodeResult) (s : ImageTranscoder) :
    ∀ e ∈ (ImageTranscoder.TranscodeLoopMember c s).2, e.closesSession = false := by
  unfold ImageTranscoder.TranscodeLoopMember
  split
  · split
    · simp
    · split <;> simp
  · split
    · exact TranscodeImage_keeps_session c _
    · simp
  · split
    · split
      · intro e he
        simp only at he
        exact dtor_keeps_session _ e he
      · simp
    · exact reset_keeps_session _
  all_goals simp

theorem runWorker_keeps_session (conv : Nat → TranscodeResult) (n : Nat)
    (s : ImageTranscoder) :
    ∀ e ∈ (ImageTranscoder.runWorker conv n s).2, e.closesSession = false := by
  induction n with
  | zero => simp [ImageTranscoder.runWorker]
  | succ n ih =>
    intro e he
    rw [ImageTranscoder.runWorker] at he
    rcases List.mem_append.1 he with h | h
    · exact ih e h
    · exact TranscodeLoopMember_keeps_session _ _ e h

theorem join_keeps_session (c : TranscodeResult) (s : ImageTranscoder) :
    ∀ e ∈ (ImageTranscoder.join c s).trace, e.closesSession = false := by
  unfold ImageTranscoder.join
  split
  · simp
  · simp only
    split
    · intro e he
      rcases List.mem_append.1 he with h | h
      · exact runWorker_keeps_session _ 3 s e h
      · rw [List.mem_singleton.1 h]; rfl
    · exact runWorker_keeps_session _ 3 s

theorem Stop_trace_keeps_session (c : TranscodeResult) (s : ImageTranscoder) :
    ∀ e ∈ (s.Stop c).trace, e.closesSession = false := by
  unfold ImageTranscoder.Stop
  split
  · simp
  · intro e he
    simp only [List.mem_append, List.mem_cons] at he
    rcases he with h | h | h
    · exact reset_keeps_session _ e h
    · rw [h]; rfl
    · exact join_keeps_session c _ e h

theorem getLast_cons_append_singleton (x : Event) (l : List Event) (y : Event) :
    (x :: (l ++ [y])).getLast? = some y := by
  rw [← List.cons_append]
  exact List.getLast?_concat _

/-- A running queue whose worker thread exists and holds no empty task is
stopped without a crash: the worker is joined as the last step of `Stop`. -/
theorem Stop_of_live (c : TranscodeResult) (s : ImageTranscoder)
    (hrun : s.m_terminated = false) (hlive : s.m_thread.live = true) :
    (s.Stop c).failure = none ∧ (s.Stop c).trace.getLast? = some Event.threadJoin ∧
      (s.Stop c).state.m_thread = Thread.notJoinable ∧
      (s.Stop c).state.m_task = none := by
  obtain ⟨term, task, thread⟩ := s
  simp only at hrun hlive
  subst hrun
  cases thread with
  | waiting =>
    simp [ImageTranscoder.Stop, ImageTranscoder.join, ImageTranscoder.runWorker,
      ImageTranscoder.TranscodeLoopMember, List.getLast?_append, List.getLast?_cons_cons]
  | taken t =>
    cases t with
    | none => simp [Thread.live] at hlive
    | some t =>
      simp [ImageTranscoder.Stop, ImageTranscoder.join, ImageTranscoder.runWorker,
        ImageTranscoder.TranscodeLoopMember, List.getLast?_append, List.getLast?_cons_cons,
        dtor_canceled, getLast_cons_append_singleton]
  | transcoded t =>
    cases t with
    | none => simp [Thread.live] at hlive
    | some t =>
      simp [ImageTranscoder.Stop, ImageTranscoder.join, ImageTranscoder.runWorker,
        ImageTranscoder.TranscodeLoopMember, List.getLast?_append, List.getLast?_cons_cons,
        dtor_canceled, getLast_cons_append_singleton]
  | _ => simp [Thread.live] at hlive

/-- C20: for a manager whose queue is stopped, or running with a live worker,
`StopAcquisition` and the destructor of the manager first run `Stop` on the
transcode queue and only then close the session: their trace is the trace of
`Stop`, which revokes and frees nothing and does not close the device and, on
a running queue, ends with the join of the worker, followed by the calls of
the session's destructor.  Afterwards the queue is terminated, its thread
joined, and the manager holds no session. -/
theorem StopAcquisition_stops_queue_first (d : Driver) (conv : TranscodeResult) (fuel : Nat)
    (m : AcquisitionManager) (closed : List Event)
    (hsane : (m.m_imageTranscoder.m_terminated = true ∧
        m.m_imageTranscoder.m_thread = Thread.notJoinable) ∨
      (m.m_imageTranscoder.m_terminated = false ∧ m.m_imageTranscoder.m_thread.live = true))
    (hclose : (match m.m_openCamera with
      | none => some []
      | some camera => camera.dtor d fuel) = some closed) :
    m.StopAcquisition d conv fuel =
      some { state := { m_openCamera := none,
                        m_imageTranscoder := (m.m_imageTranscoder.Stop conv).state },
             trace := (m.m_imageTranscoder.Stop conv).trace ++ closed,
             failure := none } ∧
    m.dtor d conv fuel = m.StopAcquisition d conv fuel ∧
    (∀ e ∈ (m.m_imageTranscoder.Stop conv).trace, e.closesSession = false) ∧
    (m.m_imageTranscoder.m_terminated = false →
      (m.m_imageTranscoder.Stop conv).trace.getLast? = some Event.threadJoin) ∧
    (m.m_imageTranscoder.Stop conv).state.m_terminated = true ∧
    (m.m_imageTranscoder.Stop conv).state.m_thread = Thread.notJoinable := by
  have hfail : (m.m_imageTranscoder.Stop conv).failure = none := by
    rcases hsane with ⟨hterm, _⟩ | ⟨hrun, hlive⟩
    · rw [Stop_of_terminated conv _ hterm]
    · exact (Stop_of_live conv _ hrun hlive).1
  have hthread : (m.m_imageTranscoder.Stop conv).state.m_thread = Thread.notJoinable := by
    rcases hsane with ⟨hterm, hth⟩ | ⟨hrun, hlive⟩
    · rw [Stop_of_terminated conv _ hterm]; exact hth
    · exact (Stop_of_live conv _ hrun hlive).2.2.1
  have hstop : m.StopAcquisition d conv fuel =
      some { state := { m_openCamera := none,
                        m_imageTranscoder := (m.m_imageTranscoder.Stop conv).state },
             trace := (m.m_imageTranscoder.Stop conv).trace ++ closed,
             failure := none } := by
    unfold AcquisitionManager.StopAcquisition
    simp only [hfail]
    cases hcam : m.m_openCamera with
    | none =>
      rw [hcam] at hclose
      simp only [Option.some.injEq] at hclose
      subst hclose
      simp
    | some camera =>
      rw [hcam] at hclose
      simp only at hclose
      simp only [hclose, Option.map_some']
  refine ⟨hstop, ?_, Stop_trace_keeps_session conv _, ?_, Stop_state_terminated conv _, hthread⟩
  · unfold AcquisitionManager.dtor
    rw [hstop]
    simp [ImageTranscoder.dtor, Stop_state_terminated]
  · intro hrun
    rcases hsane with ⟨hterm, _⟩ | ⟨_, hlive⟩
    · rw [hterm] at hrun; cases hrun
    · exact (Stop_of_live conv _ hrun hlive).2.1

theorem StopAcquisition_stops_queue_first_witness :
    (exManager.StopAcquisition (exDriver 64 (0, 8)) TranscodeResult.returned 10).map
        (fun r => r.trace) =
      some [Event.VmbCaptureFrameQueue 7 exFrameA 9, Event.notify_all, Event.threadJoin,
        Event.VmbFeatureCommandRun 11 "AcquisitionStop",
        Event.VmbFeatureCommandIsDone 11 "AcquisitionStop",
        Event.VmbCaptureEnd 11, Event.VmbCaptureQueueFlush 11, Event.VmbFrameRevokeAll 11,
        Event.free 4096, Event.free 8192, Event.free 12288, Event.VmbCameraClose 11] := by
  have key := (StopAcquisition_stops_queue_first (exDriver 64 (0, 8)) TranscodeResult.returned
    10 exManager
    [Event.VmbFeatureCommandRun 11 "AcquisitionStop",
      Event.VmbFeatureCommandIsDone 11 "AcquisitionStop",
      Event.VmbCaptureEnd 11, Event.VmbCaptureQueueFlush 11, Event.VmbFrameRevokeAll 11,
      Event.free 4096, Event.free 8192, Event.free 12288, Event.VmbCameraClose 11]
    (Or.inr ⟨rfl, rfl⟩) (by decide)).1
  rw [key]
  decide

/-! ## Claims on the image conversion -/

/-- C16: converting an image to itself returns at once: data pointer,
capacity, pixel format, width, height and stride are unchanged, and no call
is made (no allocation, no transform) and nothing is thrown. -/
theorem Convert_self_noop (lib : ImageLibrary) (x : Image) (this : Nat) :
    x.Convert lib this x this = { image := x, trace := [], failure := none } ∧
    (x.Convert lib this x this).image.Data = x.Data ∧
    (x.Convert lib this x this).image.m_capacity = x.m_capacity ∧
    (x.Convert lib this x this).image.m_pixelFormat = x.m_pixelFormat ∧
    (x.Convert lib this x this).image.GetWidth = x.GetWidth ∧
    (x.Convert lib this x this).image.GetHeight = x.GetHeight ∧
    (x.Convert lib this x this).image.GetBytesPerLine = x.GetBytesPerLine := by
  have h : x.Convert lib this x this = { image := x, trace := [], failure := none } := by
    simp [Image.Convert]
  rw [h]
  exact ⟨rfl, rfl, rfl, rfl, rfl, rfl, rfl⟩

/-- What a `Convert` from another object that throws nothing has done. -/
theorem convertFrom_ok (lib : ImageLibrary) (self src : Image)
    (hok : (Image.convertFrom lib self src).failure = none) :
    (Image.convertFrom lib self src).image.m_pixelFormat = self.m_pixelFormat ∧
    Image.sizeOfLayout (Image.convertFrom lib self src).image.GetBytesPerLine
        (Image.convertFrom lib self src).image.GetHeight =
      Image.requiredCapacity lib self src ∧
    (Image.convertFrom lib self src).image.m_capacity =
      max self.m_capacity (Image.requiredCapacity lib self src) ∧
    ((∃ e ∈ (Image.convertFrom lib self src).trace, e.isAllocation = true) ↔
      self.m_capacity < Image.requiredCapacity lib self src) ∧
    (Image.convertFrom lib self src).trace.countP ImageEvent.isAllocation ≤ 1 := by
  unfold Image.convertFrom at hok ⊢
  unfold Image.requiredCapacity
  simp only [Image.GetBytesPerLine, Image.GetHeight] at hok ⊢
  split at hok
  · cases hok
  · rename_i hinfo
    rw [if_neg hinfo]
    split at hok
    · rename_i hgrow
      rw [if_pos hgrow]
      split at hok
      · rename_i hnull
        rw [if_pos hnull]
        split at hok
        · cases hok
        · rename_i hdata
          rw [if_neg hdata]
          simp only [Image.transform, gt_iff_lt] at hgrow ⊢
          refine ⟨trivial, trivial, ?_, ?_, ?_⟩
          · exact (max_eq_right (Nat.le_of_lt hgrow)).symm
          · simp [ImageEvent.isAllocation, hgrow]
          · simp [List.countP_cons, ImageEvent.isAllocation]
      · rename_i hnull
        rw [if_neg hnull]
        split at hok
        · cases hok
        · rename_i hdata
          rw [if_neg hdata]
          simp only [Image.transform, gt_iff_lt] at hgrow ⊢
          refine ⟨trivial, trivial, ?_, ?_, ?_⟩
          · exact (max_eq_right (Nat.le_of_lt hgrow)).symm
          · simp [ImageEvent.isAllocation, hgrow]
          · simp [List.countP_cons, ImageEvent.isAllocation]
    · rename_i hgrow
      rw [if_neg hgrow]
      simp only [Image.transform, gt_iff_lt, not_lt] at hgrow ⊢
      refine ⟨trivial, trivial, ?_, ?_, ?_⟩
      · exact (max_eq_left hgrow).symm
      · simp [ImageEvent.isAllocation, Nat.not_lt.2 hgrow]
      · simp [List.countP_cons, ImageEvent.isAllocation]

/-- A `Convert` whose required capacity fits the current capacity allocates nothing. -/
theorem convertFrom_fits (lib : ImageLibrary) (self src : Image)
    (hfit : Image.requiredCapacity lib self src ≤ self.m_capacity) :
    ∀ e ∈ (Image.convertFrom lib self src).trace, e.isAllocation = false := by
  unfold Image.convertFrom
  unfold Image.requiredCapacity at hfit
  simp only [Image.GetBytesPerLine, Image.GetHeight]
  split
  · intro e he
    rw [List.mem_singleton.1 he]; rfl
  · rw [if_neg (by simpa using hfit)]
    intro e he
    simp only [Image.transform, List.mem_append, List.mem_singleton] at he
    rcases he with h | h <;> (rw [h]; rfl)

theorem static_cast_int_small (value : Nat) (h : value < 2147483648) :
    static_cast_int value = (value : Int) := by
  unfold static_cast_int
  have hmod : value % 4294967296 = value := Nat.mod_eq_of_lt (by omega)
  rw [hmod, if_pos h]

/-- A layout of less than 2^31 bytes: the product as the code computes it is
the product of bytes per line and height. -/
theorem sizeOfLayout_small (bytesPerLine height : Nat)
    (h : bytesPerLine * height < 2147483648) :
    Image.sizeOfLayout bytesPerLine height = bytesPerLine * height := by
  unfold Image.sizeOfLayout int_mul size_t_of_int
  rcases Nat.eq_zero_or_pos bytesPerLine with h0 | hpos
  · subst h0
    simp [static_cast_int]
  · rcases Nat.eq_zero_or_pos height with h1 | hpos1
    · subst h1
      simp [static_cast_int]
    · have ha : bytesPerLine < 2147483648 :=
        Nat.lt_of_le_of_lt (Nat.le_mul_of_pos_right _ hpos1) h
      have hb : height < 2147483648 :=
        Nat.lt_of_le_of_lt (Nat.le_mul_of_pos_left _ hpos) h
      rw [static_cast_int_small _ ha, static_cast_int_small _ hb]
      have hprod : ((bytesPerLine : Int) * (height : Int)) % 4294967296 =
          ((bytesPerLine * height : Nat) : Int) := by
        rw [← Int.natCast_mul]
        exact Int.emod_eq_of_lt (Int.natCast_nonneg _) (by exact_mod_cast (by omega :
          bytesPerLine * height < 4294967296))
      rw [hprod, Int.toNat_natCast, static_cast_int_small _ h]
      rw [Int.emod_eq_of_lt (Int.natCast_nonneg _) (by exact_mod_cast (by omega :
          bytesPerLine * height < 18446744073709551616))]
      exact Int.toNat_natCast _

/-- Layouts of 2^31 bytes and more: the product as the code computes it is not
the product of bytes per line and height.  A layout of 2^32 bytes gives 0, so
nothing is allocated for it; a layout of 2^31 bytes gives a negative `int`,
which becomes a `size_t` close to 2^64. -/
theorem sizeOfLayout_wraps :
    Image.sizeOfLayout 131072 32768 = 0 ∧
    Image.sizeOfLayout 65536 32768 = 18446744071562067968 := by
  decide

/-- C17: a `Convert` from another object that throws nothing leaves the capacity
at the maximum of the previous capacity and the required capacity, which is
bytes per line times height of the new layout as the code computes it, and
that product itself for a layout of less than 2^31 bytes; so the capacity does
not shrink.  It calls the allocator (once) exactly when the required capacity
exceeds the previous capacity, and a further `Convert` of the result from any
other object of the same width and height calls the allocator not at all. -/
theorem Convert_capacity_monotone (lib : ImageLibrary) (self src : Image)
    (this sourceAddress : Nat) (hne : sourceAddress ≠ this)
    (hok : (self.Convert lib this src sourceAddress).failure = none) :
    (self.Convert lib this src sourceAddress).image.m_capacity =
      max self.m_capacity
        (Image.sizeOfLayout (self.Convert lib this src sourceAddress).image.GetBytesPerLine
          (self.Convert lib this src sourceAddress).image.GetHeight) ∧
    ((self.Convert lib this src sourceAddress).image.GetBytesPerLine *
        (self.Convert lib this src sourceAddress).image.GetHeight < 2147483648 →
      (self.Convert lib this src sourceAddress).image.m_capacity =
        max self.m_capacity
          ((self.Convert lib this src sourceAddress).image.GetBytesPerLine *
            (self.Convert lib this src sourceAddress).image.GetHeight) ∧
      ((∃ e ∈ (self.Convert lib this src sourceAddress).trace, e.isAllocation = true) ↔
        self.m_capacity <
          (self.Convert lib this src sourceAddress).image.GetBytesPerLine *
            (self.Convert lib this src sourceAddress).image.GetHeight)) ∧
    self.m_capacity ≤ (self.Convert lib this src sourceAddress).image.m_capacity ∧
    ((∃ e ∈ (self.Convert lib this src sourceAddress).trace, e.isAllocation = true) ↔
      self.m_capacity <
        Image.sizeOfLayout (self.Convert lib this src sourceAddress).image.GetBytesPerLine
          (self.Convert lib this src sourceAddress).image.GetHeight) ∧
    (self.Convert lib this src sourceAddress).trace.countP ImageEvent.isAllocation ≤ 1 ∧
    (∀ (src2 : Image) (address2 : Nat), address2 ≠ this →
      src2.GetWidth = src.GetWidth → src2.GetHeight = src.GetHeight →
      ∀ e ∈ ((self.Convert lib this src sourceAddress).image.Convert lib this src2
          address2).trace,
        e.isAllocation = false) := by
  have hconv : self.Convert lib this src sourceAddress = Image.convertFrom lib self src := by
    simp [Image.Convert, hne]
  rw [hconv] at hok ⊢
  obtain ⟨hfmt, hreq, hcap, halloc, hcount⟩ := convertFrom_ok lib self src hok
  refine ⟨?_, ?_, ?_, ?_, hcount, ?_⟩
  · rw [hreq]; exact hcap
  · intro hsmall
    have hprod := sizeOfLayout_small _ _ hsmall
    rw [hreq] at hprod
    rw [← hprod]
    exact ⟨hcap, halloc⟩
  · rw [hcap]; exact le_max_left _ _
  · rw [hreq]; exact halloc
  · intro src2 address2 hne2 hw hh
    have hconv2 : (Image.convertFrom lib self src).image.Convert lib this src2 address2 =
        Image.convertFrom lib (Image.convertFrom lib self src).image src2 := by
      simp [Image.Convert, hne2]
    rw [hconv2]
    apply convertFrom_fits
    have hsame : Image.requiredCapacity lib (Image.convertFrom lib self src).image src2 =
        Image.requiredCapacity lib self src := by
      unfold Image.requiredCapacity
      rw [hfmt, hw, hh]
    rw [hsame, hcap]
    exact le_max_right _ _

theorem Convert_capacity_monotone_witness :
    (((Image.new VmbPixelFormatBgra8).Convert exLibrary 1 exSource 2).image.m_capacity = 256 ∧
      ((Image.new VmbPixelFormatBgra8).Convert exLibrary 1 exSource 2).trace.countP
        ImageEvent.isAllocation = 1) ∧
      ∀ e ∈ (((Image.new VmbPixelFormatBgra8).Convert exLibrary 1 exSource 2).image.Convert
          exLibrary 1 exSource 2).trace,
        e.isAllocation = false := by
  have key := Convert_capacity_monotone exLibrary (Image.new VmbPixelFormatBgra8) exSource
    1 2 (by decide) (by decide)
  exact ⟨by decide, key.2.2.2.2.2 exSource 2 (by decide) rfl rfl⟩

/-- C18: `Convert` ends with `std::bad_alloc` exactly when the source is another
object, the layout was set, the required capacity exceeds the current capacity
and the allocation (`malloc` for a target without buffer, `realloc` of the
buffer otherwise) returns null; then data pointer and capacity are unchanged,
`VmbImageTransform` is not called, and the last call is that allocation.  The
required capacity is the product of bytes per line and height as the code
computes it, which is the product itself for a layout of less than 2^31
bytes. -/
theorem Convert_bad_alloc_iff (lib : ImageLibrary) (self src : Image)
    (this sourceAddress : Nat) :
    ((lib.VmbSetImageInfoFromPixelFormat self.m_pixelFormat src.GetWidth src.GetHeight).2.2.2 *
        (lib.VmbSetImageInfoFromPixelFormat self.m_pixelFormat src.GetWidth
          src.GetHeight).2.2.1 < 2147483648 →
      Image.requiredCapacity lib self src =
        (lib.VmbSetImageInfoFromPixelFormat self.m_pixelFormat src.GetWidth
            src.GetHeight).2.2.2 *
          (lib.VmbSetImageInfoFromPixelFormat self.m_pixelFormat src.GetWidth
            src.GetHeight).2.2.1) ∧
    ((self.Convert lib this src sourceAddress).failure = some ImageFailure.bad_alloc ↔
      sourceAddress ≠ this ∧
      (lib.VmbSetImageInfoFromPixelFormat self.m_pixelFormat src.GetWidth src.GetHeight).1
        = VmbErrorSuccess ∧
      self.m_capacity < Image.requiredCapacity lib self src ∧
      (if self.Data = 0 then lib.malloc (Image.requiredCapacity lib self src)
        else lib.realloc self.Data (Image.requiredCapacity lib self src)) = 0) ∧
    ((self.Convert lib this src sourceAddress).failure = some ImageFailure.bad_alloc →
      (self.Convert lib this src sourceAddress).image.Data = self.Data ∧
      (self.Convert lib this src sourceAddress).image.m_capacity = self.m_capacity ∧
      (∀ e ∈ (self.Convert lib this src sourceAddress).trace, e.isTransform = false) ∧
      (self.Convert lib this src sourceAddress).trace.getLast? =
        some (if self.Data = 0 then ImageEvent.malloc (Image.requiredCapacity lib self src)
          else ImageEvent.realloc self.Data (Image.requiredCapacity lib self src))) := by
  refine ⟨fun hsmall => sizeOfLayout_small _ _ hsmall, ?_⟩
  unfold Image.Convert
  by_cases hsame : sourceAddress = this
  · simp [hsame]
  · rw [if_neg hsame]
    unfold Image.convertFrom Image.requiredCapacity
    generalize lib.VmbSetImageInfoFromPixelFormat self.m_pixelFormat src.GetWidth
      src.GetHeight = info
    obtain ⟨err, w, h, stride⟩ := info
    simp only [Image.GetBytesPerLine, Image.GetHeight, Image.transform]
    by_cases hinfo : err ≠ VmbErrorSuccess
    · rw [if_pos hinfo]
      simp [hinfo]
    · rw [if_neg hinfo]
      have hinfo2 : err = VmbErrorSuccess := not_not.1 hinfo
      by_cases hgrow : Image.sizeOfLayout stride h > self.m_capacity
      · rw [if_pos hgrow]
        by_cases hnull : self.Data = 0
        · rw [if_pos hnull]
          by_cases hdata : lib.malloc (Image.sizeOfLayout stride h) = 0
          · rw [if_pos hdata]
            simp [hsame, hinfo2, hnull, hdata, ImageEvent.isTransform]
            exact hgrow
          · rw [if_neg hdata]
            split_ifs <;> simp [hnull, hdata]
        · rw [if_neg hnull]
          by_cases hdata : lib.realloc self.Data (Image.sizeOfLayout stride h) = 0
          · rw [if_pos hdata]
            simp [hsame, hinfo2, hnull, hdata, ImageEvent.isTransform]
            exact hgrow
          · rw [if_neg hdata]
            split_ifs <;> simp [hnull, hdata]
      · rw [if_neg hgrow]
        have hle := Nat.not_lt.1 hgrow
        split_ifs <;> simp [Nat.not_lt.2 hle]

theorem Convert_bad_alloc_iff_witness :
    ((Image.new VmbPixelFormatBgra8).Convert exLibraryNoMemory 1 exSource 2).failure =
        some ImageFailure.bad_alloc ∧
      ((Image.new VmbPixelFormatBgra8).Convert exLibraryNoMemory 1 exSource 2).trace =
        [ImageEvent.VmbSetImageInfoFromPixelFormat VmbPixelFormatBgra8 8 8,
          ImageEvent.malloc 256] :=
  ⟨(Convert_bad_alloc_iff exLibraryNoMemory (Image.new VmbPixelFormatBgra8) exSource 1 2).2.1.2
      ⟨by decide, rfl, by decide, by decide⟩,
    by decide⟩

theorem convertFrom_pixelFormat (lib : ImageLibrary) (self src : Image) :
    (Image.convertFrom lib self src).image.m_pixelFormat = self.m_pixelFormat := by
  unfold Image.convertFrom
  simp only [Image.transform]
  split_ifs <;> rfl

/-- C19: the conversion formats are a function of the byte order alone: on a
system that stores the least significant byte first `IsLittleEndian` is true
and the formats are `VmbPixelFormatBgra8` with `Format_RGB32`, otherwise it is
false and they are `VmbPixelFormatRgba8` with `Format_RGBX8888`; no other pair
occurs.  When the source image of the frame is constructed and there is no
target yet, `TranscodeImage` creates one: afterwards the target exists, has
the selected transform format, and `Convert` asked for the layout of that
format.  A target that `TranscodeImage` finds keeps its format.  When
`TranscodeImage` throws nothing, its last call hands one image to the
renderer, labelled with the selected display format; no image is handed over
with another format. -/
theorem ConversionFormats_by_endianness (littleEndianStorage : Bool) (lib : ImageLibrary)
    (self : TranscodeTarget) (task : TransformationTask) :
    IsLittleEndian littleEndianStorage = littleEndianStorage ∧
    ConversionFormats true =
      { QtImageFormat := QImageFormat.Format_RGB32,
        VmbTransformFormat := VmbPixelFormatBgra8 } ∧
    ConversionFormats false =
      { QtImageFormat := QImageFormat.Format_RGBX8888,
        VmbTransformFormat := VmbPixelFormatRgba8 } ∧
    (ConversionFormats littleEndianStorage = ConversionFormats true ∨
      ConversionFormats littleEndianStorage = ConversionFormats false) ∧
    (∀ t, (self.TranscodeImage littleEndianStorage lib task).state.m_transformTarget = some t →
      (self.m_transformTarget = none →
        t.m_pixelFormat = (ConversionFormats littleEndianStorage).VmbTransformFormat) ∧
      (∀ t0, self.m_transformTarget = some t0 → t.m_pixelFormat = t0.m_pixelFormat)) ∧
    (∀ data width height bytesPerLine format size,
      ImageEvent.ConvertedFrameReceived data width height bytesPerLine format size ∈
          (self.TranscodeImage littleEndianStorage lib task).trace →
        format = (ConversionFormats littleEndianStorage).QtImageFormat) ∧
    (∀ src, (Image.ofFrame lib task.m_frame).2 = Except.ok src →
      self.m_transformTarget = none →
      ∃ t, (self.TranscodeImage littleEndianStorage lib task).state.m_transformTarget
          = some t ∧
        t.m_pixelFormat = (ConversionFormats littleEndianStorage).VmbTransformFormat ∧
        ImageEvent.VmbSetImageInfoFromPixelFormat
            (ConversionFormats littleEndianStorage).VmbTransformFormat src.GetWidth
            src.GetHeight ∈ (self.TranscodeImage littleEndianStorage lib task).trace) ∧
    ((self.TranscodeImage littleEndianStorage lib task).failure = none →
      ∃ t, (self.TranscodeImage littleEndianStorage lib task).state.m_transformTarget
          = some t ∧
        (self.TranscodeImage littleEndianStorage lib task).trace.getLast? =
          some (ImageEvent.ConvertedFrameReceived t.GetData t.GetWidth t.GetHeight
            t.GetBytesPerLine (ConversionFormats littleEndianStorage).QtImageFormat
            self.m_outputSize) ∧
        (self.TranscodeImage littleEndianStorage lib task).trace.countP
          ImageEvent.isDelivery = 1) := by
  refine ⟨by cases littleEndianStorage <;> decide, by decide, by decide,
    by cases littleEndianStorage <;> simp, ?_, ?_, ?_, ?_⟩
  · intro t ht
    unfold TranscodeTarget.TranscodeImage at ht
    simp only at ht
    split at ht
    · constructor
      · intro hnone
        rw [hnone] at ht
        cases ht
      · intro t0 h0
        rw [h0] at ht
        simp only [Option.some.injEq] at ht
        rw [ht]
    · have hfmt : ∀ target src, t = (Image.convertFrom lib target src).image →
          t.m_pixelFormat = target.m_pixelFormat := by
        intro target src h
        rw [h]
        exact convertFrom_pixelFormat lib target src
      split at ht
      all_goals
        simp only [Option.some.injEq] at ht
        constructor
        · intro hnone
          rw [hnone] at ht
          exact hfmt _ _ ht.symm
        · intro t0 h0
          rw [h0] at ht
          exact hfmt _ _ ht.symm
  · intro data width height bytesPerLine format size hmem
    unfold TranscodeTarget.TranscodeImage at hmem
    simp only at hmem
    have hsrc : ∀ e ∈ (Image.ofFrame lib task.m_frame).1,
        e = ImageEvent.VmbSetImageInfoFromPixelFormat task.m_frame.pixelFormat
          task.m_frame.width task.m_frame.height := by
      intro e he
      unfold Image.ofFrame at he
      simp only at he
      split at he <;> exact List.mem_singleton.1 he
    have hconv : ∀ target src, ∀ e ∈ (Image.convertFrom lib target src).trace,
        ∀ a b c d f g, e ≠ ImageEvent.ConvertedFrameReceived a b c d f g := by
      intro target src e he a b c d f g
      unfold Image.convertFrom at he
      simp only [Image.transform] at he
      split_ifs at he <;> simp at he <;> (intro heq; rw [heq] at he; simp at he)
    split at hmem
    · have h1 := hsrc _ hmem
      cases h1
    · split at hmem
      · rcases List.mem_append.1 hmem with h | h
        · have h1 := hsrc _ h
          cases h1
        · exact absurd rfl (hconv _ _ _ h _ _ _ _ _ _)
      · simp only [List.mem_append, List.mem_singleton] at hmem
        rcases hmem with (h | h) | h
        · have h1 := hsrc _ h
          cases h1
        · exact absurd rfl (hconv _ _ _ h _ _ _ _ _ _)
        · injection h with _ _ _ _ h5 _
  · intro src hsrc hnone
    have hfirst : ∀ target : Image,
        ImageEvent.VmbSetImageInfoFromPixelFormat target.m_pixelFormat src.GetWidth
          src.GetHeight ∈ (Image.convertFrom lib target src).trace := by
      intro target
      unfold Image.convertFrom
      simp only [Image.transform]
      split_ifs <;> simp
    unfold TranscodeTarget.TranscodeImage
    simp only [hsrc, hnone]
    split
    all_goals
      refine ⟨_, rfl, convertFrom_pixelFormat lib _ src, ?_⟩
      simp only [List.mem_append]
    · exact Or.inr (hfirst (Image.new (ConversionFormats littleEndianStorage).VmbTransformFormat))
    · exact Or.inl (Or.inr
        (hfirst (Image.new (ConversionFormats littleEndianStorage).VmbTransformFormat)))
  · intro hok
    have hsrcNo : ∀ e ∈ (Image.ofFrame lib task.m_frame).1, e.isDelivery = false := by
      intro e he
      unfold Image.ofFrame at he
      simp only at he
      split at he <;> (rw [List.mem_singleton.1 he]; rfl)
    have hconvNo : ∀ target src : Image,
        ∀ e ∈ (Image.convertFrom lib target src).trace, e.isDelivery = false := by
      intro target src e he
      unfold Image.convertFrom at he
      simp only [Image.transform] at he
      split_ifs at he <;> simp at he
      all_goals first
        | (rw [he]; rfl)
        | (rcases he with h | h | h <;> (rw [h]; rfl))
        | (rcases he with h | h <;> (rw [h]; rfl))
    cases hsrc : (Image.ofFrame lib task.m_frame).2 with
    | error e =>
      simp [TranscodeTarget.TranscodeImage, hsrc] at hok
    | ok src =>
      have h1 : (Image.ofFrame lib task.m_frame).1.countP ImageEvent.isDelivery = 0 :=
        List.countP_eq_zero.2 fun e he => by simp [hsrcNo e he]
      have h2 : ∀ target : Image,
          (Image.convertFrom lib target src).trace.countP ImageEvent.isDelivery = 0 :=
        fun target => List.countP_eq_zero.2 fun e he => by
          simp [hconvNo target src e he]
      unfold TranscodeTarget.TranscodeImage at hok ⊢
      simp only [hsrc] at hok ⊢
      split at hok
      · cases hok
      · rename_i hconvOk
        simp only [hconvOk]
        refine ⟨_, rfl, List.getLast?_concat _, ?_⟩
        simp [List.countP_append, h1, h2, ImageEvent.isDelivery]

theorem ConversionFormats_by_endianness_witness :
    ∃ t, exTarget.TranscodeImage true exLibrary (TransformationTask.new 7 9 exFrameA) =
      { state := { exTarget with m_transformTarget := some t },
        trace := [ImageEvent.VmbSetImageInfoFromPixelFormat 17301505 8 8,
                  ImageEvent.VmbSetImageInfoFromPixelFormat VmbPixelFormatBgra8 8 8,
                  ImageEvent.malloc 256,
                  ImageEvent.VmbImageTransform exFrameImage t,
                  ImageEvent.ConvertedFrameReceived 65536 8 8 32 QImageFormat.Format_RGB32
                    { width := 640, height := 480 }],
        failure := none } ∧
      t.m_pixelFormat = VmbPixelFormatBgra8 := by
  obtain ⟨t, ht, hfmt, _⟩ :=
    (ConversionFormats_by_endianness true exLibrary exTarget
      (TransformationTask.new 7 9 exFrameA)).2.2.2.2.2.2.1 exFrameImage rfl rfl
  have hstate : (exTarget.TranscodeImage true exLibrary
      (TransformationTask.new 7 9 exFrameA)).state.m_transformTarget =
      some { m_dataOwned := true, m_pixelFormat := VmbPixelFormatBgra8, m_capacity := 256,
             Data := 65536, Width := 8, Height := 8, Stride := 32 } := by decide
  rw [hstate] at ht
  cases ht
  exact ⟨{ m_dataOwned := true, m_pixelFormat := VmbPixelFormatBgra8, m_capacity := 256,
           Data := 65536, Width := 8, Height := 8, Stride := 32 }, by decide, by decide⟩

/-! ## Claims on RunCommand -/

theorem poll_exact (d : Driver) (h : VmbHandle) (c : String) (fuel : Nat) :
    ∀ j k, j ≤ k → k < j + fuel →
      (∀ i, j ≤ i → i < k →
        (d.VmbFeatureCommandIsDone h c i).1 = VmbErrorSuccess ∧
          (d.VmbFeatureCommandIsDone h c i).2 = false) →
      ((d.VmbFeatureCommandIsDone h c k).1 ≠ VmbErrorSuccess ∨
        (d.VmbFeatureCommandIsDone h c k).2 = true) →
      RunCommand.poll d h c fuel j =
        some { trace := List.replicate (k - j + 1) (Event.VmbFeatureCommandIsDone h c),
               result :=
                 if (d.VmbFeatureCommandIsDone h c k).1 ≠ VmbErrorSuccess then
                   Except.error (VmbException.ForOperation (d.VmbFeatureCommandIsDone h c k).1
                     "VmbFeatureCommandIsDone")
                 else Except.ok () } := by
  induction fuel with
  | zero => intro j k h1 h2; omega
  | succ fuel ih =>
    intro j k hjk hlt hearlier hend
    rw [RunCommand.poll]
    by_cases hk : j = k
    · subst hk
      by_cases hfail : (d.VmbFeatureCommandIsDone h c j).1 ≠ VmbErrorSuccess
      · rw [if_pos hfail, if_pos hfail]
        simp
      · rcases hend with h1 | h1
        · exact absurd h1 hfail
        · rw [if_neg hfail, if_pos h1, if_neg hfail]
          simp
    · have hj := hearlier j (Nat.le_refl _) (by omega)
      have hnf : ¬ (d.VmbFeatureCommandIsDone h c j).1 ≠ VmbErrorSuccess := fun hne => hne hj.1
      have hnd : ¬ (d.VmbFeatureCommandIsDone h c j).2 = true := by rw [hj.2]; simp
      rw [if_neg hnf, if_neg hnd,
        ih (j + 1) k (by omega) (by omega) (fun i h1 h2 => hearlier i (by omega) h2) hend]
      have hlen : k - j + 1 = (k - (j + 1) + 1) + 1 := by omega
      simp only [Option.map_some', hlen, List.replicate_succ]

theorem poll_running (d : Driver) (h : VmbHandle) (c : String) (fuel : Nat) :
    ∀ j, (∀ i, j ≤ i → i < j + fuel →
        (d.VmbFeatureCommandIsDone h c i).1 = VmbErrorSuccess ∧
          (d.VmbFeatureCommandIsDone h c i).2 = false) →
      RunCommand.poll d h c fuel j = none := by
  induction fuel with
  | zero => intro j _; rfl
  | succ fuel ih =>
    intro j hall
    have hj := hall j (Nat.le_refl _) (by omega)
    have hnf : ¬ (d.VmbFeatureCommandIsDone h c j).1 ≠ VmbErrorSuccess := fun hne => hne hj.1
    have hnd : ¬ (d.VmbFeatureCommandIsDone h c j).2 = true := by rw [hj.2]; simp
    rw [RunCommand.poll, if_neg hnf, if_neg hnd,
      ih (j + 1) (fun i h1 h2 => hall i (by omega) (by omega))]
    rfl

theorem poll_returns (d : Driver) (h : VmbHandle) (c : String) (fuel : Nat) :
    ∀ j r, RunCommand.poll d h c fuel j = some r → r.result = Except.ok () →
      ∃ k, j ≤ k ∧ d.VmbFeatureCommandIsDone h c k = (VmbErrorSuccess, true) ∧
        r.trace.length = k - j + 1 := by
  induction fuel with
  | zero => intro j r hr; simp [RunCommand.poll] at hr
  | succ fuel ih =>
    intro j r hr hok
    rw [RunCommand.poll] at hr
    by_cases hfail : (d.VmbFeatureCommandIsDone h c j).1 ≠ VmbErrorSuccess
    · rw [if_pos hfail] at hr
      simp only [Option.some.injEq] at hr
      subst hr
      cases hok
    · by_cases hdone : (d.VmbFeatureCommandIsDone h c j).2 = true
      · rw [if_neg hfail, if_pos hdone] at hr
        simp only [Option.some.injEq] at hr
        subst hr
        exact ⟨j, Nat.le_refl _, Prod.ext (not_not.1 hfail) hdone, by simp⟩
      · rw [if_neg hfail, if_neg hdone] at hr
        simp only [Option.map_eq_some'] at hr
        obtain ⟨r1, hr1, hr2⟩ := hr
        subst hr2
        obtain ⟨k, hjk, hans, hlen⟩ := ih (j + 1) r1 hr1 hok
        refine ⟨k, by omega, hans, ?_⟩
        simp only [List.length_cons, hlen]
        omega

/-- C27: `RunCommand` throws the `VmbFeatureCommandRun` error without a poll
when the run of the command fails.  Otherwise it polls: if the polls before
poll `k` (counted from 0) succeed without reporting done and poll `k` fails or
reports done, exactly `k + 1` polls are made, after which it throws the
`VmbFeatureCommandIsDone` error (failing poll) or returns (done); it returns
only after a poll that succeeded and reported done; while no poll fails or
reports done it keeps polling, whatever the number of polls; and every number
of polls occurs for some driver. -/
theorem RunCommand_polls_until_done (d : Driver) (h : VmbHandle) (c : String) :
    (d.VmbFeatureCommandRun h c ≠ VmbErrorSuccess →
      ∀ fuel, RunCommand d h c fuel =
        some { trace := [Event.VmbFeatureCommandRun h c],
               result := Except.error
                 (VmbException.ForOperation (d.VmbFeatureCommandRun h c)
                   "VmbFeatureCommandRun") }) ∧
    (d.VmbFeatureCommandRun h c = VmbErrorSuccess →
      ∀ k fuel, k < fuel →
        (∀ i, i < k → (d.VmbFeatureCommandIsDone h c i).1 = VmbErrorSuccess ∧
          (d.VmbFeatureCommandIsDone h c i).2 = false) →
        ((d.VmbFeatureCommandIsDone h c k).1 ≠ VmbErrorSuccess →
          RunCommand d h c fuel =
            some { trace := Event.VmbFeatureCommandRun h c ::
                     List.replicate (k + 1) (Event.VmbFeatureCommandIsDone h c),
                   result := Except.error
                     (VmbException.ForOperation (d.VmbFeatureCommandIsDone h c k).1
                       "VmbFeatureCommandIsDone") }) ∧
        (d.VmbFeatureCommandIsDone h c k = (VmbErrorSuccess, true) →
          RunCommand d h c fuel =
            some { trace := Event.VmbFeatureCommandRun h c ::
                     List.replicate (k + 1) (Event.VmbFeatureCommandIsDone h c),
                   result := Except.ok () })) ∧
    (∀ fuel r, RunCommand d h c fuel = some r → r.result = Except.ok () →
      d.VmbFeatureCommandRun h c = VmbErrorSuccess ∧
      ∃ k, d.VmbFeatureCommandIsDone h c k = (VmbErrorSuccess, true) ∧
        r.trace.length = k + 2) ∧
    (d.VmbFeatureCommandRun h c = VmbErrorSuccess →
      ∀ fuel, (∀ i, i < fuel → (d.VmbFeatureCommandIsDone h c i).1 = VmbErrorSuccess ∧
          (d.VmbFeatureCommandIsDone h c i).2 = false) →
        RunCommand d h c fuel = none) ∧
    (∀ k, ∃ d2 : Driver, RunCommand d2 h c (k + 1) =
      some { trace := Event.VmbFeatureCommandRun h c ::
               List.replicate (k + 1) (Event.VmbFeatureCommandIsDone h c),
             result := Except.ok () }) := by
  have hrun : ∀ d1 : Driver, d1.VmbFeatureCommandRun h c = VmbErrorSuccess →
      ∀ k fuel, k < fuel →
        (∀ i, i < k → (d1.VmbFeatureCommandIsDone h c i).1 = VmbErrorSuccess ∧
          (d1.VmbFeatureCommandIsDone h c i).2 = false) →
        ((d1.VmbFeatureCommandIsDone h c k).1 ≠ VmbErrorSuccess ∨
          (d1.VmbFeatureCommandIsDone h c k).2 = true) →
        RunCommand d1 h c fuel =
          some { trace := Event.VmbFeatureCommandRun h c ::
                   List.replicate (k + 1) (Event.VmbFeatureCommandIsDone h c),
                 result :=
                   if (d1.VmbFeatureCommandIsDone h c k).1 ≠ VmbErrorSuccess then
                     Except.error (VmbException.ForOperation
                       (d1.VmbFeatureCommandIsDone h c k).1 "VmbFeatureCommandIsDone")
                   else Except.ok () } := by
    intro d1 hok k fuel hk hearlier hend
    unfold RunCommand
    have hnf : ¬ d1.VmbFeatureCommandRun h c ≠ VmbErrorSuccess := fun hne => hne hok
    rw [if_neg hnf, poll_exact d1 h c fuel 0 k (Nat.zero_le _) (by omega)
      (fun i _ h2 => hearlier i h2) hend]
    simp
  refine ⟨?_, ?_, ?_, ?_, ?_⟩
  · intro hfail fuel
    unfold RunCommand
    rw [if_pos hfail]
  · intro hok k fuel hk hearlier
    constructor
    · intro hfail
      rw [hrun d hok k fuel hk hearlier (Or.inl hfail), if_pos hfail]
    · intro hdone
      have h1 : (d.VmbFeatureCommandIsDone h c k).1 = VmbErrorSuccess := by rw [hdone]
      have h2 : (d.VmbFeatureCommandIsDone h c k).2 = true := by rw [hdone]
      rw [hrun d hok k fuel hk hearlier (Or.inr h2), if_neg (fun hne => hne h1)]
  · intro fuel r hr hres
    unfold RunCommand at hr
    by_cases hfail : d.VmbFeatureCommandRun h c ≠ VmbErrorSuccess
    · rw [if_pos hfail] at hr
      simp only [Option.some.injEq] at hr
      subst hr
      cases hres
    · rw [if_neg hfail] at hr
      simp only [Option.map_eq_some'] at hr
      obtain ⟨r1, hr1, hr2⟩ := hr
      subst hr2
      obtain ⟨k, _, hans, hlen⟩ := poll_returns d h c fuel 0 r1 hr1 hres
      refine ⟨not_not.1 hfail, k, hans, ?_⟩
      simp only [List.length_cons, hlen]
      omega
  · intro hok fuel hall
    unfold RunCommand
    have hnf : ¬ d.VmbFeatureCommandRun h c ≠ VmbErrorSuccess := fun hne => hne hok
    rw [if_neg hnf, poll_running d h c fuel 0 (fun i _ h2 => hall i (by omega))]
    rfl
  · intro k
    refine ⟨{ d with
        VmbFeatureCommandRun := fun _ _ => VmbErrorSuccess,
        VmbFeatureCommandIsDone := fun _ _ n => (VmbErrorSuccess, decide (k ≤ n)) }, ?_⟩
    have h1 := hrun { d with
        VmbFeatureCommandRun := fun _ _ => VmbErrorSuccess,
        VmbFeatureCommandIsDone := fun _ _ n => (VmbErrorSuccess, decide (k ≤ n)) }
      rfl k (k + 1) (by omega)
      (fun i hi => ⟨rfl, by simp; omega⟩) (Or.inr (by simp))
    rw [h1]
    simp

/-! ## Claims on the worker loop -/

theorem convertFrom_no_delivery (lib : ImageLibrary) (target src : Image) :
    ∀ e ∈ (Image.convertFrom lib target src).trace, e.isDelivery = false := by
  intro e he
  unfold Image.convertFrom at he
  simp only [Image.transform] at he
  split_ifs at he <;> simp at he
  all_goals first
    | (rw [he]; rfl)
    | (rcases he with h | h | h <;> (rw [h]; rfl))
    | (rcases he with h | h <;> (rw [h]; rfl))

theorem ofFrame_no_delivery (lib : ImageLibrary) (frame : VmbFrame) :
    ∀ e ∈ (Image.ofFrame lib frame).1, e.isDelivery = false := by
  intro e he
  unfold Image.ofFrame at he
  simp only at he
  split at he <;> (rw [List.mem_singleton.1 he]; rfl)

/-- A call of `TranscodeImage` that throws has handed nothing to the renderer. -/
theorem TranscodeImage_failure_no_delivery (littleEndianStorage : Bool) (lib : ImageLibrary)
    (target : TranscodeTarget) (task : TransformationTask)
    (hfail : (target.TranscodeImage littleEndianStorage lib task).failure ≠ none) :
    (∀ e ∈ (target.TranscodeImage littleEndianStorage lib task).trace, e.isDelivery = false) ∧
    (target.TranscodeImage littleEndianStorage lib task).toResult
      ≠ TranscodeResult.returned := by
  constructor
  · unfold TranscodeTarget.TranscodeImage at hfail ⊢
    simp only at hfail ⊢
    split
    · exact ofFrame_no_delivery lib task.m_frame
    · rename_i src hsrc
      simp only [hsrc] at hfail
      split
      · intro e he
        rcases List.mem_append.1 he with h | h
        · exact ofFrame_no_delivery lib task.m_frame e h
        · exact convertFrom_no_delivery lib _ _ e h
      · rename_i hnone
        simp only [hnone] at hfail
        exact absurd rfl hfail
  · unfold TranscodeOutcome.toResult
    cases hf : (target.TranscodeImage littleEndianStorage lib task).failure with
    | none => exact absurd hf hfail
    | some f => cases f <;> simp

/-- C25: when the conversion of the task the worker has taken throws a
`VmbException` or `std::bad_alloc` and the queue is still running, the worker
swallows it and is waiting again after two transitions: its calls are the one
`TranscodeImage` and the one `VmbCaptureFrameQueue` of the task's destructor,
with the task's handle, frame and callback; nothing is handed to the renderer,
neither by the worker nor inside `TranscodeImage`. -/
theorem failed_conversion_recycles (littleEndianStorage : Bool) (lib : ImageLibrary)
    (target : TranscodeTarget) (s : ImageTranscoder) (t : TransformationTask)
    (hrun : s.m_terminated = false) (hth : s.m_thread = Thread.taken (some t))
    (ht : t.m_canceled = false)
    (hfail : (target.TranscodeImage littleEndianStorage lib t).failure ≠ none) :
    (ImageTranscoder.runWorker
        (fun _ => (target.TranscodeImage littleEndianStorage lib t).toResult) 2 s).1 =
      { s with m_thread := Thread.waiting } ∧
    (ImageTranscoder.runWorker
        (fun _ => (target.TranscodeImage littleEndianStorage lib t).toResult) 2 s).2 =
      [Event.TranscodeImage t.m_frame,
        Event.VmbCaptureFrameQueue t.m_streamHandle t.m_frame t.m_callback] ∧
    deliveries t.m_frame (ImageTranscoder.runWorker
        (fun _ => (target.TranscodeImage littleEndianStorage lib t).toResult) 2 s).2 = 0 ∧
    reenqueues t.m_frame (ImageTranscoder.runWorker
        (fun _ => (target.TranscodeImage littleEndianStorage lib t).toResult) 2 s).2 = 1 ∧
    (∀ e ∈ (target.TranscodeImage littleEndianStorage lib t).trace, e.isDelivery = false) := by
  obtain ⟨hnodel, hres⟩ :=
    TranscodeImage_failure_no_delivery littleEndianStorage lib target t hfail
  obtain ⟨term, task, thread⟩ := s
  simp only at hrun hth
  subst hrun hth
  have hrun2 : ImageTranscoder.runWorker
      (fun _ => (target.TranscodeImage littleEndianStorage lib t).toResult) 2
      { m_terminated := false, m_task := task, m_thread := Thread.taken (some t) } =
      ({ m_terminated := false, m_task := task, m_thread := Thread.waiting },
        [Event.TranscodeImage t.m_frame,
          Event.VmbCaptureFrameQueue t.m_streamHandle t.m_frame t.m_callback]) := by
    cases hc : (target.TranscodeImage littleEndianStorage lib t).toResult with
    | returned => exact absurd hc hres
    | vmbException =>
      simp [ImageTranscoder.runWorker, ImageTranscoder.TranscodeLoopMember,
        ImageTranscoder.TranscodeImage, TransformationTask.reset, dtor_live t ht]
    | bad_alloc =>
      simp [ImageTranscoder.runWorker, ImageTranscoder.TranscodeLoopMember,
        ImageTranscoder.TranscodeImage, TransformationTask.reset, dtor_live t ht]
  rw [hrun2]
  refine ⟨rfl, rfl, ?_, ?_, hnodel⟩
  · simp [deliveries]
  · simp [reenqueues]

theorem failed_conversion_recycles_witness :
    (ImageTranscoder.runWorker
        (fun _ => ({ m_transformTarget := none, m_outputSize := { width := 64, height := 48 } }
          : TranscodeTarget).TranscodeImage true exLibraryNoMemory
            (TransformationTask.new 7 9 exFrameA) |>.toResult) 2
        { m_terminated := false, m_task := none,
          m_thread := Thread.taken (some (TransformationTask.new 7 9 exFrameA)) }).2 =
      [Event.TranscodeImage exFrameA, Event.VmbCaptureFrameQueue 7 exFrameA 9] :=
  (failed_conversion_recycles true exLibraryNoMemory
    { m_transformTarget := none, m_outputSize := { width := 64, height := 48 } }
    { m_terminated := false, m_task := none,
      m_thread := Thread.taken (some (TransformationTask.new 7 9 exFrameA)) }
    (TransformationTask.new 7 9 exFrameA) rfl rfl rfl (by decide)).2.1

/-- C26: with the worker past the conversion of its task, the transition that
takes the lock again depends on the flag alone: on a terminated queue the task
is marked canceled, the worker leaves the loop and no call is made; on a
running queue the worker is back at the head of the loop and the destructor
of the live task makes its one `VmbCaptureFrameQueue` call.  Accordingly a
`Stop` that finds the worker converting a task with the slot empty ends with
no `VmbCaptureFrameQueue` for that task. -/
theorem termination_during_conversion (c : TranscodeResult) (s : ImageTranscoder)
    (t : TransformationTask) (ht : t.m_canceled = false) :
    (s.m_thread = Thread.transcoded (some t) → s.m_terminated = true →
      ImageTranscoder.TranscodeLoopMember c s = ({ s with m_thread := Thread.finished }, [])) ∧
    (s.m_thread = Thread.transcoded (some t) → s.m_terminated = false →
      ImageTranscoder.TranscodeLoopMember c s =
        ({ s with m_thread := Thread.waiting },
          [Event.VmbCaptureFrameQueue t.m_streamHandle t.m_frame t.m_callback])) ∧
    (s.m_thread = Thread.taken (some t) → s.m_terminated = false → s.m_task = none →
      (s.Stop c).state =
        { m_terminated := true, m_task := none, m_thread := Thread.notJoinable } ∧
      (s.Stop c).trace =
        Event.notify_all :: ImageTranscoder.TranscodeImage c t ++ [Event.threadJoin] ∧
      reenqueues t.m_frame (s.Stop c).trace = 0 ∧ (s.Stop c).failure = none) := by
  obtain ⟨term, task, thread⟩ := s
  refine ⟨?_, ?_, ?_⟩
  · intro hth hterm
    simp only at hth hterm
    subst hth hterm
    simp [ImageTranscoder.TranscodeLoopMember, dtor_canceled]
  · intro hth hrun
    simp only at hth hrun
    subst hth hrun
    simp [ImageTranscoder.TranscodeLoopMember, TransformationTask.reset, dtor_live t ht]
  · intro hth hrun hslot
    simp only at hth hrun hslot
    subst hth hrun hslot
    have hstop : ImageTranscoder.Stop c
        { m_terminated := false, m_task := none, m_thread := Thread.taken (some t) } =
        { state := { m_terminated := true, m_task := none, m_thread := Thread.notJoinable },
          trace := Event.notify_all :: ImageTranscoder.TranscodeImage c t
            ++ [Event.threadJoin],
          failure := none } := by
      simp [ImageTranscoder.Stop, ImageTranscoder.join, ImageTranscoder.runWorker,
        ImageTranscoder.TranscodeLoopMember, TransformationTask.reset, dtor_canceled]
    rw [hstop]
    refine ⟨rfl, rfl, ?_, rfl⟩
    cases c <;> simp [reenqueues, ImageTranscoder.TranscodeImage]

theorem termination_during_conversion_witness :
    (ImageTranscoder.Stop TranscodeResult.returned
        { m_terminated := false, m_task := none,
          m_thread := Thread.taken (some (TransformationTask.new 7 9 exFrameA)) }).trace =
      [Event.notify_all, Event.TranscodeImage exFrameA, Event.ConvertedFrameReceived exFrameA,
        Event.threadJoin] :=
  ((termination_during_conversion TranscodeResult.returned
    { m_terminated := false, m_task := none,
      m_thread := Thread.taken (some (TransformationTask.new 7 9 exFrameA)) }
    (TransformationTask.new 7 9 exFrameA) rfl).2.2 rfl rfl rfl).2.1

theorem TranscodeLoopMember_slot (c : TranscodeResult) (s : ImageTranscoder) :
    (ImageTranscoder.TranscodeLoopMember c s).1.m_task = s.m_task ∨
      (ImageTranscoder.TranscodeLoopMember c s).1.m_task = none := by
  unfold ImageTranscoder.TranscodeLoopMember
  split
  · split
    · exact Or.inl rfl
    · split
      · exact Or.inl rfl
      · exact Or.inr rfl
  · split <;> exact Or.inl rfl
  · split
    · split <;> exact Or.inl rfl
    · exact Or.inl rfl
  all_goals exact Or.inl rfl

theorem runWorker_slot_empty (conv : Nat → TranscodeResult) (n : Nat) (s : ImageTranscoder)
    (hs : s.m_task = none) : (ImageTranscoder.runWorker conv n s).1.m_task = none := by
  induction n with
  | zero => exact hs
  | succ n ih =>
    rw [ImageTranscoder.runWorker]
    rcases TranscodeLoopMember_slot (conv n) (ImageTranscoder.runWorker conv n s).1 with h | h
    · simp only [h, ih]
    · simp only [h]

theorem runWorker_slot (conv : Nat → TranscodeResult) (n : Nat) (s : ImageTranscoder) :
    (ImageTranscoder.runWorker conv n s).1.m_task = s.m_task ∨
      (ImageTranscoder.runWorker conv n s).1.m_task = none := by
  induction n with
  | zero => exact Or.inl rfl
  | succ n ih =>
    rw [ImageTranscoder.runWorker]
    rcases TranscodeLoopMember_slot (conv n) (ImageTranscoder.runWorker conv n s).1 with h | h
    · simp only [h]; exact ih
    · exact Or.inr h

theorem join_slot (c : TranscodeResult) (s : ImageTranscoder) :
    (ImageTranscoder.join c s).state.m_task = s.m_task ∨
      (ImageTranscoder.join c s).state.m_task = none := by
  unfold ImageTranscoder.join
  split
  · exact Or.inl rfl
  · simp only
    split
    · exact runWorker_slot _ 3 s
    · exact runWorker_slot _ 3 s

theorem Stop_slot_empty (c : TranscodeResult) (s : ImageTranscoder)
    (hs : s.m_terminated = true → s.m_task = none) : (s.Stop c).state.m_task = none := by
  unfold ImageTranscoder.Stop
  split
  · rename_i hterm
    exact hs hterm
  · simp only
    unfold ImageTranscoder.join
    split
    · rfl
    · simp only
      split
      · exact runWorker_slot_empty _ 3 _ rfl
      · exact runWorker_slot_empty _ 3 _ rfl

theorem Start_state_running (s : ImageTranscoder) : s.Start.state.m_terminated = false := by
  obtain ⟨term, task, thread⟩ := s
  cases term <;> cases thread <;> rfl

/-- The invariant of the queue: a terminated queue has an empty slot.  Every
operation keeps it. -/
theorem apply_keeps_slot_invariant (s : ImageTranscoder) (a : QueueAction)
    (hs : s.m_terminated = true → s.m_task = none) :
    (s.apply a).m_terminated = true → (s.apply a).m_task = none := by
  cases a with
  | Start =>
    intro hterm
    simp only [ImageTranscoder.apply] at hterm
    rw [Start_state_running] at hterm
    cases hterm
  | Stop c =>
    intro _
    exact Stop_slot_empty c s hs
  | StopLocked =>
    intro hterm
    simp only [ImageTranscoder.apply] at hterm ⊢
    split
    · rename_i h
      exact hs h
    · rfl
  | StopJoin c =>
    intro hterm
    simp only [ImageTranscoder.apply] at hterm ⊢
    rw [join_terminated] at hterm
    rcases join_slot c s with h | h
    · rw [h]; exact hs hterm
    · exact h
  | PostImage h cb f =>
    intro hterm
    simp only [ImageTranscoder.apply] at hterm ⊢
    cases f with
    | none => exact hs hterm
    | some frame =>
      cases hacc : PostImage.accepted frame
      · simp only [ImageTranscoder.PostImage, message_of_rejected h cb frame hacc] at hterm ⊢
        exact hs hterm
      · cases hrun : s.m_terminated
        · simp only [ImageTranscoder.PostImage, message_of_accepted h cb frame hacc, hrun,
            Bool.false_eq_true, if_false] at hterm
        · simp only [ImageTranscoder.PostImage, message_of_accepted h cb frame hacc, hrun,
            if_true]
          exact hs hrun
  | workerStep c =>
    intro hterm
    simp only [ImageTranscoder.apply] at hterm ⊢
    rw [TranscodeLoopMember_terminated] at hterm
    rcases TranscodeLoopMember_slot c s with h | h
    · rw [h]; exact hs hterm
    · exact h

/-- C28: in every state the queue reaches from the freshly constructed one
(stopped, empty slot) by calls of `Start`, `Stop` and `PostImage` and
transitions of the worker, a terminated queue has an empty slot; this also
holds between the critical section of a `Stop` and its join, with `PostImage`
and the worker running in between. -/
theorem terminated_slot_empty (actions : List QueueAction)
    (hterm : (ImageTranscoder.new.run actions).m_terminated = true) :
    (ImageTranscoder.new.run actions).m_task = none := by
  have key : ∀ (acts : List QueueAction) (s : ImageTranscoder),
      (s.m_terminated = true → s.m_task = none) →
      (s.run acts).m_terminated = true → (s.run acts).m_task = none := by
    intro acts
    induction acts with
    | nil => intro s hs; exact hs
    | cons a rest ih =>
      intro s hs
      exact ih (s.apply a) (apply_keeps_slot_invariant s a hs)
  exact key actions ImageTranscoder.new (fun _ => rfl) hterm

theorem terminated_slot_empty_witness :
    (ImageTranscoder.new.run
      [QueueAction.Start, QueueAction.PostImage 7 9 (some exFrameA),
        QueueAction.StopLocked, QueueAction.PostImage 7 9 (some exFrameB)]).m_task = none :=
  terminated_slot_empty
    [QueueAction.Start, QueueAction.PostImage 7 9 (some exFrameA),
      QueueAction.StopLocked, QueueAction.PostImage 7 9 (some exFrameB)]
    (by decide)

theorem TranscodeLoopMember_sound (c : TranscodeResult) (s : ImageTranscoder)
    (hs : s.m_thread.sound = true) :
    (ImageTranscoder.TranscodeLoopMember c s).1.m_thread.sound = true := by
  obtain ⟨term, task, thread⟩ := s
  cases thread with
  | taken x => cases x <;> first | rfl | cases hs
  | transcoded x => cases x <;> first | (cases term <;> rfl) | cases hs
  | waiting => cases term <;> cases task <;> rfl
  | crashed => cases hs
  | notJoinable => rfl
  | finished => rfl

theorem runWorker_sound (conv : Nat → TranscodeResult) (n : Nat) (s : ImageTranscoder)
    (hs : s.m_thread.sound = true) :
    (ImageTranscoder.runWorker conv n s).1.m_thread.sound = true := by
  induction n with
  | zero => exact hs
  | succ n ih =>
    rw [ImageTranscoder.runWorker]
    exact TranscodeLoopMember_sound _ _ ih

theorem join_sound (c : TranscodeResult) (s : ImageTranscoder)
    (hs : s.m_thread.sound = true) : (ImageTranscoder.join c s).state.m_thread.sound = true := by
  unfold ImageTranscoder.join
  split
  · exact hs
  · simp only
    split
    · rfl
    · exact runWorker_sound _ 3 _ hs

theorem apply_sound (s : ImageTranscoder) (a : QueueAction) (hs : s.m_thread.sound = true) :
    (s.apply a).m_thread.sound = true := by
  cases a with
  | Start =>
    obtain ⟨term, task, thread⟩ := s
    cases term <;> cases thread <;> exact hs
  | Stop c =>
    simp only [ImageTranscoder.apply, ImageTranscoder.Stop]
    split
    · exact hs
    · exact join_sound c _ hs
  | StopLocked =>
    simp only [ImageTranscoder.apply]
    split <;> exact hs
  | StopJoin c => exact join_sound c s hs
  | PostImage h cb f =>
    simp only [ImageTranscoder.apply, ImageTranscoder.PostImage]
    split
    · exact hs
    · split
      · split <;> exact hs
      · exact hs
  | workerStep c => exact TranscodeLoopMember_sound c s hs

/-- C29: the worker swaps the slot out only on a running queue whose slot holds
a task: a transition from the head of the loop that takes a local task takes
the task of the slot, which is not null, the queue is not terminated, and the
slot is empty afterwards.  Hence in every state reached from the freshly
constructed queue by `Start`, `Stop`, `PostImage` and worker transitions the
worker never holds a null local task and never dereferenced one after the
conversion. -/
theorem worker_task_never_null (c : TranscodeResult) (actions : List QueueAction) :
    (∀ (s : ImageTranscoder) (x : Option TransformationTask),
      s.m_thread = Thread.waiting →
      (ImageTranscoder.TranscodeLoopMember c s).1.m_thread = Thread.taken x →
      s.m_terminated = false ∧ s.m_task = x ∧ x.isSome = true ∧
        (ImageTranscoder.TranscodeLoopMember c s).1.m_task = none) ∧
    (ImageTranscoder.new.run actions).m_thread.sound = true ∧
    (ImageTranscoder.new.run actions).m_thread ≠ Thread.taken none ∧
    (ImageTranscoder.new.run actions).m_thread ≠ Thread.transcoded none ∧
    (ImageTranscoder.new.run actions).m_thread ≠ Thread.crashed ∧
    (ImageTranscoder.TranscodeLoopMember c (ImageTranscoder.new.run actions)).1.m_thread
      ≠ Thread.crashed := by
  have key : ∀ (acts : List QueueAction) (s : ImageTranscoder),
      s.m_thread.sound = true → (s.run acts).m_thread.sound = true := by
    intro acts
    induction acts with
    | nil => intro s hs; exact hs
    | cons a rest ih =>
      intro s hs
      exact ih (s.apply a) (apply_sound s a hs)
  have hsound := key actions ImageTranscoder.new rfl
  have hnext := TranscodeLoopMember_sound c _ hsound
  refine ⟨?_, hsound, ?_, ?_, ?_, ?_⟩
  · intro s x hth hstep
    obtain ⟨term, task, thread⟩ := s
    simp only at hth
    subst hth
    cases term with
    | true => simp [ImageTranscoder.TranscodeLoopMember] at hstep
    | false =>
      cases task with
      | none => simp [ImageTranscoder.TranscodeLoopMember] at hstep
      | some t =>
        simp [ImageTranscoder.TranscodeLoopMember] at hstep
        subst hstep
        simp [ImageTranscoder.TranscodeLoopMember]
  · intro h; rw [h] at hsound; cases hsound
  · intro h; rw [h] at hsound; cases hsound
  · intro h; rw [h] at hsound; cases hsound
  · intro h; rw [h] at hnext; cases hnext

/-! ## Claims on the errors of session open -/

/-- C22: a failing camera info query is not reported under its own name.  On
the example driver whose `VmbCameraInfoQueryByHandle` answers -3 after a
successful `VmbCameraOpen`, the constructor of the session closes the device
and throws the exception with exit code -3 and the message
"VmbCameraOpen call unsuccessful; exit code -3": the status is the one of the
failed call, the operation named is the device open, which succeeded. -/
theorem info_query_failure_names_open :
    CameraAccessLifetime.new exDriverInfoFails 3 exCamera 1 5 =
      some { trace := [Event.VmbCameraOpen "DEV_1", Event.VmbCameraInfoQueryByHandle 11,
                       Event.VmbCameraClose 11],
             result := Except.error
               { m_errorMessage := "VmbCameraOpen call unsuccessful; exit code -3",
                 m_exitCode := some (-3) } } ∧
    (VmbException.ForOperation (-3) "VmbCameraInfoQueryByHandle").m_errorMessage
      = "VmbCameraInfoQueryByHandle call unsuccessful; exit code -3" ∧
    (VmbException.ForOperation (-3) "VmbCameraInfoQueryByHandle").m_errorMessage
      ≠ "VmbCameraOpen call unsuccessful; exit code -3" := by
  refine ⟨?_, ?_, ?_⟩
  · rfl
  · rfl
  · decide

/-! ## Lemmas on the calls of the queue and of the session -/

theorem dtor_neutral (t : TransformationTask) : ∀ e ∈ t.dtor, e.neutral = true := by
  intro e he
  unfold TransformationTask.dtor at he
  split at he
  · rw [List.mem_singleton.1 he]; rfl
  · simp at he

theorem reset_neutral (t : Option TransformationTask) :
    ∀ e ∈ TransformationTask.reset t, e.neutral = true := by
  cases t with
  | none => intro e he; simp [TransformationTask.reset] at he
  | some t => exact dtor_neutral t

theorem TranscodeImage_neutral (c : TranscodeResult) (t : TransformationTask) :
    ∀ e ∈ ImageTranscoder.TranscodeImage c t, e.neutral = true := by
  intro e he
  cases c <;> simp [ImageTranscoder.TranscodeImage] at he
  · rcases he with h | h <;> (rw [h]; rfl)
  · rw [he]; rfl
  · rw [he]; rfl

theorem TranscodeLoopMember_neutral (c : TranscodeResult) (s : ImageTranscoder) :
    ∀ e ∈ (ImageTranscoder.TranscodeLoopMember c s).2, e.neutral = true := by
  unfold ImageTranscoder.TranscodeLoopMember
  split
  · split
    · simp
    · split <;> simp
  · split
    · exact TranscodeImage_neutral c _
    · simp
  · split
    · split
      · intro e he
        simp only at he
        exact dtor_neutral _ e he
      · simp
    · exact reset_neutral _
  all_goals simp

theorem runWorker_neutral (conv : Nat → TranscodeResult) (n : Nat) (s : ImageTranscoder) :
    ∀ e ∈ (ImageTranscoder.runWorker conv n s).2, e.neutral = true := by
  induction n with
  | zero => simp [ImageTranscoder.runWorker]
  | succ n ih =>
    intro e he
    rw [ImageTranscoder.runWorker] at he
    rcases List.mem_append.1 he with h | h
    · exact ih e h
    · exact TranscodeLoopMember_neutral _ _ e h

theorem join_neutral (c : TranscodeResult) (s : ImageTranscoder) :
    ∀ e ∈ (ImageTranscoder.join c s).trace, e.neutral = true := by
  unfold ImageTranscoder.join
  split
  · simp
  · simp only
    split
    · intro e he
      rcases List.mem_append.1 he with h | h
      · exact runWorker_neutral _ 3 s e h
      · rw [List.mem_singleton.1 h]; rfl
    · exact runWorker_neutral _ 3 s

theorem Stop_neutral (c : TranscodeResult) (s : ImageTranscoder) :
    ∀ e ∈ (s.Stop c).trace, e.neutral = true := by
  unfold ImageTranscoder.Stop
  split
  · simp
  · intro e he
    simp only [List.mem_append, List.mem_cons] at he
    rcases he with h | h | h
    · exact reset_neutral _ e h
    · rw [h]; rfl
    · exact join_neutral c _ e h

theorem PostImage_neutral (s : ImageTranscoder) (h : VmbHandle) (cb : VmbFrameCallback)
    (f : Option VmbFrame) : ∀ e ∈ (s.PostImage h cb f).trace, e.neutral = true := by
  unfold ImageTranscoder.PostImage
  split
  · simp
  · split
    · split
      · intro e he
        simp only at he
        exact dtor_neutral _ e he
      · intro e he
        simp only [List.mem_append, List.mem_singleton] at he
        rcases he with h1 | h1
        · exact reset_neutral _ e h1
        · rw [h1]; rfl
    · intro e he
      simp only [List.mem_singleton] at he
      rw [he]; rfl

theorem adjustPoll_mem (d : Driver) (sh : VmbHandle) :
    ∀ fuel k t, CameraAccessLifetime.adjustPoll d sh fuel k = some t →
      ∀ e ∈ t, e = Event.VmbFeatureCommandIsDone sh AdjustPackageSizeCommand := by
  intro fuel
  induction fuel with
  | zero => intro k t ht; simp [CameraAccessLifetime.adjustPoll] at ht
  | succ n ih =>
    intro k t ht e he
    rw [CameraAccessLifetime.adjustPoll] at ht
    by_cases hfail :
        VmbErrorSuccess ≠ (d.VmbFeatureCommandIsDone sh AdjustPackageSizeCommand k).1
    · simp only [if_pos hfail, Option.some.injEq] at ht
      subst ht
      exact List.mem_singleton.1 he
    · by_cases hdone : (d.VmbFeatureCommandIsDone sh AdjustPackageSizeCommand k).2 = false
      · simp only [if_neg hfail, if_pos hdone, Option.map_eq_some'] at ht
        obtain ⟨t1, ht1, ht2⟩ := ht
        subst ht2
        rcases List.mem_cons.1 he with h1 | h1
        · exact h1
        · exact ih _ t1 ht1 e h1
      · simp only [if_neg hfail, if_neg hdone, Option.some.injEq] at ht
        subst ht
        exact List.mem_singleton.1 he

theorem adjustPacketSize_neutral (d : Driver) (sh : VmbHandle) (fuel : Nat)
    (adjust : List Event) (h : CameraAccessLifetime.adjustPacketSize d sh fuel = some adjust) :
    ∀ e ∈ adjust, e.neutral = true := by
  unfold CameraAccessLifetime.adjustPacketSize at h
  split at h
  · simp only [Option.map_eq_some'] at h
    obtain ⟨t, ht, h2⟩ := h
    subst h2
    intro e he
    simp only [List.cons_append, List.mem_cons, List.mem_append, List.not_mem_nil,
      or_false] at he
    rcases he with h1 | h1 | h1 | h1
    · rw [h1]; rfl
    · rw [adjustPoll_mem d sh fuel 0 t ht e h1]; rfl
    · rw [h1]; rfl
    · rw [h1]; rfl
  · simp only [Option.some.injEq] at h
    subst h
    intro e he
    rw [List.mem_singleton.1 he]; rfl

theorem allocate_neutral (d : Driver) (p a count : Nat) (frames : List Frame) :
    ∀ e ∈ (AcquisitionLifetime.allocate d p a count frames).1, e.neutral = true := by
  intro e he
  rw [allocate_trace_mem d p a count frames e he]; rfl

theorem announce_neutral (d : Driver) (h : VmbHandle) (m index : Nat) (frames : List Frame)
    (err : VmbError) :
    ∀ e ∈ (AcquisitionLifetime.announce d h m index frames err).1, e.neutral = true := by
  intro e he
  obtain ⟨f, hf⟩ := announce_trace_mem d h m frames index err e he
  rw [hf]; rfl

theorem enqueue_neutral (d : Driver) (h : VmbHandle) (index : Nat) (frames : List Frame)
    (err : VmbError) (count : Nat) :
    ∀ e ∈ (AcquisitionLifetime.enqueue d h index frames err count).1, e.neutral = true := by
  intro e he
  obtain ⟨f, hf⟩ := enqueue_trace_mem d h frames index err count e he
  rw [hf]; rfl

theorem freeAll_neutral (frames : List Frame) : ∀ e ∈ Frame.freeAll frames, e.neutral = true := by
  intro e he
  obtain ⟨b, hb⟩ := freeAll_mem frames e he
  rw [hb]; rfl

theorem RunCommand_neutral (d : Driver) (h : VmbHandle) (c : String) (fuel : Nat)
    (r : Run Unit) (hr : RunCommand d h c fuel = some r) : ∀ e ∈ r.trace, e.neutral = true := by
  intro e he
  rcases RunCommand_trace_mem d h c fuel r hr e he with h1 | h1 <;> (rw [h1]; rfl)

theorem neutral_append (a b : List Event) (ha : ∀ e ∈ a, e.neutral = true)
    (hb : ∀ e ∈ b, e.neutral = true) : ∀ e ∈ a ++ b, e.neutral = true := by
  intro e he
  rcases List.mem_append.1 he with h | h
  · exact ha e h
  · exact hb e h

theorem neutral_singleton (x : Event) (hx : x.neutral = true) :
    ∀ e ∈ [x], e.neutral = true := by
  intro e he
  rw [List.mem_singleton.1 he]; exact hx

theorem AcquisitionLifetime_new_neutral (d : Driver) (BufferCount : Nat) (h : VmbHandle)
    (p a m fuel : Nat) (r : Run AcquisitionLifetime)
    (hr : AcquisitionLifetime.new d BufferCount h p a m fuel = some r) :
    ∀ e ∈ r.trace, e.neutral = true := by
  unfold AcquisitionLifetime.new at hr
  simp only at hr
  split at hr
  · simp only [Option.some.injEq] at hr
    subst hr
    exact neutral_append _ _ (allocate_neutral _ _ _ _ _) (freeAll_neutral _)
  · split at hr
    · simp only [Option.some.injEq] at hr
      subst hr
      exact neutral_append _ _ (neutral_append _ _ (neutral_append _ _
        (allocate_neutral _ _ _ _ _) (announce_neutral _ _ _ _ _ _))
        (neutral_singleton _ rfl)) (freeAll_neutral _)
    · split at hr
      · simp only [Option.some.injEq] at hr
        subst hr
        exact neutral_append _ _ (neutral_append _ _ (neutral_append _ _
          (allocate_neutral _ _ _ _ _) (announce_neutral _ _ _ _ _ _))
          (neutral_singleton _ rfl)) (freeAll_neutral _)
      · split at hr
        · simp only [Option.some.injEq] at hr
          subst hr
          exact neutral_append _ _ (neutral_append _ _ (neutral_append _ _
            (neutral_append _ _ (neutral_append _ _
            (allocate_neutral _ _ _ _ _) (announce_neutral _ _ _ _ _ _))
            (neutral_singleton _ rfl)) (enqueue_neutral _ _ _ _ _ _))
            (neutral_singleton _ rfl)) (freeAll_neutral _)
        · split at hr
          · cases hr
          · rename_i run hrun
            split at hr
            · simp only [Option.some.injEq] at hr
              subst hr
              exact neutral_append _ _ (neutral_append _ _ (neutral_append _ _
                (neutral_append _ _ (neutral_append _ _ (neutral_append _ _
                (allocate_neutral _ _ _ _ _) (announce_neutral _ _ _ _ _ _))
                (neutral_singleton _ rfl)) (enqueue_neutral _ _ _ _ _ _))
                (RunCommand_neutral _ _ _ _ _ hrun))
                (neutral_singleton _ rfl)) (freeAll_neutral _)
            · simp only [Option.some.injEq] at hr
              subst hr
              exact neutral_append _ _ (neutral_append _ _ (neutral_append _ _
                (neutral_append _ _
                (allocate_neutral _ _ _ _ _) (announce_neutral _ _ _ _ _ _))
                (neutral_singleton _ rfl)) (enqueue_neutral _ _ _ _ _ _))
                (RunCommand_neutral _ _ _ _ _ hrun)

theorem StreamLifetime_new_neutral (d : Driver) (BufferCount : Nat) (sh ch : VmbHandle)
    (m fuel : Nat) (r : Run StreamLifetime)
    (hr : StreamLifetime.new d BufferCount sh ch m fuel = some r) :
    ∀ e ∈ r.trace, e.neutral = true := by
  unfold StreamLifetime.new at hr
  simp only at hr
  split at hr
  · simp only [Option.some.injEq] at hr
    subst hr
    exact neutral_singleton _ rfl
  · split at hr
    · simp only [Option.some.injEq] at hr
      subst hr
      exact neutral_singleton _ rfl
    · split at hr
      · cases hr
      · rename_i life hlife
        simp only [Option.some.injEq] at hr
        subst hr
        intro e he
        simp only [List.mem_cons] at he
        rcases he with h1 | h1 | h1
        · rw [h1]; rfl
        · rw [h1]; rfl
        · exact AcquisitionLifetime_new_neutral _ _ _ _ _ _ _ _ hlife e h1

theorem AcquisitionLifetime_dtor_neutral (d : Driver) (life : AcquisitionLifetime) (fuel : Nat)
    (t : List Event) (ht : life.dtor d fuel = some t) : ∀ e ∈ t, e.neutral = true := by
  unfold AcquisitionLifetime.dtor at ht
  simp only [Option.map_eq_some'] at ht
  obtain ⟨run, hrun, h2⟩ := ht
  subst h2
  refine neutral_append _ _ (neutral_append _ _ (RunCommand_neutral _ _ _ _ _ hrun) ?_)
    (freeAll_neutral _)
  intro e he
  simp only [List.mem_cons, List.not_mem_nil, or_false] at he
  rcases he with h1 | h1 | h1 <;> (rw [h1]; rfl)

theorem StreamLifetime_dtor_neutral (d : Driver) (stream : StreamLifetime) (fuel : Nat)
    (t : List Event) (ht : stream.dtor d fuel = some t) : ∀ e ∈ t, e.neutral = true := by
  unfold StreamLifetime.dtor at ht
  split at ht
  · simp only [Option.some.injEq] at ht
    subst ht
    simp
  · exact AcquisitionLifetime_dtor_neutral d _ fuel t ht

/-- The destructor of a session closes the device as its last call and neither
opens nor closes one before. -/
theorem CameraAccessLifetime_dtor_shape (d : Driver) (camera : CameraAccessLifetime)
    (fuel : Nat) (t : List Event) (ht : camera.dtor d fuel = some t) :
    ∃ mid, (∀ e ∈ mid, e.neutral = true) ∧
      t = mid ++ [Event.VmbCameraClose camera.m_cameraHandle] := by
  unfold CameraAccessLifetime.dtor at ht
  simp only [Option.map_eq_some'] at ht
  obtain ⟨closed, hclosed, h2⟩ := ht
  refine ⟨closed, ?_, h2.symm⟩
  split at hclosed
  · simp only [Option.some.injEq] at hclosed
    subst hclosed
    simp
  · exact StreamLifetime_dtor_neutral d _ fuel closed hclosed

/-- The calls of the constructor of a session: the device open first; when it
fails nothing else; otherwise calls that neither open nor close a device,
followed by the close of the device exactly when the constructor throws. -/
theorem CameraAccessLifetime_new_shape (d : Driver) (BufferCount : Nat)
    (camInfo : VmbCameraInfo) (m fuel : Nat) (opened : Run CameraAccessLifetime)
    (h : CameraAccessLifetime.new d BufferCount camInfo m fuel = some opened) :
    ((d.VmbCameraOpen camInfo.cameraIdString).1 ≠ VmbErrorSuccess ∧
      opened.trace = [Event.VmbCameraOpen camInfo.cameraIdString] ∧
      ∃ e, opened.result = Except.error e) ∨
    ((d.VmbCameraOpen camInfo.cameraIdString).1 = VmbErrorSuccess ∧
      ∃ mid, (∀ e ∈ mid, e.neutral = true) ∧
        ((opened.trace = Event.VmbCameraOpen camInfo.cameraIdString :: mid
            ++ [Event.VmbCameraClose (d.VmbCameraOpen camInfo.cameraIdString).2] ∧
          ∃ e, opened.result = Except.error e) ∨
        (opened.trace = Event.VmbCameraOpen camInfo.cameraIdString :: mid ∧
          ∃ camera, opened.result = Except.ok camera))) := by
  unfold CameraAccessLifetime.new at h
  simp only at h
  split at h
  · rename_i hopen
    simp only [Option.some.injEq] at h
    subst h
    exact Or.inl ⟨hopen, rfl, _, rfl⟩
  · rename_i hopen
    refine Or.inr ⟨not_not.1 hopen, ?_⟩
    split at h
    · simp only [Option.some.injEq] at h
      subst h
      exact ⟨[Event.VmbCameraInfoQueryByHandle _], neutral_singleton _ rfl,
        Or.inl ⟨rfl, _, rfl⟩⟩
    · split at h
      · simp only [Option.some.injEq] at h
        subst h
        exact ⟨[Event.VmbCameraInfoQueryByHandle _], neutral_singleton _ rfl,
          Or.inl ⟨rfl, _, rfl⟩⟩
      · split at h
        · simp only [Option.some.injEq] at h
          subst h
          exact ⟨[Event.VmbCameraInfoQueryByHandle _], neutral_singleton _ rfl,
            Or.inl ⟨rfl, _, rfl⟩⟩
        · split at h
          · cases h
          · rename_i adjust hadjust
            split at h
            · cases h
            · rename_i stream hstream
              have hmid : ∀ e ∈ Event.VmbCameraInfoQueryByHandle
                  (d.VmbCameraOpen camInfo.cameraIdString).2 :: (adjust ++ stream.trace),
                  e.neutral = true := by
                intro e he
                rcases List.mem_cons.1 he with h1 | h1
                · rw [h1]; rfl
                · exact neutral_append _ _
                    (adjustPacketSize_neutral _ _ _ _ hadjust)
                    (StreamLifetime_new_neutral _ _ _ _ _ _ _ hstream) e h1
              split at h
              · simp only [Option.some.injEq] at h
                subst h
                exact ⟨_, hmid, Or.inl ⟨by simp, _, rfl⟩⟩
              · simp only [Option.some.injEq] at h
                subst h
                exact ⟨_, hmid, Or.inr ⟨by simp, _, rfl⟩⟩

theorem neutral_not_open (l : List Event) (hl : ∀ e ∈ l, e.neutral = true) :
    l.countP Event.isCameraOpen = 0 ∧ l.countP Event.isCameraClose = 0 ∧
      Event.threadStart ∉ l := by
  refine ⟨List.countP_eq_zero.2 ?_, List.countP_eq_zero.2 ?_, ?_⟩
  · intro e he
    have h := hl e he
    cases e <;> first | (simp [Event.isCameraOpen]; done) | cases h
  · intro e he
    have h := hl e he
    cases e <;> first | (simp [Event.isCameraClose]; done) | cases h
  · intro hmem
    exact absurd (hl _ hmem) (by decide)

/-- The outcomes of `StopAcquisition`: a crash of the queue's `Stop`, after
which the session is untouched, or the calls of `Stop` followed by the calls
of the destructor of the session held, after which none is held. -/
theorem StopAcquisition_shape (d : Driver) (conv : TranscodeResult) (fuel : Nat)
    (m : AcquisitionManager) (stopped : ManagerResult)
    (h : m.StopAcquisition d conv fuel = some stopped) :
    stopped.state.m_imageTranscoder = (m.m_imageTranscoder.Stop conv).state ∧
    ((stopped.failure ≠ none ∧ stopped.state.m_openCamera = m.m_openCamera ∧
        stopped.trace = (m.m_imageTranscoder.Stop conv).trace) ∨
      (stopped.failure = none ∧ stopped.state.m_openCamera = none ∧
        ((m.m_openCamera = none ∧ stopped.trace = (m.m_imageTranscoder.Stop conv).trace) ∨
          ∃ camera closed, m.m_openCamera = some camera ∧ camera.dtor d fuel = some closed ∧
            stopped.trace = (m.m_imageTranscoder.Stop conv).trace ++ closed))) := by
  unfold AcquisitionManager.StopAcquisition at h
  simp only at h
  split at h
  · simp only [Option.some.injEq] at h
    subst h
    exact ⟨rfl, Or.inl ⟨by simp, rfl, rfl⟩⟩
  · split at h
    · rename_i hcam
      simp only [Option.some.injEq] at h
      subst h
      exact ⟨rfl, Or.inr ⟨rfl, rfl, Or.inl ⟨hcam, rfl⟩⟩⟩
    · rename_i camera hcam
      simp only [Option.map_eq_some'] at h
      obtain ⟨closed, hclosed, h2⟩ := h
      subst h2
      exact ⟨rfl, Or.inr ⟨rfl, rfl, Or.inr ⟨camera, closed, hcam, hclosed, rfl⟩⟩⟩

theorem StopAcquisition_no_threadStart (d : Driver) (conv : TranscodeResult) (fuel : Nat)
    (m : AcquisitionManager) (stopped : ManagerResult)
    (h : m.StopAcquisition d conv fuel = some stopped) :
    Event.threadStart ∉ stopped.trace ∧ stopped.trace.countP Event.isCameraOpen = 0 := by
  have hq := neutral_not_open _ (Stop_neutral conv m.m_imageTranscoder)
  obtain ⟨_, hshape⟩ := StopAcquisition_shape d conv fuel m stopped h
  rcases hshape with ⟨_, _, ht⟩ | ⟨_, _, ⟨_, ht⟩ | ⟨camera, closed, _, hclosed, ht⟩⟩
  · rw [ht]; exact ⟨hq.2.2, hq.1⟩
  · rw [ht]; exact ⟨hq.2.2, hq.1⟩
  · obtain ⟨mid, hmid, hc⟩ := CameraAccessLifetime_dtor_shape d camera fuel closed hclosed
    have hm := neutral_not_open _ hmid
    rw [ht, hc]
    refine ⟨?_, ?_⟩
    · intro hmem
      simp only [List.mem_append, List.mem_singleton] at hmem
      rcases hmem with h1 | h1 | h1
      · exact hq.2.2 h1
      · exact hm.2.2 h1
      · cases h1
    · simp [List.countP_append, hq.1, hm.1, Event.isCameraOpen]

/-! ## Claims on starting an acquisition -/

/-- C24: when `StopAcquisition` has returned and the constructor of the session
throws, whatever the step that failed, `StartAcquisition` throws that
exception to its caller; the manager is left as `StopAcquisition` left it: it
holds no session and its queue is terminated; no worker thread is started by
the call; the constructor called `VmbCameraOpen` once and, if that call
succeeded, `VmbCameraClose` exactly once, as its last call and on the handle
opened, and not at all if the open itself failed, so that no device is left
open. -/
theorem failed_start_is_atomic (d : Driver) (BufferCount : Nat) (conv : TranscodeResult)
    (fuel this : Nat) (m : AcquisitionManager) (cameraInfo : VmbCameraInfo)
    (stopped : ManagerResult) (opened : Run CameraAccessLifetime) (e : VmbException)
    (hstop : m.StopAcquisition d conv fuel = some stopped) (hok : stopped.failure = none)
    (hopen : CameraAccessLifetime.new d BufferCount cameraInfo this fuel = some opened)
    (hfail : opened.result = Except.error e) :
    m.StartAcquisition d BufferCount conv fuel this cameraInfo =
      some { state := stopped.state, trace := stopped.trace ++ opened.trace,
             failure := some (Failure.exception e) } ∧
    stopped.state.m_openCamera = none ∧
    stopped.state.m_imageTranscoder.m_terminated = true ∧
    Event.threadStart ∉ stopped.trace ++ opened.trace ∧
    opened.trace.countP Event.isCameraOpen = 1 ∧
    ((d.VmbCameraOpen cameraInfo.cameraIdString).1 ≠ VmbErrorSuccess →
      opened.trace.countP Event.isCameraClose = 0) ∧
    ((d.VmbCameraOpen cameraInfo.cameraIdString).1 = VmbErrorSuccess →
      opened.trace.countP Event.isCameraClose = 1 ∧
      opened.trace.getLast? =
        some (Event.VmbCameraClose (d.VmbCameraOpen cameraInfo.cameraIdString).2)) ∧
    openDevices d opened.trace 0 = 0 := by
  obtain ⟨hqueue, hshape⟩ := StopAcquisition_shape d conv fuel m stopped hstop
  have hnone : stopped.state.m_openCamera = none := by
    rcases hshape with ⟨hne, _, _⟩ | ⟨_, hcam, _⟩
    · exact absurd hok hne
    · exact hcam
  have hstart : m.StartAcquisition d BufferCount conv fuel this cameraInfo =
      some { state := stopped.state, trace := stopped.trace ++ opened.trace,
             failure := some (Failure.exception e) } := by
    unfold AcquisitionManager.StartAcquisition
    simp only [hstop, hok, hopen, hfail]
  have hnostart := (StopAcquisition_no_threadStart d conv fuel m stopped hstop).1
  refine ⟨hstart, hnone, ?_, ?_, ?_⟩
  · rw [hqueue]; exact Stop_state_terminated conv _
  · rcases CameraAccessLifetime_new_shape d BufferCount cameraInfo this fuel opened hopen with
      ⟨_, ht, _⟩ | ⟨_, mid, hmid, ⟨ht, _⟩ | ⟨_, camera, hcam⟩⟩
    · rw [ht]
      intro hmem
      simp only [List.mem_append, List.mem_singleton] at hmem
      rcases hmem with h1 | h1
      · exact hnostart h1
      · cases h1
    · rw [ht]
      intro hmem
      simp only [List.mem_append, List.mem_cons, List.mem_singleton, List.not_mem_nil,
        or_false] at hmem
      rcases hmem with h1 | (h1 | h1) | h1
      · exact hnostart h1
      · cases h1
      · exact (neutral_not_open _ hmid).2.2 h1
      · cases h1
    · rw [hfail] at hcam; cases hcam
  · rcases CameraAccessLifetime_new_shape d BufferCount cameraInfo this fuel opened hopen with
      ⟨hno, ht, _⟩ | ⟨hyes, mid, hmid, ⟨ht, _⟩ | ⟨_, camera, hcam⟩⟩
    · rw [ht]
      refine ⟨by simp [Event.isCameraOpen], fun _ => by simp [Event.isCameraClose],
        fun h => absurd h hno, ?_⟩
      simp [openDevices, openAfter, hno]
    · have hm := neutral_not_open _ hmid
      rw [ht]
      refine ⟨?_, fun h => absurd hyes h, fun _ => ⟨?_, ?_⟩, ?_⟩
      · simp [List.countP_cons, List.countP_append, hm.1, Event.isCameraOpen]
      · simp [List.countP_cons, List.countP_append, hm.2.1, Event.isCameraClose]
      · exact getLast_cons_append_singleton _ _ _
      · have hfold : ∀ (l : List Event) (n : Int), (∀ x ∈ l, x.neutral = true) →
            List.foldl (openAfter d) n l = n := by
          intro l
          induction l with
          | nil => intro n _; rfl
          | cons x rest ih =>
            intro n hl
            have hx := hl x (List.mem_cons_self _ _)
            have hrest : ∀ y ∈ rest, y.neutral = true :=
              fun y hy => hl y (List.mem_cons_of_mem _ hy)
            rw [List.foldl_cons]
            have hstep : openAfter d n x = n := by
              cases x <;> first | rfl | cases hx
            rw [hstep]
            exact ih n hrest
        simp [openDevices, openAfter, hyes, List.foldl_append, hfold mid _ hmid]
    · rw [hfail] at hcam; cases hcam

theorem failed_start_is_atomic_witness :
    (AcquisitionManager.new.StartAcquisition exDriverAnnounceFails 3 TranscodeResult.returned
        10 1 exCamera).map (fun r => (r.state, r.failure)) =
      some (AcquisitionManager.new,
        some (Failure.exception (VmbException.ForOperation (-5) "VmbFrameAnnounce"))) := by
  have key := (failed_start_is_atomic exDriverAnnounceFails 3 TranscodeResult.returned 10 1
    AcquisitionManager.new exCamera
    { state := AcquisitionManager.new, trace := [], failure := none }
    ((CameraAccessLifetime.new exDriverAnnounceFails 3 exCamera 1 10).get (by decide))
    (VmbException.ForOperation (-5) "VmbFrameAnnounce") rfl rfl
    (Option.some_get _).symm rfl).1
  rw [key]
  rfl

theorem openDevices_append (d : Driver) (a b : List Event) (n : Int) :
    openDevices d (a ++ b) n = openDevices d b (openDevices d a n) := by
  simp [openDevices, List.foldl_append]

theorem OneOpenAlong_append (d : Driver) (a b : List Event) (n m k : Int)
    (ha : OneOpenAlong d a n m) (hb : OneOpenAlong d b m k) : OneOpenAlong d (a ++ b) n k := by
  refine ⟨?_, ?_⟩
  · intro i
    rw [List.take_append_eq_append_take, openDevices_append]
    by_cases hi : a.length ≤ i
    · rw [List.take_of_length_le hi, ha.2]
      exact hb.1 _
    · have h0 : i - a.length = 0 := by omega
      rw [h0, List.take_zero]
      exact ha.1 i
  · rw [openDevices_append, ha.2, hb.2]

theorem openDevices_idle (d : Driver) (l : List Event)
    (hl : ∀ e ∈ l, e.isCameraOpen = false ∧ e.isCameraClose = false) (n : Int) :
    openDevices d l n = n := by
  induction l with
  | nil => rfl
  | cons x rest ih =>
    have hx := hl x (List.mem_cons_self _ _)
    have hstep : openAfter d n x = n := by
      cases x <;> first | rfl | (simp [Event.isCameraOpen, Event.isCameraClose] at hx)
    simp only [openDevices, List.foldl_cons, hstep]
    exact ih fun y hy => hl y (List.mem_cons_of_mem _ hy)

theorem OneOpenAlong_idle (d : Driver) (l : List Event)
    (hl : ∀ e ∈ l, e.isCameraOpen = false ∧ e.isCameraClose = false) (n : Int)
    (hn : n = 0 ∨ n = 1) : OneOpenAlong d l n n := by
  refine ⟨?_, openDevices_idle d l hl n⟩
  intro k
  rw [openDevices_idle d _ (fun e he => hl e (List.mem_of_mem_take he)) n]
  exact hn

theorem neutral_idle (l : List Event) (hl : ∀ e ∈ l, e.neutral = true) :
    ∀ e ∈ l, e.isCameraOpen = false ∧ e.isCameraClose = false := by
  intro e he
  have h := hl e he
  cases e <;> first | exact ⟨rfl, rfl⟩ | cases h

theorem OneOpenAlong_singleton (d : Driver) (x : Event) (n : Int) (hn : n = 0 ∨ n = 1)
    (hx : openAfter d n x = 0 ∨ openAfter d n x = 1) :
    OneOpenAlong d [x] n (openAfter d n x) := by
  refine ⟨?_, rfl⟩
  intro k
  cases k with
  | zero => exact hn
  | succ k => simpa [openDevices] using hx

/-- The destructor of a session takes the number of open devices from 1 to 0. -/
theorem dtor_closes_one (d : Driver) (camera : CameraAccessLifetime) (fuel : Nat)
    (t : List Event) (ht : camera.dtor d fuel = some t) : OneOpenAlong d t 1 0 := by
  obtain ⟨mid, hmid, hc⟩ := CameraAccessLifetime_dtor_shape d camera fuel t ht
  rw [hc]
  exact OneOpenAlong_append d _ _ 1 1 0
    (OneOpenAlong_idle d mid (neutral_idle mid hmid) 1 (Or.inr rfl))
    (OneOpenAlong_singleton d _ 1 (Or.inr rfl) (Or.inl rfl))

/-- The constructor of a session takes the number of open devices from 0 to 1
when it returns and leaves it at 0 when it throws. -/
theorem new_opens_one (d : Driver) (BufferCount : Nat) (camInfo : VmbCameraInfo)
    (m fuel : Nat) (opened : Run CameraAccessLifetime)
    (h : CameraAccessLifetime.new d BufferCount camInfo m fuel = some opened) :
    OneOpenAlong d opened.trace 0
      (match opened.result with
       | Except.ok _ => 1
       | Except.error _ => 0) := by
  rcases CameraAccessLifetime_new_shape d BufferCount camInfo m fuel opened h with
    ⟨hno, ht, e, he⟩ | ⟨hyes, mid, hmid, ⟨ht, e, he⟩ | ⟨ht, camera, hcam⟩⟩
  · rw [ht, he]
    have hstep : openAfter d 0 (Event.VmbCameraOpen camInfo.cameraIdString) = 0 := by
      simp [openAfter, hno]
    have key := OneOpenAlong_singleton d (Event.VmbCameraOpen camInfo.cameraIdString) 0
      (Or.inl rfl) (Or.inl hstep)
    rw [hstep] at key
    exact key
  · rw [ht, he]
    have hstep : openAfter d 0 (Event.VmbCameraOpen camInfo.cameraIdString) = 1 := by
      simp [openAfter, hyes]
    have key := OneOpenAlong_singleton d (Event.VmbCameraOpen camInfo.cameraIdString) 0
      (Or.inl rfl) (Or.inr hstep)
    rw [hstep] at key
    have h2 := OneOpenAlong_append d _ _ 0 1 1 key
      (OneOpenAlong_idle d mid (neutral_idle mid hmid) 1 (Or.inr rfl))
    exact OneOpenAlong_append d _ _ 0 1 0 h2
      (OneOpenAlong_singleton d _ 1 (Or.inr rfl) (Or.inl rfl))
  · rw [ht, hcam]
    have hstep : openAfter d 0 (Event.VmbCameraOpen camInfo.cameraIdString) = 1 := by
      simp [openAfter, hyes]
    have key := OneOpenAlong_singleton d (Event.VmbCameraOpen camInfo.cameraIdString) 0
      (Or.inl rfl) (Or.inr hstep)
    rw [hstep] at key
    exact OneOpenAlong_append d _ _ 0 1 1 key
      (OneOpenAlong_idle d mid (neutral_idle mid hmid) 1 (Or.inr rfl))

theorem sessions_zero_or_one (m : AcquisitionManager) : m.sessions = 0 ∨ m.sessions = 1 := by
  unfold AcquisitionManager.sessions
  split
  · exact Or.inr rfl
  · exact Or.inl rfl

theorem StopAcquisition_oneOpen (d : Driver) (conv : TranscodeResult) (fuel : Nat)
    (m : AcquisitionManager) (stopped : ManagerResult)
    (h : m.StopAcquisition d conv fuel = some stopped) :
    OneOpenAlong d stopped.trace m.sessions stopped.state.sessions := by
  have hq := OneOpenAlong_idle d _ (neutral_idle _ (Stop_neutral conv m.m_imageTranscoder))
  obtain ⟨_, hshape⟩ := StopAcquisition_shape d conv fuel m stopped h
  rcases hshape with ⟨_, hcam, ht⟩ | ⟨_, hnone, ⟨hcam, ht⟩ | ⟨camera, closed, hcam, hclosed, ht⟩⟩
  · have hs : stopped.state.sessions = m.sessions := by
      simp [AcquisitionManager.sessions, hcam]
    rw [ht, hs]
    exact hq _ (sessions_zero_or_one m)
  · have hs : stopped.state.sessions = m.sessions := by
      simp [AcquisitionManager.sessions, hcam, hnone]
    rw [ht, hs]
    exact hq _ (sessions_zero_or_one m)
  · have hs : stopped.state.sessions = 0 := by
      simp [AcquisitionManager.sessions, hnone]
    have hm : m.sessions = 1 := by
      simp [AcquisitionManager.sessions, hcam]
    rw [ht, hs, hm]
    exact OneOpenAlong_append d _ _ 1 1 0 (hq 1 (Or.inr rfl)) (dtor_closes_one d camera fuel closed hclosed)

theorem Start_trace_idle (s : ImageTranscoder) :
    ∀ e ∈ s.Start.trace, e.isCameraOpen = false ∧ e.isCameraClose = false := by
  obtain ⟨term, task, thread⟩ := s
  cases term <;> cases thread <;> simp [ImageTranscoder.Start, Event.isCameraOpen,
    Event.isCameraClose]

/-- The outcomes of `StartAcquisition` when the queue is stopped without a
crash: an exception of the constructor, or the calls of the stop, of the
constructor and of `Start`, in this order. -/
theorem StartAcquisition_shape (d : Driver) (BufferCount : Nat) (conv : TranscodeResult)
    (fuel this : Nat) (m : AcquisitionManager) (cameraInfo : VmbCameraInfo) (r : ManagerResult)
    (h : m.StartAcquisition d BufferCount conv fuel this cameraInfo = some r) :
    ∃ stopped, m.StopAcquisition d conv fuel = some stopped ∧
      ((stopped.failure ≠ none ∧ r = stopped) ∨
        (stopped.failure = none ∧
          ∃ opened, CameraAccessLifetime.new d BufferCount cameraInfo this fuel = some opened ∧
            ((∃ e, opened.result = Except.error e ∧ r.state = stopped.state ∧
                r.trace = stopped.trace ++ opened.trace ∧
                r.failure = some (Failure.exception e)) ∨
              (∃ camera, opened.result = Except.ok camera ∧
                r.state = { m_openCamera := some camera,
                            m_imageTranscoder := stopped.state.m_imageTranscoder.Start.state } ∧
                r.trace = stopped.trace ++ opened.trace
                  ++ stopped.state.m_imageTranscoder.Start.trace ∧
                r.failure = stopped.state.m_imageTranscoder.Start.failure)))) := by
  unfold AcquisitionManager.StartAcquisition at h
  split at h
  · cases h
  · rename_i stopped hstop
    refine ⟨stopped, hstop, ?_⟩
    have hshape := (StopAcquisition_shape d conv fuel m stopped hstop).2
    split at h
    · rename_i f hf
      simp only [Option.some.injEq] at h
      exact Or.inl ⟨by simp [hf], h.symm⟩
    · rename_i hok
      refine Or.inr ⟨hok, ?_⟩
      have hnone : stopped.state.m_openCamera = none := by
        rcases hshape with ⟨hne, _, _⟩ | ⟨_, hcam, _⟩
        · exact absurd hok hne
        · exact hcam
      split at h
      · cases h
      · rename_i opened hopen
        refine ⟨opened, hopen, ?_⟩
        split at h
        · rename_i e he
          simp only [Option.some.injEq] at h
          subst h
          exact Or.inl ⟨e, he, rfl, rfl, rfl⟩
        · rename_i camera hcam
          rw [hnone] at h
          simp only [Option.some.injEq] at h
          subst h
          exact Or.inr ⟨camera, hcam, rfl, by simp, rfl⟩

theorem StartAcquisition_oneOpen (d : Driver) (BufferCount : Nat) (conv : TranscodeResult)
    (fuel this : Nat) (m : AcquisitionManager) (cameraInfo : VmbCameraInfo) (r : ManagerResult)
    (h : m.StartAcquisition d BufferCount conv fuel this cameraInfo = some r) :
    OneOpenAlong d r.trace m.sessions r.state.sessions := by
  obtain ⟨stopped, hstop, hcases⟩ :=
    StartAcquisition_shape d BufferCount conv fuel this m cameraInfo r h
  have hstopped := StopAcquisition_oneOpen d conv fuel m stopped hstop
  rcases hcases with ⟨_, hr⟩ | ⟨hok, opened, hopen, hres⟩
  · rw [hr]; exact hstopped
  · have hnone : stopped.state.m_openCamera = none := by
      rcases (StopAcquisition_shape d conv fuel m stopped hstop).2 with
        ⟨hne, _, _⟩ | ⟨_, hcam, _⟩
      · exact absurd hok hne
      · exact hcam
    have hs : stopped.state.sessions = 0 := by simp [AcquisitionManager.sessions, hnone]
    rw [hs] at hstopped
    have hnew := new_opens_one d BufferCount cameraInfo this fuel opened hopen
    rcases hres with ⟨e, he, hstate, htrace, _⟩ | ⟨camera, hcam, hstate, htrace, _⟩
    · rw [he] at hnew
      rw [htrace, hstate, hs]
      exact OneOpenAlong_append d _ _ _ 0 0 hstopped hnew
    · rw [hcam] at hnew
      have hone : r.state.sessions = 1 := by simp [AcquisitionManager.sessions, hstate]
      rw [htrace, hone]
      exact OneOpenAlong_append d _ _ _ 1 1 (OneOpenAlong_append d _ _ _ 0 1 hstopped hnew)
        (OneOpenAlong_idle d _ (Start_trace_idle _) 1 (Or.inr rfl))

theorem call_oneOpen (d : Driver) (BufferCount fuel this : Nat) (m : AcquisitionManager)
    (c : ManagerCall) (r : ManagerResult) (h : m.call d BufferCount fuel this c = some r) :
    OneOpenAlong d r.trace m.sessions r.state.sessions := by
  cases c with
  | StartAcquisition cameraInfo conv =>
    exact StartAcquisition_oneOpen d BufferCount conv fuel this m cameraInfo r h
  | StopAcquisition conv => exact StopAcquisition_oneOpen d conv fuel m r h
  | FrameReceived streamHandle frame =>
    simp only [AcquisitionManager.call, Option.some.injEq] at h
    subst h
    exact OneOpenAlong_idle d _
      (neutral_idle _ (PostImage_neutral m.m_imageTranscoder streamHandle _ frame)) _
      (sessions_zero_or_one m)
  | workerStep conv =>
    simp only [AcquisitionManager.call, Option.some.injEq] at h
    subst h
    exact OneOpenAlong_idle d _
      (neutral_idle _ (TranscodeLoopMember_neutral conv m.m_imageTranscoder)) _
      (sessions_zero_or_one m)

theorem run_oneOpen (d : Driver) (BufferCount fuel this : Nat) :
    ∀ (calls : List ManagerCall) (m s : AcquisitionManager) (trace : List Event),
      AcquisitionManager.run d BufferCount fuel this calls m = some (s, trace) →
      OneOpenAlong d trace m.sessions s.sessions := by
  intro calls
  induction calls with
  | nil =>
    intro m s trace h
    simp only [AcquisitionManager.run, Option.some.injEq, Prod.mk.injEq] at h
    obtain ⟨h1, h2⟩ := h
    subst h1 h2
    exact OneOpenAlong_idle d [] (by simp) _ (sessions_zero_or_one m)
  | cons c rest ih =>
    intro m s trace h
    rw [AcquisitionManager.run] at h
    split at h
    · cases h
    · rename_i r hr
      have hcall := call_oneOpen d BufferCount fuel this m c r hr
      split at h
      · simp only [Option.some.injEq, Prod.mk.injEq] at h
        obtain ⟨h1, h2⟩ := h
        subst h1 h2
        exact hcall
      · simp only [Option.map_eq_some'] at h
        obtain ⟨x, hx, h2⟩ := h
        simp only [Prod.mk.injEq] at h2
        obtain ⟨h3, h4⟩ := h2
        subst h3 h4
        exact OneOpenAlong_append d _ _ _ _ _ hcall (ih r.state x.1 x.2 hx)

theorem Start_ok (s : ImageTranscoder) (h : s.Start.failure = none) :
    s.Start.trace = [Event.threadStart] ∧ s.Start.state.m_terminated = false := by
  obtain ⟨term, task, thread⟩ := s
  cases term <;> cases thread <;> first | exact ⟨rfl, rfl⟩ | cases h

/-- C21: a `StartAcquisition` that returns has made, in this order, the calls
of `StopAcquisition` (after which the manager holds no session and the queue
is terminated), the calls of the constructor of the new session, which begin
with `VmbCameraOpen`, and the start of the worker thread.  Over every sequence
of `StartAcquisition` and `StopAcquisition` calls on a freshly constructed
manager, with frames delivered and worker transitions in between, the number
of open devices (successful `VmbCameraOpen` calls minus `VmbCameraClose`
calls) is 0 or 1 after every single driver call, and at the end it is the
number of sessions the manager holds. -/
theorem at_most_one_session_open (d : Driver) (BufferCount fuel this : Nat)
    (calls : List ManagerCall) (s : AcquisitionManager) (trace : List Event)
    (hrun : AcquisitionManager.run d BufferCount fuel this calls AcquisitionManager.new =
      some (s, trace)) :
    (∀ k, openDevices d (trace.take k) 0 = 0 ∨ openDevices d (trace.take k) 0 = 1) ∧
    openDevices d trace 0 = s.sessions ∧
    (s.sessions = 0 ∨ s.sessions = 1) ∧
    (∀ (m : AcquisitionManager) (cameraInfo : VmbCameraInfo) (conv : TranscodeResult)
        (r : ManagerResult),
      m.StartAcquisition d BufferCount conv fuel this cameraInfo = some r → r.failure = none →
      ∃ stopped opened camera,
        m.StopAcquisition d conv fuel = some stopped ∧
        stopped.state.m_openCamera = none ∧
        stopped.state.m_imageTranscoder.m_terminated = true ∧
        OneOpenAlong d stopped.trace m.sessions 0 ∧
        CameraAccessLifetime.new d BufferCount cameraInfo this fuel = some opened ∧
        opened.result = Except.ok camera ∧
        opened.trace.head? = some (Event.VmbCameraOpen cameraInfo.cameraIdString) ∧
        r.trace = stopped.trace ++ opened.trace ++ [Event.threadStart] ∧
        r.state.m_openCamera = some camera ∧
        r.state.m_imageTranscoder.m_terminated = false) := by
  have hall := run_oneOpen d BufferCount fuel this calls AcquisitionManager.new s trace hrun
  have h0 : AcquisitionManager.new.sessions = 0 := rfl
  rw [h0] at hall
  refine ⟨hall.1, hall.2, sessions_zero_or_one s, ?_⟩
  intro m cameraInfo conv r hstart hok
  obtain ⟨stopped, hstop, hcases⟩ :=
    StartAcquisition_shape d BufferCount conv fuel this m cameraInfo r hstart
  obtain ⟨hqueue, hshape⟩ := StopAcquisition_shape d conv fuel m stopped hstop
  have hstopped := StopAcquisition_oneOpen d conv fuel m stopped hstop
  rcases hcases with ⟨hne, hr⟩ | ⟨hnofail, opened, hopen, hres⟩
  · rw [hr] at hok
    exact absurd hok hne
  · have hnone : stopped.state.m_openCamera = none := by
      rcases hshape with ⟨hne, _, _⟩ | ⟨_, hcam, _⟩
      · exact absurd hnofail hne
      · exact hcam
    have hs : stopped.state.sessions = 0 := by simp [AcquisitionManager.sessions, hnone]
    rw [hs] at hstopped
    rcases hres with ⟨e, _, _, _, hf⟩ | ⟨camera, hcam, hstate, htrace, hf⟩
    · rw [hf] at hok; cases hok
    · rw [hf] at hok
      obtain ⟨hthread, hrunning⟩ := Start_ok _ hok
      refine ⟨stopped, opened, camera, hstop, hnone, ?_, hstopped, hopen, hcam, ?_, ?_, ?_, ?_⟩
      · rw [hqueue]; exact Stop_state_terminated conv _
      · rcases CameraAccessLifetime_new_shape d BufferCount cameraInfo this fuel opened hopen
          with ⟨_, ht, _⟩ | ⟨_, mid, _, ⟨ht, _⟩ | ⟨ht, _⟩⟩ <;> (rw [ht]; rfl)
      · rw [htrace, hthread]
      · rw [hstate]
      · rw [hstate]; exact hrunning

theorem at_most_one_session_open_witness :
    ∃ s trace,
      AcquisitionManager.run (exDriver 64 (0, 8)) 3 10 1 exCalls AcquisitionManager.new =
        some (s, trace) ∧
      s.m_openCamera = none ∧
      trace.countP Event.isCameraOpen = 2 ∧
      trace.countP Event.isCameraClose = 2 ∧
      (∀ k, openDevices (exDriver 64 (0, 8)) (trace.take k) 0 = 0 ∨
        openDevices (exDriver 64 (0, 8)) (trace.take k) 0 = 1) ∧
      openDevices (exDriver 64 (0, 8)) trace 0 = 0 :=
  have hsome : (AcquisitionManager.run (exDriver 64 (0, 8)) 3 10 1 exCalls
      AcquisitionManager.new).isSome = true := by decide
  have hrun := (Option.some_get hsome).symm
  have key := at_most_one_session_open (exDriver 64 (0, 8)) 3 10 1 exCalls _ _ hrun
  ⟨_, _, hrun, by decide, by decide, by decide, key.1, by
    rw [key.2.1]; decide⟩

/-! ## Lemmas on the packet size adjustment -/

theorem allocate_noAdjust (d : Driver) (p a count : Nat) (frames : List Frame) :
    ∀ e ∈ (AcquisitionLifetime.allocate d p a count frames).1, e.isAdjustRun = false := by
  intro e he
  rw [allocate_trace_mem d p a count frames e he]; rfl

theorem announce_noAdjust (d : Driver) (h : VmbHandle) (m index : Nat) (frames : List Frame)
    (err : VmbError) :
    ∀ e ∈ (AcquisitionLifetime.announce d h m index frames err).1, e.isAdjustRun = false := by
  intro e he
  obtain ⟨f, hf⟩ := announce_trace_mem d h m frames index err e he
  rw [hf]; rfl

theorem enqueue_noAdjust (d : Driver) (h : VmbHandle) (index : Nat) (frames : List Frame)
    (err : VmbError) (count : Nat) :
    ∀ e ∈ (AcquisitionLifetime.enqueue d h index frames err count).1, e.isAdjustRun = false := by
  intro e he
  obtain ⟨f, hf⟩ := enqueue_trace_mem d h frames index err count e he
  rw [hf]; rfl

theorem freeAll_noAdjust (frames : List Frame) : ∀ e ∈ Frame.freeAll frames, e.isAdjustRun = false := by
  intro e he
  obtain ⟨b, hb⟩ := freeAll_mem frames e he
  rw [hb]; rfl

theorem RunCommand_noAdjust (d : Driver) (h : VmbHandle) (c : String) (fuel : Nat)
    (r : Run Unit) (hc : c ≠ AdjustPackageSizeCommand) (hr : RunCommand d h c fuel = some r) :
    ∀ e ∈ r.trace, e.isAdjustRun = false := by
  intro e he
  rcases RunCommand_trace_mem d h c fuel r hr e he with h1 | h1
  · rw [h1]; simp [Event.isAdjustRun, hc]
  · rw [h1]; rfl

theorem noAdjust_append (a b : List Event) (ha : ∀ e ∈ a, e.isAdjustRun = false)
    (hb : ∀ e ∈ b, e.isAdjustRun = false) : ∀ e ∈ a ++ b, e.isAdjustRun = false := by
  intro e he
  rcases List.mem_append.1 he with h | h
  · exact ha e h
  · exact hb e h

theorem noAdjust_singleton (x : Event) (hx : x.isAdjustRun = false) :
    ∀ e ∈ [x], e.isAdjustRun = false := by
  intro e he
  rw [List.mem_singleton.1 he]; exact hx

theorem AcquisitionLifetime_new_noAdjust (d : Driver) (BufferCount : Nat) (h : VmbHandle)
    (p a m fuel : Nat) (r : Run AcquisitionLifetime)
    (hr : AcquisitionLifetime.new d BufferCount h p a m fuel = some r) :
    ∀ e ∈ r.trace, e.isAdjustRun = false := by
  unfold AcquisitionLifetime.new at hr
  simp only at hr
  split at hr
  · simp only [Option.some.injEq] at hr
    subst hr
    exact noAdjust_append _ _ (allocate_noAdjust _ _ _ _ _) (freeAll_noAdjust _)
  · split at hr
    · simp only [Option.some.injEq] at hr
      subst hr
      exact noAdjust_append _ _ (noAdjust_append _ _ (noAdjust_append _ _
        (allocate_noAdjust _ _ _ _ _) (announce_noAdjust _ _ _ _ _ _))
        (noAdjust_singleton _ rfl)) (freeAll_noAdjust _)
    · split at hr
      · simp only [Option.some.injEq] at hr
        subst hr
        exact noAdjust_append _ _ (noAdjust_append _ _ (noAdjust_append _ _
          (allocate_noAdjust _ _ _ _ _) (announce_noAdjust _ _ _ _ _ _))
          (noAdjust_singleton _ rfl)) (freeAll_noAdjust _)
      · split at hr
        · simp only [Option.some.injEq] at hr
          subst hr
          exact noAdjust_append _ _ (noAdjust_append _ _ (noAdjust_append _ _
            (noAdjust_append _ _ (noAdjust_append _ _
            (allocate_noAdjust _ _ _ _ _) (announce_noAdjust _ _ _ _ _ _))
            (noAdjust_singleton _ rfl)) (enqueue_noAdjust _ _ _ _ _ _))
            (noAdjust_singleton _ rfl)) (freeAll_noAdjust _)
        · split at hr
          · cases hr
          · rename_i run hrun
            split at hr
            · simp only [Option.some.injEq] at hr
              subst hr
              exact noAdjust_append _ _ (noAdjust_append _ _ (noAdjust_append _ _
                (noAdjust_append _ _ (noAdjust_append _ _ (noAdjust_append _ _
                (allocate_noAdjust _ _ _ _ _) (announce_noAdjust _ _ _ _ _ _))
                (noAdjust_singleton _ rfl)) (enqueue_noAdjust _ _ _ _ _ _))
                (RunCommand_noAdjust _ _ _ _ _ (by decide) hrun))
                (noAdjust_singleton _ rfl)) (freeAll_noAdjust _)
            · simp only [Option.some.injEq] at hr
              subst hr
              exact noAdjust_append _ _ (noAdjust_append _ _ (noAdjust_append _ _
                (noAdjust_append _ _
                (allocate_noAdjust _ _ _ _ _) (announce_noAdjust _ _ _ _ _ _))
                (noAdjust_singleton _ rfl)) (enqueue_noAdjust _ _ _ _ _ _))
                (RunCommand_noAdjust _ _ _ _ _ (by decide) hrun)

theorem StreamLifetime_new_noAdjust (d : Driver) (BufferCount : Nat) (sh ch : VmbHandle)
    (m fuel : Nat) (r : Run StreamLifetime)
    (hr : StreamLifetime.new d BufferCount sh ch m fuel = some r) :
    ∀ e ∈ r.trace, e.isAdjustRun = false := by
  unfold StreamLifetime.new at hr
  simp only at hr
  split at hr
  · simp only [Option.some.injEq] at hr
    subst hr
    exact noAdjust_singleton _ rfl
  · split at hr
    · simp only [Option.some.injEq] at hr
      subst hr
      exact noAdjust_singleton _ rfl
    · split at hr
      · cases hr
      · rename_i life hlife
        simp only [Option.some.injEq] at hr
        subst hr
        intro e he
        simp only [List.mem_cons] at he
        rcases he with h1 | h1 | h1
        · rw [h1]; rfl
        · rw [h1]; rfl
        · exact AcquisitionLifetime_new_noAdjust _ _ _ _ _ _ _ _ hlife e h1

theorem withAdjust_allocate (d : Driver) (run : VmbHandle → VmbError)
    (done : VmbHandle → Nat → VmbError × Bool) (size : VmbHandle → VmbError × Int)
    (p a : Nat) :
    ∀ count frames,
      AcquisitionLifetime.allocate (d.withAdjust run done size) p a count frames =
        AcquisitionLifetime.allocate d p a count frames := by
  intro count
  induction count with
  | zero => intro frames; rfl
  | succ n ih =>
    intro frames
    rw [AcquisitionLifetime.allocate, AcquisitionLifetime.allocate]
    have hf : Frame.new (d.withAdjust run done size) frames.length p a =
        Frame.new d frames.length p a := rfl
    rw [hf]
    split
    · rfl
    · rw [ih]

theorem withAdjust_announce (d : Driver) (run : VmbHandle → VmbError)
    (done : VmbHandle → Nat → VmbError × Bool) (size : VmbHandle → VmbError × Int)
    (h : VmbHandle) (m : Nat) :
    ∀ frames index err,
      AcquisitionLifetime.announce (d.withAdjust run done size) h m index frames err =
        AcquisitionLifetime.announce d h m index frames err := by
  intro frames
  induction frames with
  | nil => intro index err; rfl
  | cons frame rest ih =>
    intro index err
    rw [AcquisitionLifetime.announce, AcquisitionLifetime.announce]
    have hf : (d.withAdjust run done size).VmbFrameAnnounce = d.VmbFrameAnnounce := rfl
    simp only [ih, hf]

theorem withAdjust_enqueue (d : Driver) (run : VmbHandle → VmbError)
    (done : VmbHandle → Nat → VmbError × Bool) (size : VmbHandle → VmbError × Int)
    (h : VmbHandle) :
    ∀ frames index err count,
      AcquisitionLifetime.enqueue (d.withAdjust run done size) h index frames err count =
        AcquisitionLifetime.enqueue d h index frames err count := by
  intro frames
  induction frames with
  | nil => intro index err count; rfl
  | cons frame rest ih =>
    intro index err count
    rw [AcquisitionLifetime.enqueue, AcquisitionLifetime.enqueue]
    have hf : (d.withAdjust run done size).VmbCaptureFrameQueue = d.VmbCaptureFrameQueue := rfl
    simp only [ih, hf]

theorem withAdjust_poll (d : Driver) (run : VmbHandle → VmbError)
    (done : VmbHandle → Nat → VmbError × Bool) (size : VmbHandle → VmbError × Int)
    (h : VmbHandle) (c : String) (hc : c ≠ AdjustPackageSizeCommand) :
    ∀ fuel k, RunCommand.poll (d.withAdjust run done size) h c fuel k =
      RunCommand.poll d h c fuel k := by
  intro fuel
  induction fuel with
  | zero => intro k; rfl
  | succ n ih =>
    intro k
    rw [RunCommand.poll, RunCommand.poll]
    have hf : (d.withAdjust run done size).VmbFeatureCommandIsDone h c k =
        d.VmbFeatureCommandIsDone h c k := by
      simp [Driver.withAdjust, hc]
    simp only [ih, hf]

theorem withAdjust_RunCommand (d : Driver) (run : VmbHandle → VmbError)
    (done : VmbHandle → Nat → VmbError × Bool) (size : VmbHandle → VmbError × Int)
    (h : VmbHandle) (c : String) (hc : c ≠ AdjustPackageSizeCommand) (fuel : Nat) :
    RunCommand (d.withAdjust run done size) h c fuel = RunCommand d h c fuel := by
  unfold RunCommand
  have hf : (d.withAdjust run done size).VmbFeatureCommandRun h c =
      d.VmbFeatureCommandRun h c := by
    simp [Driver.withAdjust, hc]
  simp only [withAdjust_poll d run done size h c hc, hf]

theorem withAdjust_AcquisitionLifetime_new (d : Driver) (run : VmbHandle → VmbError)
    (done : VmbHandle → Nat → VmbError × Bool) (size : VmbHandle → VmbError × Int)
    (BufferCount : Nat) (h : VmbHandle) (p a m fuel : Nat) :
    AcquisitionLifetime.new (d.withAdjust run done size) BufferCount h p a m fuel =
      AcquisitionLifetime.new d BufferCount h p a m fuel := by
  unfold AcquisitionLifetime.new
  have hf : (d.withAdjust run done size).VmbCaptureStart = d.VmbCaptureStart := rfl
  simp only [withAdjust_allocate, withAdjust_announce, withAdjust_enqueue, hf,
    withAdjust_RunCommand d run done size h "AcquisitionStart" (by decide)]

theorem withAdjust_StreamLifetime_new (d : Driver) (run : VmbHandle → VmbError)
    (done : VmbHandle → Nat → VmbError × Bool) (size : VmbHandle → VmbError × Int)
    (BufferCount : Nat) (sh ch : VmbHandle) (m fuel : Nat) :
    StreamLifetime.new (d.withAdjust run done size) BufferCount sh ch m fuel =
      StreamLifetime.new d BufferCount sh ch m fuel := by
  unfold StreamLifetime.new
  have hp : (d.withAdjust run done size).VmbPayloadSizeGet = d.VmbPayloadSizeGet := rfl
  have ha : StreamLifetime.bufferAlignment (d.withAdjust run done size) sh =
      StreamLifetime.bufferAlignment d sh := by
    have hne : ("StreamBufferAlignment" = "GVSPPacketSize") = False := by decide
    simp only [StreamLifetime.bufferAlignment, Driver.withAdjust, hne, if_false]
  simp only [withAdjust_AcquisitionLifetime_new, hp, ha]

theorem adjustPoll_exact (d : Driver) (sh : VmbHandle) (fuel : Nat) :
    ∀ j k, j ≤ k → k < j + fuel →
      (∀ i, j ≤ i → i < k →
        (d.VmbFeatureCommandIsDone sh AdjustPackageSizeCommand i).1 = VmbErrorSuccess ∧
          (d.VmbFeatureCommandIsDone sh AdjustPackageSizeCommand i).2 = false) →
      (VmbErrorSuccess ≠ (d.VmbFeatureCommandIsDone sh AdjustPackageSizeCommand k).1 ∨
        (d.VmbFeatureCommandIsDone sh AdjustPackageSizeCommand k).2 = true) →
      CameraAccessLifetime.adjustPoll d sh fuel j =
        some (List.replicate (k - j + 1)
          (Event.VmbFeatureCommandIsDone sh AdjustPackageSizeCommand)) := by
  induction fuel with
  | zero => intro j k h1 h2; omega
  | succ fuel ih =>
    intro j k hjk hlt hearlier hend
    rw [CameraAccessLifetime.adjustPoll]
    by_cases hk : j = k
    · subst hk
      by_cases hfail :
          VmbErrorSuccess ≠ (d.VmbFeatureCommandIsDone sh AdjustPackageSizeCommand j).1
      · rw [if_pos hfail]
        simp
      · rcases hend with h1 | h1
        · exact absurd h1 hfail
        · have hnd : ¬ (d.VmbFeatureCommandIsDone sh AdjustPackageSizeCommand j).2 = false := by
            rw [h1]; simp
          rw [if_neg hfail, if_neg hnd]
          simp
    · have hj := hearlier j (Nat.le_refl _) (by omega)
      have hnf : ¬ VmbErrorSuccess ≠
          (d.VmbFeatureCommandIsDone sh AdjustPackageSizeCommand j).1 :=
        fun hne => hne hj.1.symm
      rw [if_neg hnf, if_pos hj.2,
        ih (j + 1) k (by omega) (by omega) (fun i h1 h2 => hearlier i (by omega) h2) hend]
      have hlen : k - j + 1 = (k - (j + 1) + 1) + 1 := by omega
      simp only [Option.map_some', hlen, List.replicate_succ]

/-! ## Claims on the packet size adjustment -/

/-- C23: the packet size adjustment does not decide session open.  Let the
device open and the camera info name a device and a stream, and let the
constructor of the stream on the driver `d` make the calls `stream.trace` and
end with `stream.result`.  Whatever the driver answers to the run of the
adjustment command (`run`), to the polls of its completion (`done`) and to
the read of the packet size (`size`), provided a poll fails or reports done
within the fuel, the constructor of the session ends with `stream.result` and
makes the calls `stream.trace` (and the close of the device when it throws)
after the adjustment block.  The block is the run alone when the run fails;
otherwise the run, `k + 1` polls when poll `k` is the first that fails or
reports done, the read of the packet size and the print.  The command is run
exactly once in the whole constructor. -/
theorem adjust_is_best_effort (d : Driver) (BufferCount : Nat) (camInfo : VmbCameraInfo)
    (m fuel : Nat) (run : VmbHandle → VmbError) (done : VmbHandle → Nat → VmbError × Bool)
    (size : VmbHandle → VmbError × Int) (stream : Run StreamLifetime)
    (hopen : (d.VmbCameraOpen camInfo.cameraIdString).1 = VmbErrorSuccess)
    (hinfo : (d.VmbCameraInfoQueryByHandle
      (d.VmbCameraOpen camInfo.cameraIdString).2).1 = VmbErrorSuccess)
    (hdev : (d.VmbCameraInfoQueryByHandle
      (d.VmbCameraOpen camInfo.cameraIdString).2).2.localDeviceHandle ≠ 0)
    (hstream : (d.VmbCameraInfoQueryByHandle
      (d.VmbCameraOpen camInfo.cameraIdString).2).2.streamCount ≠ 0)
    (hlater : StreamLifetime.new d BufferCount
      (d.VmbCameraInfoQueryByHandle
        (d.VmbCameraOpen camInfo.cameraIdString).2).2.streamHandle0
      (d.VmbCameraOpen camInfo.cameraIdString).2 m fuel = some stream)
    (hends : VmbErrorSuccess ≠ run (d.VmbCameraInfoQueryByHandle
        (d.VmbCameraOpen camInfo.cameraIdString).2).2.streamHandle0 ∨
      ∃ k, k < fuel ∧
        (∀ i, i < k →
          (done (d.VmbCameraInfoQueryByHandle
            (d.VmbCameraOpen camInfo.cameraIdString).2).2.streamHandle0 i).1
              = VmbErrorSuccess ∧
          (done (d.VmbCameraInfoQueryByHandle
            (d.VmbCameraOpen camInfo.cameraIdString).2).2.streamHandle0 i).2 = false) ∧
        (VmbErrorSuccess ≠ (done (d.VmbCameraInfoQueryByHandle
            (d.VmbCameraOpen camInfo.cameraIdString).2).2.streamHandle0 k).1 ∨
          (done (d.VmbCameraInfoQueryByHandle
            (d.VmbCameraOpen camInfo.cameraIdString).2).2.streamHandle0 k).2 = true)) :
    ∃ adjust,
      CameraAccessLifetime.new (d.withAdjust run done size) BufferCount camInfo m fuel =
        some { trace := [Event.VmbCameraOpen camInfo.cameraIdString,
                   Event.VmbCameraInfoQueryByHandle
                     (d.VmbCameraOpen camInfo.cameraIdString).2]
                 ++ adjust ++ stream.trace
                 ++ (match stream.result with
                     | Except.error _ =>
                       [Event.VmbCameraClose (d.VmbCameraOpen camInfo.cameraIdString).2]
                     | Except.ok _ => []),
               result :=
                 match stream.result with
                 | Except.error e => Except.error e
                 | Except.ok life =>
                   Except.ok { m_cameraHandle := (d.VmbCameraOpen camInfo.cameraIdString).2,
                               m_streamLife := some life } } ∧
      (VmbErrorSuccess ≠ run (d.VmbCameraInfoQueryByHandle
          (d.VmbCameraOpen camInfo.cameraIdString).2).2.streamHandle0 →
        adjust = [Event.VmbFeatureCommandRun (d.VmbCameraInfoQueryByHandle
          (d.VmbCameraOpen camInfo.cameraIdString).2).2.streamHandle0
          AdjustPackageSizeCommand]) ∧
      (VmbErrorSuccess = run (d.VmbCameraInfoQueryByHandle
          (d.VmbCameraOpen camInfo.cameraIdString).2).2.streamHandle0 →
        ∀ k,
          (∀ i, i < k →
            (done (d.VmbCameraInfoQueryByHandle
              (d.VmbCameraOpen camInfo.cameraIdString).2).2.streamHandle0 i).1
                = VmbErrorSuccess ∧
            (done (d.VmbCameraInfoQueryByHandle
              (d.VmbCameraOpen camInfo.cameraIdString).2).2.streamHandle0 i).2 = false) →
          (VmbErrorSuccess ≠ (done (d.VmbCameraInfoQueryByHandle
              (d.VmbCameraOpen camInfo.cameraIdString).2).2.streamHandle0 k).1 ∨
            (done (d.VmbCameraInfoQueryByHandle
              (d.VmbCameraOpen camInfo.cameraIdString).2).2.streamHandle0 k).2 = true) →
          adjust = Event.VmbFeatureCommandRun (d.VmbCameraInfoQueryByHandle
                (d.VmbCameraOpen camInfo.cameraIdString).2).2.streamHandle0
                AdjustPackageSizeCommand
              :: List.replicate (k + 1) (Event.VmbFeatureCommandIsDone
                (d.VmbCameraInfoQueryByHandle
                  (d.VmbCameraOpen camInfo.cameraIdString).2).2.streamHandle0
                AdjustPackageSizeCommand)
              ++ [Event.VmbFeatureIntGet (d.VmbCameraInfoQueryByHandle
                    (d.VmbCameraOpen camInfo.cameraIdString).2).2.streamHandle0
                    "GVSPPacketSize",
                  Event.printf
                    (if (size (d.VmbCameraInfoQueryByHandle
                        (d.VmbCameraOpen camInfo.cameraIdString).2).2.streamHandle0).1
                          = VmbErrorSuccess
                      then (size (d.VmbCameraInfoQueryByHandle
                        (d.VmbCameraOpen camInfo.cameraIdString).2).2.streamHandle0).2
                      else 0)]) ∧
      adjust.countP Event.isAdjustRun = 1 ∧
      stream.trace.countP Event.isAdjustRun = 0 := by
  generalize hsh : (d.VmbCameraInfoQueryByHandle
    (d.VmbCameraOpen camInfo.cameraIdString).2).2.streamHandle0 = sh at hlater hends ⊢
  have hrunEq : (d.withAdjust run done size).VmbFeatureCommandRun sh AdjustPackageSizeCommand
      = run sh := by simp [Driver.withAdjust]
  have hdoneEq : ∀ i, (d.withAdjust run done size).VmbFeatureCommandIsDone sh
      AdjustPackageSizeCommand i = done sh i := by
    intro i; simp [Driver.withAdjust]
  have hsizeEq : (d.withAdjust run done size).VmbFeatureIntGet sh "GVSPPacketSize" = size sh := by
    simp [Driver.withAdjust]
  have hnoAdjust : stream.trace.countP Event.isAdjustRun = 0 :=
    List.countP_eq_zero.2 fun e he => by
      simp [StreamLifetime_new_noAdjust d BufferCount sh _ m fuel stream hlater e he]
  have hnew : ∀ adjust,
      CameraAccessLifetime.adjustPacketSize (d.withAdjust run done size) sh fuel = some adjust →
      CameraAccessLifetime.new (d.withAdjust run done size) BufferCount camInfo m fuel =
        some { trace := [Event.VmbCameraOpen camInfo.cameraIdString,
                   Event.VmbCameraInfoQueryByHandle
                     (d.VmbCameraOpen camInfo.cameraIdString).2]
                 ++ adjust ++ stream.trace
                 ++ (match stream.result with
                     | Except.error _ =>
                       [Event.VmbCameraClose (d.VmbCameraOpen camInfo.cameraIdString).2]
                     | Except.ok _ => []),
               result :=
                 match stream.result with
                 | Except.error e => Except.error e
                 | Except.ok life =>
                   Except.ok { m_cameraHandle := (d.VmbCameraOpen camInfo.cameraIdString).2,
                               m_streamLife := some life } } := by
    intro adjust hadjust
    have ho : (d.withAdjust run done size).VmbCameraOpen = d.VmbCameraOpen := rfl
    have hi : (d.withAdjust run done size).VmbCameraInfoQueryByHandle =
        d.VmbCameraInfoQueryByHandle := rfl
    unfold CameraAccessLifetime.new
    simp only [ho, hi, hopen, hinfo, ne_eq, not_true_eq_false, if_false, hdev, hstream, hsh,
      hadjust, withAdjust_StreamLifetime_new, hlater]
    cases hres : stream.result <;> simp
  by_cases hrun : VmbErrorSuccess = run sh
  · have hk : ∃ k, k < fuel ∧
        (∀ i, i < k → (done sh i).1 = VmbErrorSuccess ∧ (done sh i).2 = false) ∧
        (VmbErrorSuccess ≠ (done sh k).1 ∨ (done sh k).2 = true) := by
      rcases hends with h | h
      · exact absurd hrun h
      · exact h
    obtain ⟨k0, hk0, hbefore0, hend0⟩ := hk
    have hpoll : ∀ k, (∀ i, i < k → (done sh i).1 = VmbErrorSuccess ∧ (done sh i).2 = false) →
        (VmbErrorSuccess ≠ (done sh k).1 ∨ (done sh k).2 = true) → k = k0 := by
      intro k hbefore hend
      rcases Nat.lt_trichotomy k k0 with h | h | h
      · have hb := hbefore0 k h
        rcases hend with h1 | h1
        · exact absurd hb.1.symm h1
        · rw [hb.2] at h1; cases h1
      · exact h
      · have hb := hbefore k0 h
        rcases hend0 with h1 | h1
        · exact absurd hb.1.symm h1
        · rw [hb.2] at h1; cases h1
    have hadjustPoll := adjustPoll_exact (d.withAdjust run done size) sh fuel 0 k0
      (Nat.zero_le _) (by omega)
      (fun i _ hi => by rw [hdoneEq]; exact hbefore0 i hi)
      (by rw [hdoneEq]; exact hend0)
    have hadjust : CameraAccessLifetime.adjustPacketSize (d.withAdjust run done size) sh fuel =
        some (Event.VmbFeatureCommandRun sh AdjustPackageSizeCommand
          :: List.replicate (k0 + 1) (Event.VmbFeatureCommandIsDone sh AdjustPackageSizeCommand)
          ++ [Event.VmbFeatureIntGet sh "GVSPPacketSize",
              Event.printf (if (size sh).1 = VmbErrorSuccess then (size sh).2 else 0)]) := by
      unfold CameraAccessLifetime.adjustPacketSize
      rw [hrunEq, if_pos hrun, hadjustPoll, hsizeEq]
      simp
    refine ⟨_, hnew _ hadjust, fun h => absurd hrun h, ?_, ?_, hnoAdjust⟩
    · intro _ k hbefore hend
      rw [hpoll k hbefore hend]
    · have hrep : (List.replicate (k0 + 1)
          (Event.VmbFeatureCommandIsDone sh AdjustPackageSizeCommand)).countP
          Event.isAdjustRun = 0 :=
        List.countP_eq_zero.2 fun e he => by
          rw [List.eq_of_mem_replicate he]; simp [Event.isAdjustRun]
      simp [List.countP_cons, List.countP_append, hrep, Event.isAdjustRun]
  · have hadjust : CameraAccessLifetime.adjustPacketSize (d.withAdjust run done size) sh fuel =
        some [Event.VmbFeatureCommandRun sh AdjustPackageSizeCommand] := by
      unfold CameraAccessLifetime.adjustPacketSize
      rw [hrunEq, if_neg hrun]
    refine ⟨_, hnew _ hadjust, fun _ => rfl, fun h => absurd h hrun, ?_, hnoAdjust⟩
    simp [Event.isAdjustRun]

theorem adjust_is_best_effort_witness :
    ∃ adjust,
      adjust = Event.VmbFeatureCommandRun 21 AdjustPackageSizeCommand
        :: List.replicate 3 (Event.VmbFeatureCommandIsDone 21 AdjustPackageSizeCommand)
        ++ [Event.VmbFeatureIntGet 21 "GVSPPacketSize", Event.printf 0] ∧
      adjust.countP Event.isAdjustRun = 1 ∧
      (CameraAccessLifetime.new exDriverAdjustFails 3 exCamera 1 10).map
          (fun r => r.trace.take 8) =
        some ([Event.VmbCameraOpen "DEV_1", Event.VmbCameraInfoQueryByHandle 11] ++ adjust) := by
  have hsome : (StreamLifetime.new (exDriver 64 (0, 8)) 3 21 11 1 10).isSome = true := by
    decide
  obtain ⟨adjust, hnew, _, hshape, hcount, _⟩ :=
    adjust_is_best_effort (exDriver 64 (0, 8)) 3 exCamera 1 10 (fun _ => 0)
      (fun _ k => (if k = 2 then -9 else 0, false)) (fun _ => (-4, 0))
      ((StreamLifetime.new (exDriver 64 (0, 8)) 3 21 11 1 10).get hsome)
      rfl rfl (by decide) (by decide) (Option.some_get hsome).symm
      (Or.inr ⟨2, by decide, by decide, Or.inl (by decide)⟩)
  have hadjust := hshape rfl 2 (by decide) (Or.inl (by decide))
  refine ⟨adjust, hadjust, hcount, ?_⟩
  have hd : exDriverAdjustFails = (exDriver 64 (0, 8)).withAdjust (fun _ => 0)
      (fun _ k => (if k = 2 then -9 else 0, false)) (fun _ => (-4, 0)) := rfl
  rw [hd, hnew, hadjust]
  rfl

/-! ## Lemmas on the device tree model -/

theorem fillMapping_other (key : Nat) :
    ∀ (items : List Item) (index : Nat) (mapping : Nat → ItemPtr),
      (∀ it ∈ items, it.moduleAddress ≠ key) →
      ModuleTreeModel.fillMapping items index mapping key = mapping key := by
  intro items
  induction items with
  | nil => intro index mapping _; rfl
  | cons x rest ih =>
    intro index mapping hne
    rw [ModuleTreeModel.fillMapping,
      ih _ _ (fun it hit => hne it (List.mem_cons_of_mem _ hit))]
    exact Function.update_noteq (fun h => hne x (List.mem_cons_self _ _) h.symm) _ _

theorem fillMapping_at :
    ∀ (items : List Item) (index : Nat) (mapping : Nat → ItemPtr) (p : Nat) (it : Item),
      (items.map Item.moduleAddress).Nodup → items[p]? = some it →
      ModuleTreeModel.fillMapping items index mapping it.moduleAddress =
        ItemPtr.data (index + p) := by
  intro items
  induction items with
  | nil => intro index mapping p it _ h; simp at h
  | cons x rest ih =>
    intro index mapping p it hnodup h
    rw [List.map_cons, List.nodup_cons] at hnodup
    rw [ModuleTreeModel.fillMapping]
    cases p with
    | zero =>
      simp only [List.getElem?_cons_zero, Option.some.injEq] at h
      subst h
      rw [fillMapping_other]
      · simp
      · intro it hit heq
        exact hnodup.1 (List.mem_map.2 ⟨it, hit, heq⟩)
    | succ p =>
      simp only [List.getElem?_cons_succ] at h
      rw [ih (index + 1) _ p it hnodup.2 h]
      congr 1
      omega

/-- One iteration of the third loop, item by item: the item at position `k`
gets its parent pointer and its index, the parent item gets one more child at
the end of its list, and everything else is as before. -/
theorem link_spec (mapping : Nat → ItemPtr) (M : ModuleTreeModel) (k : Nat) (item : Item)
    (md : ModuleData) (par : Item)
    (hitem : M.m_data[k]? = some item) (hmod : item.m_module = some md)
    (hpar : M.deref (mapping md.m_parent) = some par) :
    ∃ M2, M.link mapping k = some M2 ∧ M2.m_data.length = M.m_data.length ∧
      ∀ q, M2.deref q = (M.deref q).map fun x =>
        { m_module := x.m_module,
          m_parent := if q = ItemPtr.data k then mapping md.m_parent else x.m_parent,
          m_indexInParent :=
            if q = ItemPtr.data k then par.m_children.length else x.m_indexInParent,
          m_children :=
            if q = mapping md.m_parent then x.m_children ++ [ItemPtr.data k]
            else x.m_children } := by
  have hk : k < M.m_data.length := by
    rcases List.getElem?_eq_some.1 hitem with ⟨h, _⟩
    exact h
  generalize hP : mapping md.m_parent = P at hpar
  cases P with
  | null => simp [ModuleTreeModel.deref] at hpar
  | pseudoRoot =>
    simp only [ModuleTreeModel.deref, Option.some.injEq] at hpar
    subst hpar
    refine ⟨{ m_pseudoRoot :=
                { M.m_pseudoRoot with
                  m_children := M.m_pseudoRoot.m_children ++ [ItemPtr.data k] },
              m_data := M.m_data.set k
                { item with m_parent := ItemPtr.pseudoRoot,
                            m_indexInParent := M.m_pseudoRoot.m_children.length } },
      ?_, ?_, ?_⟩
    · simp only [ModuleTreeModel.link, hitem, hmod, ModuleData.GetParent, hP,
        ModuleTreeModel.deref, ModuleTreeModel.store]
    · simp
    · intro q
      cases q with
      | null => rfl
      | pseudoRoot => simp [ModuleTreeModel.deref]
      | data j =>
        by_cases hjk : k = j
        · subst hjk
          simp [ModuleTreeModel.deref, List.getElem?_set, hk, hitem]
        · have hne : ¬ j = k := fun h => hjk h.symm
          simp only [ModuleTreeModel.deref, List.getElem?_set, hjk,
            if_false, ItemPtr.data.injEq, hne, reduceCtorEq]
          cases M.m_data[j]? <;> rfl
  | data p =>
    simp only [ModuleTreeModel.deref] at hpar
    have hp : p < M.m_data.length := by
      rcases List.getElem?_eq_some.1 hpar with ⟨h, _⟩
      exact h
    by_cases hpk : k = p
    · subst hpk
      have hsame : par = item := by
        rw [hitem] at hpar
        exact (Option.some.inj hpar).symm
      subst hsame
      refine ⟨{ m_pseudoRoot := M.m_pseudoRoot,
                m_data := (M.m_data.set k
                  { par with m_parent := ItemPtr.data k,
                             m_indexInParent := par.m_children.length }).set k
                  { par with m_parent := ItemPtr.data k,
                             m_indexInParent := par.m_children.length,
                             m_children := par.m_children ++ [ItemPtr.data k] } },
        ?_, ?_, ?_⟩
      · simp only [ModuleTreeModel.link, hitem, hmod, ModuleData.GetParent, hP,
          ModuleTreeModel.deref, ModuleTreeModel.store, List.getElem?_set, hk, if_true]
      · simp
      · intro q
        cases q with
        | null => rfl
        | pseudoRoot => simp [ModuleTreeModel.deref]
        | data j =>
          by_cases hjk : k = j
          · subst hjk
            simp [ModuleTreeModel.deref, List.getElem?_set, hk, hitem]
          · have hne : ¬ j = k := fun h => hjk h.symm
            simp only [ModuleTreeModel.deref, List.getElem?_set, hjk,
              if_false, ItemPtr.data.injEq, hne, reduceCtorEq]
            cases M.m_data[j]? <;> rfl
    · have hkp : ¬ p = k := fun h => hpk h.symm
      refine ⟨{ m_pseudoRoot := M.m_pseudoRoot,
                m_data := (M.m_data.set k
                  { item with m_parent := ItemPtr.data p,
                              m_indexInParent := par.m_children.length }).set p
                  { par with m_children := par.m_children ++ [ItemPtr.data k] } },
        ?_, ?_, ?_⟩
      · simp only [ModuleTreeModel.link, hitem, hmod, ModuleData.GetParent, hP,
          ModuleTreeModel.deref, ModuleTreeModel.store, List.getElem?_set, hpk, if_false, hpar]
      · simp
      · intro q
        cases q with
        | null => rfl
        | pseudoRoot => simp [ModuleTreeModel.deref]
        | data j =>
          by_cases hjp : p = j
          · subst hjp
            simp [ModuleTreeModel.deref, List.getElem?_set, hp, hpar, hkp]
          · have hne : ¬ j = p := fun h => hjp h.symm
            by_cases hjk : k = j
            · subst hjk
              simp [ModuleTreeModel.deref, List.getElem?_set, hk, hitem, hjp, hne]
            · have hne2 : ¬ j = k := fun h => hjk h.symm
              simp only [ModuleTreeModel.deref, List.getElem?_set, hjk,
                hjp, if_false, ItemPtr.data.injEq, hne, hne2, reduceCtorEq]
              cases M.m_data[j]? <;> rfl

/-- The third loop of the constructor, after `k` iterations: the modules are
in place, the pseudo root keeps its index, each item linked so far points to
the item of its module's parent and stands in that item's child list at its
own index, and no child list is longer than `k`. -/
theorem linkUpTo_spec (moduleData : List ModuleData) (mapping : Nat → ItemPtr)
    (hmap : ∀ (i : Nat) (md : ModuleData), moduleData[i]? = some md →
      mapping md.m_parent = ItemPtr.pseudoRoot ∨
        ∃ p, p < moduleData.length ∧ mapping md.m_parent = ItemPtr.data p) :
    ∀ k, k ≤ moduleData.length →
      ∃ M, ModuleTreeModel.linkUpTo mapping
          { m_pseudoRoot := Item.new, m_data := moduleData.map Item.ofModule } k = some M ∧
        M.m_data.length = moduleData.length ∧
        (∀ (i : Nat) (md : ModuleData), moduleData[i]? = some md →
          ∃ it, M.m_data[i]? = some it ∧ it.m_module = some md) ∧
        M.m_pseudoRoot.m_indexInParent = SIZE_MAX ∧
        (∀ (j : Nat) (md : ModuleData) (it : Item), j < k → moduleData[j]? = some md →
          M.m_data[j]? = some it →
          it.m_parent = mapping md.m_parent ∧
            ∃ par, M.deref it.m_parent = some par ∧
              par.m_children[it.m_indexInParent]? = some (ItemPtr.data j)) ∧
        (∀ (q : ItemPtr) (x : Item), M.deref q = some x → x.m_children.length ≤ k) := by
  intro k
  induction k with
  | zero =>
    intro _
    refine ⟨_, rfl, by simp, ?_, rfl, ?_, ?_⟩
    · intro i md hmd
      exact ⟨Item.ofModule md, by simp [hmd], rfl⟩
    · intro j md it hj
      omega
    · intro q x hx
      cases q with
      | null => simp [ModuleTreeModel.deref] at hx
      | pseudoRoot =>
        simp only [ModuleTreeModel.deref, Option.some.injEq] at hx
        subst hx
        simp [Item.new]
      | data j =>
        simp only [ModuleTreeModel.deref, List.getElem?_map, Option.map_eq_some'] at hx
        obtain ⟨md, _, hx2⟩ := hx
        subst hx2
        simp [Item.ofModule]
  | succ k ih =>
    intro hk
    obtain ⟨M, hM, hlen, hmods, hroot, hlinked, hshort⟩ := ih (by omega)
    have hklt : k < moduleData.length := by omega
    obtain ⟨item, hitem, hmod⟩ := hmods k moduleData[k] (List.getElem?_eq_getElem hklt)
    have hvalid := hmap k moduleData[k] (List.getElem?_eq_getElem hklt)
    have hpar : ∃ par, M.deref (mapping (moduleData[k]).m_parent) = some par := by
      rcases hvalid with h | ⟨p, hp, h⟩
      · rw [h]; exact ⟨_, rfl⟩
      · rw [h]
        exact ⟨M.m_data[p], by
          simp only [ModuleTreeModel.deref]
          exact List.getElem?_eq_getElem (by omega)⟩
    obtain ⟨par, hpar⟩ := hpar
    obtain ⟨M2, hlink, hlen2, hderef⟩ := link_spec mapping M k item moduleData[k] par hitem hmod hpar
    have hdata : ∀ i, M2.m_data[i]? = M2.deref (ItemPtr.data i) := fun _ => rfl
    have hdataM : ∀ i, M.m_data[i]? = M.deref (ItemPtr.data i) := fun _ => rfl
    refine ⟨M2, ?_, by rw [hlen2, hlen], ?_, ?_, ?_, ?_⟩
    · rw [ModuleTreeModel.linkUpTo, hM]
      exact hlink
    · intro i md hmd
      obtain ⟨it, hit, hitmod⟩ := hmods i md hmd
      rw [hdata, hderef, ← hdataM, hit]
      exact ⟨_, rfl, hitmod⟩
    · have h := hderef ItemPtr.pseudoRoot
      simp only [ModuleTreeModel.deref, Option.map_some', Option.some.injEq] at h
      rw [h]
      simp [hroot]
    · intro j md it2 hj hmd hit2
      rw [hdata, hderef, ← hdataM] at hit2
      simp only [Option.map_eq_some'] at hit2
      obtain ⟨it, hit, hF⟩ := hit2
      by_cases hjk : j = k
      · subst hjk
        have hmdk : md = moduleData[j] := by
          rw [List.getElem?_eq_getElem hklt] at hmd
          exact (Option.some.inj hmd).symm
        subst hmdk
        subst hF
        simp only [if_true, true_and]
        rw [hderef, hpar]
        refine ⟨_, rfl, ?_⟩
        simp
      · have hjlt : j < k := by omega
        obtain ⟨hparent, par0, hpar0, hchild⟩ := hlinked j md it hjlt hmd hit
        have hne : ¬ ItemPtr.data j = ItemPtr.data k := by
          intro h
          injection h with h
          exact hjk h
        subst hF
        simp only [if_neg hne]
        refine ⟨hparent, ?_⟩
        rw [hderef, hpar0]
        refine ⟨_, rfl, ?_⟩
        simp only
        split
        · have hidx : it.m_indexInParent < par0.m_children.length := by
            rcases List.getElem?_eq_some.1 hchild with ⟨h, _⟩
            exact h
          rw [List.getElem?_append_left hidx]
          exact hchild
        · exact hchild
    · intro q y hy
      rw [hderef] at hy
      simp only [Option.map_eq_some'] at hy
      obtain ⟨x, hx, hF⟩ := hy
      have hxlen := hshort q x hx
      subst hF
      simp only
      split
      · simp only [List.length_append, List.length_singleton]
        omega
      · omega

theorem mapping_null (moduleData : List ModuleData)
    (hnonnull : ∀ md ∈ moduleData, md.address ≠ 0) :
    ModuleTreeModel.mapping (moduleData.map Item.ofModule) 0 = ItemPtr.pseudoRoot := by
  unfold ModuleTreeModel.mapping
  rw [fillMapping_other]
  · simp
  · intro it hit
    obtain ⟨md, hmd, h⟩ := List.mem_map.1 hit
    subst h
    exact hnonnull md hmd

theorem mapping_module (moduleData : List ModuleData)
    (hdistinct : (moduleData.map ModuleData.address).Nodup) (p : Nat) (mp : ModuleData)
    (hp : moduleData[p]? = some mp) :
    ModuleTreeModel.mapping (moduleData.map Item.ofModule) mp.address = ItemPtr.data p := by
  unfold ModuleTreeModel.mapping
  have hmapmap : (moduleData.map Item.ofModule).map Item.moduleAddress =
      moduleData.map ModuleData.address := by
    rw [List.map_map]
    rfl
  have hitem : (moduleData.map Item.ofModule)[p]? = some (Item.ofModule mp) := by
    simp [hp]
  have key := fillMapping_at (moduleData.map Item.ofModule) 0
    (Function.update (fun _ => ItemPtr.null) 0 ItemPtr.pseudoRoot) p (Item.ofModule mp)
    (by rw [hmapmap]; exact hdistinct) hitem
  have haddr : (Item.ofModule mp).moduleAddress = mp.address := rfl
  rw [haddr, Nat.zero_add] at key
  exact key

/-! ## Claims on the device tree model -/

/-- C30: let the modules be distinct objects, each with a parent that is null
or a module of the list, at most 2^31 of them.  The constructor of the model
returns, and the pseudo root keeps the index-in-parent of its construction,
the maximum `size_t`, whose conversion to `int` is -1.  For a valid index that
points to the item of a module: if the module has no parent, `parent` returns
the index with row -1 on the pseudo root, which is not valid; if the module's
parent is the module at position `p` of the list, `parent` returns a valid
index with column 0 that points to the item at position `p`, and its row is
the position of that item in the child list of its own parent item. -/
theorem parent_of_item (moduleData : List ModuleData)
    (hdistinct : (moduleData.map ModuleData.address).Nodup)
    (hnonnull : ∀ md ∈ moduleData, md.address ≠ 0)
    (hclosed : ∀ md ∈ moduleData, md.m_parent = 0 ∨ ∃ p ∈ moduleData, p.address = md.m_parent)
    (hsize : moduleData.length ≤ 2147483648) :
    ∃ model, ModuleTreeModel.new moduleData = some model ∧
      model.m_pseudoRoot.m_indexInParent = SIZE_MAX ∧
      static_cast_int SIZE_MAX = -1 ∧
      ∀ (j : Nat) (md : ModuleData) (index : QModelIndex),
        moduleData[j]? = some md → index.isValid = true →
        index.internalPointer = ItemPtr.data j →
        (md.m_parent = 0 →
          model.parent index = some (createIndex (-1) 0 ItemPtr.pseudoRoot) ∧
          (createIndex (-1) 0 ItemPtr.pseudoRoot).isValid = false) ∧
        (∀ (p : Nat) (mp : ModuleData), moduleData[p]? = some mp → mp.address = md.m_parent →
          ∃ x parentItem grand,
            model.parent index = some x ∧ x.isValid = true ∧
            x.internalPointer = ItemPtr.data p ∧ x.column = 0 ∧
            model.m_data[p]? = some parentItem ∧ parentItem.m_module = some mp ∧
            x.row = (parentItem.m_indexInParent : Int) ∧
            model.deref parentItem.m_parent = some grand ∧
            grand.m_children[parentItem.m_indexInParent]? = some (ItemPtr.data p)) := by
  have hmap : ∀ (i : Nat) (md : ModuleData), moduleData[i]? = some md →
      ModuleTreeModel.mapping (moduleData.map Item.ofModule) md.m_parent = ItemPtr.pseudoRoot ∨
        ∃ p, p < moduleData.length ∧
          ModuleTreeModel.mapping (moduleData.map Item.ofModule) md.m_parent =
            ItemPtr.data p := by
    intro i md hmd
    have hmem : md ∈ moduleData := List.mem_iff_getElem?.2 ⟨i, hmd⟩
    rcases hclosed md hmem with h | ⟨mp, hmp, h⟩
    · rw [h]
      exact Or.inl (mapping_null moduleData hnonnull)
    · obtain ⟨p, hp⟩ := List.mem_iff_getElem?.1 hmp
      have hplt : p < moduleData.length := by
        rcases List.getElem?_eq_some.1 hp with ⟨h1, _⟩
        exact h1
      rw [← h]
      exact Or.inr ⟨p, hplt, mapping_module moduleData hdistinct p mp hp⟩
  obtain ⟨model, hmodel, hlen, hmods, hroot, hlinked, hshort⟩ :=
    linkUpTo_spec moduleData (ModuleTreeModel.mapping (moduleData.map Item.ofModule)) hmap
      moduleData.length (Nat.le_refl _)
  have hcast : static_cast_int SIZE_MAX = -1 := by
    unfold static_cast_int SIZE_MAX
    norm_num
  refine ⟨model, ?_, hroot, hcast, ?_⟩
  · unfold ModuleTreeModel.new
    simp only [List.length_map]
    exact hmodel
  · intro j md index hmd hvalid hptr
    have hjlt : j < moduleData.length := by
      rcases List.getElem?_eq_some.1 hmd with ⟨h1, _⟩
      exact h1
    obtain ⟨it, hit, _⟩ := hmods j md hmd
    obtain ⟨hparent, _, _, _⟩ := hlinked j md it hjlt hmd hit
    refine ⟨?_, ?_⟩
    · intro htop
      rw [htop, mapping_null moduleData hnonnull] at hparent
      refine ⟨?_, rfl⟩
      simp only [ModuleTreeModel.parent, hvalid, if_true, hptr, ModuleTreeModel.deref, hit,
        hparent, hroot, hcast]
    · intro p mp hmp haddr
      rw [← haddr, mapping_module moduleData hdistinct p mp hmp] at hparent
      have hplt : p < moduleData.length := by
        rcases List.getElem?_eq_some.1 hmp with ⟨h1, _⟩
        exact h1
      obtain ⟨parentItem, hparentItem, hparentMod⟩ := hmods p mp hmp
      obtain ⟨_, grand, hgrand, hchild⟩ := hlinked p mp parentItem hplt hmp hparentItem
      have hidx : parentItem.m_indexInParent < 2147483648 := by
        have h1 : parentItem.m_indexInParent < grand.m_children.length := by
          rcases List.getElem?_eq_some.1 hchild with ⟨h2, _⟩
          exact h2
        have h3 := hshort _ grand hgrand
        omega
      refine ⟨createIndex (parentItem.m_indexInParent : Int) 0 (ItemPtr.data p), parentItem,
        grand, ?_, ?_, rfl, rfl, hparentItem, hparentMod, rfl, hgrand, hchild⟩
      · simp only [ModuleTreeModel.parent, hvalid, if_true, hptr, ModuleTreeModel.deref, hit,
          hparent, hparentItem, static_cast_int_small _ hidx]
      · simp [QModelIndex.isValid, createIndex]

theorem parent_of_item_witness :
    ∃ model, ModuleTreeModel.new exModules = some model ∧
      model.parent (createIndex 0 0 (ItemPtr.data 1)) =
        some (createIndex (-1) 0 ItemPtr.pseudoRoot) ∧
      (createIndex (-1) 0 ItemPtr.pseudoRoot).isValid = false ∧
      (∃ x, model.parent (createIndex 1 0 (ItemPtr.data 4)) = some x ∧ x.isValid = true ∧
        x.internalPointer = ItemPtr.data 2 ∧ x.row = 0) := by
  obtain ⟨model, hnew, _, _, hall⟩ :=
    parent_of_item exModules (by decide) (by decide) (by decide) (by decide)
  refine ⟨model, hnew, ?_, ?_, ?_⟩
  · exact ((hall 1 { address := 100, m_parent := 0 } (createIndex 0 0 (ItemPtr.data 1))
      rfl rfl rfl).1 rfl).1
  · rfl
  · obtain ⟨x, parentItem, grand, hx, hv, hp, _, hitem, _, hrow, _, _⟩ :=
      (hall 4 { address := 400, m_parent := 300 } (createIndex 1 0 (ItemPtr.data 4))
        rfl rfl rfl).2 2 { address := 300, m_parent := 100 } rfl rfl
    refine ⟨x, hx, hv, hp, ?_⟩
    have hmodel : ModuleTreeModel.new exModules = some model := hnew
    have hconcrete : (ModuleTreeModel.new exModules).map
        (fun m => m.m_data[2]?.map Item.m_indexInParent) = some (some 0) := by decide
    rw [hmodel] at hconcrete
    simp only [Option.map_some', hitem, Option.some.injEq] at hconcrete
    rw [hrow, hconcrete]
    rfl

end VmbC.Examples
